import Mathlib

/-!
Verification development for the AlpacaTradingAgent state-merge engine.

The definitions below are a shallow embedding of:
* `AppState.update_agent_status` and `AppState.process_chunk_updates`
  from `webui/utils/state.py` (the per-symbol chunk processor),
* the merge step of `parallel_analysts_execution` / `execute_single_analyst`
  from `tradingagents/graph/setup.py` (the parallel analyst coordinator),
* `timing_wrapper` from `tradingagents/agents/utils/agent_utils.py`
  (the tool-call timeout wrapper).

Python dict keys that may be absent are modelled with `Option`; a value that
is present but `None` is `some none` in an `Option (Option String)` field.
Wall-clock readings of `time.time()` are passed in explicitly as `Nat`
parameters.  The float guard `new_length < current_length * 1.2` is embedded
as the exact rational comparison `5 * new_length < 6 * current_length`,
which coincides with the IEEE-double computation for all integer lengths
(the relative error of `float(1.2)` is below half an ulp of any product).
-/

/-- Agent status values used by `state.py` (`pending`, `in_progress`,
`completed`). -/
inductive Status
  | pending
  | in_progress
  | completed
deriving DecidableEq

/-- The thirteen agents tracked in `init_symbol_state`'s `agent_statuses`. -/
inductive Agent
  | marketAnalyst
  | socialAnalyst
  | newsAnalyst
  | fundamentalsAnalyst
  | macroAnalyst
  | bullResearcher
  | bearResearcher
  | researchManager
  | trader
  | riskyAnalyst
  | safeAnalyst
  | neutralAnalyst
  | portfolioManager
deriving DecidableEq

/-- The five analyst report fields iterated over by the first loop of
`process_chunk_updates`. -/
inductive AR
  | marketReport
  | sentimentReport
  | newsReport
  | fundamentalsReport
  | macroReport
deriving DecidableEq

/-- All report fields of `current_reports` in `init_symbol_state`. -/
inductive RField
  | marketReport
  | sentimentReport
  | newsReport
  | fundamentalsReport
  | macroReport
  | bullReport
  | bearReport
  | researchManagerReport
  | investmentPlan
  | traderInvestmentPlan
  | riskyReport
  | safeReport
  | neutralReport
  | portfolioDecision
  | finalTradeDecision
deriving DecidableEq

/-- An `investment_debate_state` fragment as it appears in a chunk
(dict with possibly-absent keys). -/
structure InvDebate where
  bull_history : Option String
  bull_messages : Option (List String)
  bear_history : Option String
  bear_messages : Option (List String)
  judge_decision : Option String
deriving DecidableEq

/-- A `risk_debate_state` fragment as it appears in a chunk. -/
structure RiskDebate where
  current_risky_response : Option String
  current_safe_response : Option String
  current_neutral_response : Option String
  risky_history : Option String
  safe_history : Option String
  neutral_history : Option String
  judge_decision : Option String
deriving DecidableEq

/-- A streamed message: `mtype` models the optional `.type` attribute
(`"human"` marks the initial user message). -/
structure Msg where
  mtype : Option String
  content : Option String
deriving DecidableEq

/-- A partial-state chunk consumed by `process_chunk_updates`.  `none`
means the key is absent from the chunk dict; `some none` means the key is
present with value `None`. -/
structure Chunk where
  market_report : Option (Option String)
  sentiment_report : Option (Option String)
  news_report : Option (Option String)
  fundamentals_report : Option (Option String)
  macro_report : Option (Option String)
  investment_debate_state : Option InvDebate
  trader_investment_plan : Option (Option String)
  risk_debate_state : Option RiskDebate
  recommended_action : Option (Option String)
  messages : List Msg

/-- The per-ticker `SymbolState` record of `state.py`.  `report_timestamps`
and `update_counts` default to `0` for untouched fields, matching the
`.get(key, 0)` lookups in the source. -/
structure SymbolState where
  agent_statuses : Agent → Status
  current_reports : RField → Option String
  report_timestamps : AR → Nat
  update_counts : AR → Nat
  investment_debate_state : Option InvDebate
  risk_debate_state : Option RiskDebate
  analysis_complete : Bool
  recommended_action : Option (Option String)

/-- Point update of an agent-status map. -/
def updS (f : Agent → Status) (a : Agent) (v : Status) : Agent → Status :=
  fun b => if b = a then v else f b

/-- Point update of a report map. -/
def updR (f : RField → Option String) (r : RField) (v : Option String) :
    RField → Option String :=
  fun b => if b = r then v else f b

/-- Point update of a timestamp / update-count map. -/
def updN (f : AR → Nat) (r : AR) (v : Nat) : AR → Nat :=
  fun b => if b = r then v else f b

/-- `state["current_reports"][r] = v`. -/
def setRep (s : SymbolState) (r : RField) (v : Option String) : SymbolState :=
  { s with current_reports := updR s.current_reports r v }

/-- `update_agent_status`'s validation: a status string outside
`["pending", "in_progress", "completed"]` is replaced by `"pending"`. -/
def parseStatus (x : String) : Status :=
  if x = "in_progress" then Status.in_progress
  else if x = "completed" then Status.completed
  else Status.pending

/-- `AppState.update_agent_status` for a symbol state whose
`agent_statuses` map contains every agent (as `init_symbol_state`
guarantees).  The source assigns only when the value differs, which is
value-equivalent to always assigning. -/
def update_agent_status (s : SymbolState) (a : Agent) (x : String) :
    SymbolState :=
  { s with agent_statuses := updS s.agent_statuses a (parseStatus x) }

/-- Truthiness of an optional string (Python `if v:`). -/
def otruthy : Option String → Option String
  | some t => if t = "" then none else some t
  | none => none

/-- Truthiness of a possibly-absent, possibly-`None` chunk value
(Python `if key in chunk and chunk[key]:`). -/
def truthy2 : Option (Option String) → Option String
  | some (some t) => if t = "" then none else some t
  | _ => none

/-- Python `str.strip()`: drop whitespace from both ends.  (Defined over
the character list so that it reduces inside the kernel.) -/
def strip (s : String) : String :=
  String.mk (((s.data.dropWhile Char.isWhitespace).reverse.dropWhile
    Char.isWhitespace).reverse)

/-- Python `str.startswith(p)`. -/
def beginsWith (s p : String) : Bool :=
  decide (s.data.take p.data.length = p.data)

/-- Python slicing `s[n:]` (by characters). -/
def dropChars (s : String) (n : Nat) : String :=
  String.mk (s.data.drop n)

/-- Left-to-right, non-overlapping removal of every occurrence of `pat`,
with explicit fuel so the recursion is structural. -/
def removeAllAux (pat : List Char) : Nat → List Char → List Char
  | _, [] => []
  | 0, l => l
  | Nat.succ fuel, c :: rest =>
    if pat ≠ [] ∧ (c :: rest).take pat.length = pat then
      removeAllAux pat fuel (rest.drop (pat.length - 1))
    else c :: removeAllAux pat fuel rest

/-- Python `s.replace(pat, "")`. -/
def removeAll (s pat : String) : String :=
  String.mk (removeAllAux pat.data s.data.length s.data)

/-- The chunk value carried for one of the five analyst report fields. -/
def chunkAR (c : Chunk) : AR → Option (Option String)
  | AR.marketReport => c.market_report
  | AR.sentimentReport => c.sentiment_report
  | AR.newsReport => c.news_report
  | AR.fundamentalsReport => c.fundamentals_report
  | AR.macroReport => c.macro_report

/-- The `current_reports` slot owned by an analyst report field. -/
def arField : AR → RField
  | AR.marketReport => RField.marketReport
  | AR.sentimentReport => RField.sentimentReport
  | AR.newsReport => RField.newsReport
  | AR.fundamentalsReport => RField.fundamentalsReport
  | AR.macroReport => RField.macroReport

/-- The report / timestamp / update-count store of an accepted analyst
report update. -/
def storeReport (s : SymbolState) (r : AR) (txt : String) (now : Nat) :
    SymbolState :=
  { s with
    current_reports := updR s.current_reports (arField r) (some txt)
    report_timestamps := updN s.report_timestamps r now
    update_counts := updN s.update_counts r (s.update_counts r + 1) }

/-- The `report_to_agent` mapping of `process_chunk_updates`. -/
def arAgent : AR → Agent
  | AR.marketReport => Agent.marketAnalyst
  | AR.sentimentReport => Agent.socialAnalyst
  | AR.newsReport => Agent.newsAnalyst
  | AR.fundamentalsReport => Agent.fundamentalsAnalyst
  | AR.macroReport => Agent.macroAnalyst

/-- The transition block at the end of each analyst-report iteration:
an `in_progress` agent that received a report is marked `completed`, and
the next analyst of the display sequence is advanced to `in_progress`
when it is still `pending`.  `st` is the status captured before any
store happened, exactly as `current_status` in the source. -/
def advanceAfterReport (seq : List Agent) (agent : Agent) (st : Status)
    (s : SymbolState) : SymbolState :=
  if st = Status.in_progress then
    let s1 := update_agent_status s agent "completed"
    if agent ∈ seq ∧ seq.getLast? ≠ some agent then
      match seq.get? (seq.findIdx (fun b => decide (b = agent)) + 1) with
      | some nxt =>
          if s1.agent_statuses nxt = Status.pending then
            update_agent_status s1 nxt "in_progress"
          else s1
      | none => s1
    else s1
  else s

/-- One iteration of the analyst-report loop of `process_chunk_updates`
for report field `r`: skip `None`/whitespace content, skip recent exact
duplicates of a completed agent, reject post-completion updates shorter
than 120% of the stored text, drop updates past the 15-update circuit
breaker, otherwise store the report with its timestamp and update count,
then run the status-transition block. -/
def analystStep (seq : List Agent) (now : Nat) (c : Chunk) (r : AR)
    (s : SymbolState) : SymbolState :=
  match chunkAR c r with
  | none => s
  | some none => s
  | some (some txt) =>
    if strip txt = "" then s
    else
      let cur := s.current_reports (arField r)
      let agent := arAgent r
      let st := s.agent_statuses agent
      if some txt = cur ∧ st = Status.completed ∧
          now - s.report_timestamps r < 5 then
        s
      else if (some txt ≠ cur ∨ st ≠ Status.completed) ∧
          st = Status.completed ∧
          5 * txt.length < 6 * (cur.getD "").length then
        s
      else if (some txt ≠ cur ∨ st ≠ Status.completed) ∧
          s.update_counts r > 15 then
        s
      else
        let s1 :=
          if some txt ≠ cur ∨ st ≠ Status.completed then storeReport s r txt now
          else s
        advanceAfterReport seq agent st s1

/-- The full analyst-report loop, in the source's iteration order. -/
def analystLoop (seq : List Agent) (now : Nat) (c : Chunk)
    (s : SymbolState) : SymbolState :=
  analystStep seq now c AR.macroReport
    (analystStep seq now c AR.fundamentalsReport
      (analystStep seq now c AR.newsReport
        (analystStep seq now c AR.sentimentReport
          (analystStep seq now c AR.marketReport s))))

/-- Bull-researcher branch of the investment-debate section. -/
def stageBull (d : InvDebate) (s : SymbolState) : SymbolState :=
  match otruthy d.bull_history with
  | none => s
  | some h =>
    let s1 :=
      if s.agent_statuses Agent.bullResearcher = Status.pending then
        update_agent_status s Agent.bullResearcher "in_progress"
      else s
    let v :=
      match d.bull_messages with
      | some ms =>
        match ms.getLast? with
        | some m => m
        | none => h
      | none => h
    setRep s1 RField.bullReport (some v)

/-- Bear-researcher branch of the investment-debate section. -/
def stageBear (d : InvDebate) (s : SymbolState) : SymbolState :=
  match otruthy d.bear_history with
  | none => s
  | some h =>
    let s1 :=
      if s.agent_statuses Agent.bearResearcher = Status.pending then
        update_agent_status s Agent.bearResearcher "in_progress"
      else s
    let v :=
      match d.bear_messages with
      | some ms =>
        match ms.getLast? with
        | some m => m
        | none => h
      | none => h
    setRep s1 RField.bearReport (some v)

/-- The `investment_debate_state` section of `process_chunk_updates`:
store the fragment, fold the bull and bear branches, and on a truthy
`judge_decision` mark both researchers and the research manager
`completed`, store the decision as the research-manager report and the
investment plan, and set the trader `in_progress`. -/
def invPhase (c : Chunk) (s : SymbolState) : SymbolState :=
  match c.investment_debate_state with
  | none => s
  | some d =>
    let s0 := { s with investment_debate_state := some d }
    let s2 := stageBear d (stageBull d s0)
    match otruthy d.judge_decision with
    | none => s2
    | some j =>
      let s3 := update_agent_status s2 Agent.bullResearcher "completed"
      let s4 := update_agent_status s3 Agent.bearResearcher "completed"
      let s5 := update_agent_status s4 Agent.researchManager "completed"
      let s6 := setRep (setRep s5 RField.researchManagerReport (some j))
        RField.investmentPlan (some j)
      update_agent_status s6 Agent.trader "in_progress"

/-- The `trader_investment_plan` section: store the plan, mark the trader
`completed`, and set the risky analyst `in_progress`. -/
def traderPhase (c : Chunk) (s : SymbolState) : SymbolState :=
  match truthy2 c.trader_investment_plan with
  | none => s
  | some p =>
    let s1 := setRep s RField.traderInvestmentPlan (some p)
    let s2 := update_agent_status s1 Agent.trader "completed"
    update_agent_status s2 Agent.riskyAnalyst "in_progress"

/-- Risky-analyst response branch: the `"Risky Analyst: "` display name is
stripped from the front of the response (15 characters). -/
def stageRisky (rd : RiskDebate) (s : SymbolState) : SymbolState :=
  match otruthy rd.current_risky_response with
  | none => s
  | some t =>
    let s1 :=
      if s.agent_statuses Agent.riskyAnalyst = Status.pending then
        update_agent_status s Agent.riskyAnalyst "in_progress"
      else s
    let v := if beginsWith t "Risky Analyst: " then dropChars t 15 else t
    setRep s1 RField.riskyReport (some v)

/-- Safe-analyst response branch (14-character display name). -/
def stageSafe (rd : RiskDebate) (s : SymbolState) : SymbolState :=
  match otruthy rd.current_safe_response with
  | none => s
  | some t =>
    let s1 :=
      if s.agent_statuses Agent.safeAnalyst = Status.pending then
        update_agent_status s Agent.safeAnalyst "in_progress"
      else s
    let v := if beginsWith t "Safe Analyst: " then dropChars t 14 else t
    setRep s1 RField.safeReport (some v)

/-- Neutral-analyst response branch (17-character display name). -/
def stageNeutral (rd : RiskDebate) (s : SymbolState) : SymbolState :=
  match otruthy rd.current_neutral_response with
  | none => s
  | some t =>
    let s1 :=
      if s.agent_statuses Agent.neutralAnalyst = Status.pending then
        update_agent_status s Agent.neutralAnalyst "in_progress"
      else s
    let v := if beginsWith t "Neutral Analyst: " then dropChars t 17 else t
    setRep s1 RField.neutralReport (some v)

/-- The per-debater back-fill of the risk-judge branch: an empty report
slot is reconstructed from the debater's history when the history key is
present and truthy, stripping every occurrence of the display name and
trimming. -/
def backfill (field : RField) (hist : Option String) (speaker : String)
    (s : SymbolState) : SymbolState :=
  if (s.current_reports field).getD "" = "" then
    match hist with
    | some h =>
      if h = "" then s
      else
        setRep s field (some (strip (removeAll h speaker)))
    | none => s
  else s

/-- The risk-judge branch: back-fill the three debater reports, mark the
three debaters and the portfolio manager `completed`, store the decision
in both terminal fields, copy `recommended_action` when the chunk carries
the key, and mark the analysis complete. -/
def riskJudge (rd : RiskDebate) (c : Chunk) (s : SymbolState) : SymbolState :=
  match otruthy rd.judge_decision with
  | none => s
  | some j =>
    let s1 := backfill RField.riskyReport rd.risky_history "Risky Analyst: " s
    let s2 := backfill RField.safeReport rd.safe_history "Safe Analyst: " s1
    let s3 := backfill RField.neutralReport rd.neutral_history "Neutral Analyst: " s2
    let s4 := update_agent_status s3 Agent.riskyAnalyst "completed"
    let s5 := update_agent_status s4 Agent.safeAnalyst "completed"
    let s6 := update_agent_status s5 Agent.neutralAnalyst "completed"
    let s7 := update_agent_status s6 Agent.portfolioManager "completed"
    let s8 := setRep (setRep s7 RField.portfolioDecision (some j))
      RField.finalTradeDecision (some j)
    let s9 :=
      match c.recommended_action with
      | some v => { s8 with recommended_action := some v }
      | none => s8
    { s9 with analysis_complete := true }

/-- The `risk_debate_state` section of `process_chunk_updates`. -/
def riskPhase (c : Chunk) (s : SymbolState) : SymbolState :=
  match c.risk_debate_state with
  | none => s
  | some rd =>
    let s0 := { s with risk_debate_state := some rd }
    riskJudge rd c (stageNeutral rd (stageSafe rd (stageRisky rd s0)))

/-- All thirteen agents, as enumerated by `agent_statuses.values()`. -/
def agentList : List Agent :=
  [Agent.marketAnalyst, Agent.socialAnalyst, Agent.newsAnalyst,
   Agent.fundamentalsAnalyst, Agent.macroAnalyst, Agent.bullResearcher,
   Agent.bearResearcher, Agent.researchManager, Agent.trader,
   Agent.riskyAnalyst, Agent.safeAnalyst, Agent.neutralAnalyst,
   Agent.portfolioManager]

/-- The five analyst report fields, in iteration order. -/
def arList : List AR :=
  [AR.marketReport, AR.sentimentReport, AR.newsReport,
   AR.fundamentalsReport, AR.macroReport]

/-- The final messages block of `process_chunk_updates`: on the first
human message, if no agent at all is `in_progress`, the first `pending`
analyst of the display sequence is set `in_progress`.  (The preceding
messages block only appends to the process-wide LLM-call log, which is
not part of the `SymbolState`.) -/
def humanPhase (seq : List Agent) (c : Chunk) (s : SymbolState) :
    SymbolState :=
  if c.messages.any (fun m => decide (m.mtype = some "human")) then
    if agentList.any (fun a => decide (s.agent_statuses a = Status.in_progress)) then
      s
    else
      match seq.find? (fun a => decide (s.agent_statuses a = Status.pending)) with
      | some a => update_agent_status s a "in_progress"
      | none => s
  else s

/-- `AppState.process_chunk_updates` restricted to its effect on the
symbol state being analyzed: the analyst-report loop, the
investment-debate section, the trader-plan section, the risk-debate
section, and the human-message initialisation, in source order.
`seq` is the analyst display sequence (`default_sequence` filtered by the
active analysts) and `now` the `time.time()` reading of this call. -/
def process_chunk_updates (seq : List Agent) (now : Nat) (c : Chunk)
    (s : SymbolState) : SymbolState :=
  humanPhase seq c
    (riskPhase c
      (traderPhase c
        (invPhase c
          (analystLoop seq now c s))))

/-- Folding a whole stream of timed chunks into a symbol state. -/
def processChunks (seq : List Agent) : List (Nat × Chunk) → SymbolState →
    SymbolState
  | [], s => s
  | (n, c) :: rest, s => processChunks seq rest (process_chunk_updates seq n c s)

/-- The fresh symbol state built by `init_symbol_state`: all statuses
`pending`, all reports `None`, empty timestamp and update-count maps,
no debate fragments, analysis not complete. -/
def init_symbol_state : SymbolState where
  agent_statuses := fun _ => Status.pending
  current_reports := fun _ => none
  report_timestamps := fun _ => 0
  update_counts := fun _ => 0
  investment_debate_state := none
  risk_debate_state := none
  analysis_complete := false
  recommended_action := none

/-- The default analyst display sequence of `process_chunk_updates`. -/
def defaultSeq : List Agent :=
  [Agent.marketAnalyst, Agent.socialAnalyst, Agent.newsAnalyst,
   Agent.fundamentalsAnalyst, Agent.macroAnalyst]

/-- Forward progress rank of a status. -/
def rank : Status → Nat
  | Status.pending => 0
  | Status.in_progress => 1
  | Status.completed => 2

/-- The chunk with no keys and no messages. -/
def emptyChunk : Chunk where
  market_report := none
  sentiment_report := none
  news_report := none
  fundamentals_report := none
  macro_report := none
  investment_debate_state := none
  trader_investment_plan := none
  risk_debate_state := none
  recommended_action := none
  messages := []

/-!
## The parallel analyst coordinator (`tradingagents/graph/setup.py`)

`parallel_analysts_execution` fans analysts out over a thread pool, then
merges every completed result into a deep copy of the base state.  The
graph state is modelled as its message list plus a string-keyed dict of
report fields; a message is either the `("human", ticker)` tuple of
`create_initial_state` (which has no `content` attribute) or a message
object with an optional `content`.
-/

/-- A message in the graph state. -/
inductive PMsg
  | tup (role : String) (text : String)
  | obj (content : Option String)
deriving DecidableEq

/-- The graph `AgentState`, restricted to what the coordinator reads and
writes: the message list and the string-keyed report fields. -/
structure GState where
  messages : List PMsg
  fields : List (String × String)
deriving DecidableEq

/-- Dict lookup (`key in d` / `d.get(key)` combined). -/
def lookupF : List (String × String) → String → Option String
  | [], _ => none
  | (k0, v0) :: rest, k => if k0 = k then some v0 else lookupF rest k

/-- Dict assignment: replace in place, append when the key is new. -/
def insertF : List (String × String) → String → String → List (String × String)
  | [], k, v => [(k, v)]
  | (k0, v0) :: rest, k, v =>
    if k0 = k then (k0, v) :: rest else (k0, v0) :: insertF rest k v

/-- The analyst types `setup_graph` knows about. -/
inductive AnalystType
  | market
  | social
  | news
  | fundamentals
  | macroeconomic
deriving DecidableEq

/-- `f"{analyst_type}_report"`, with the one irregular mapping:
`social` writes `sentiment_report`. -/
def reportField : AnalystType → String
  | AnalystType.market => "market_report"
  | AnalystType.social => "sentiment_report"
  | AnalystType.news => "news_report"
  | AnalystType.fundamentals => "fundamentals_report"
  | AnalystType.macroeconomic => "macro_report"

/-- Report extraction used by the merge loop: the last message's truthy
`content` attribute when there is one, otherwise the state's own report
field when it is present and truthy. -/
def extractContent (st : GState) (field : String) : Option String :=
  let fromMsg : Option String :=
    match st.messages.getLast? with
    | some (PMsg.obj (some t)) => if t = "" then none else some t
    | _ => none
  match fromMsg with
  | some t => some t
  | none =>
    match lookupF st.fields field with
    | some v => if v = "" then none else some v
    | none => none

/-- `execute_single_analyst`'s failure containment: the body catches every
exception and returns the analyst's deep copy of the input state, so a
failing analyst contributes the base state to the merge (the
`future.result()` fallback in the collection loop does the same).  The
embedding is total: the coordinator itself never raises. -/
def execute_single_analyst (state : GState) (run : Except String GState) :
    GState :=
  match run with
  | Except.ok st => st
  | Except.error _ => state

/-- One iteration of the merge loop of `parallel_analysts_execution`:
extract the analyst's report and store it under its report field, or make
sure the field at least exists (empty string) when nothing was
extracted. -/
def mergeStep (acc : GState) (entry : AnalystType × GState) : GState :=
  let field := reportField entry.1
  match extractContent entry.2 field with
  | some content => { acc with fields := insertF acc.fields field content }
  | none =>
    if (lookupF acc.fields field).isSome then acc
    else { acc with fields := insertF acc.fields field "" }

/-- The merge phase of `parallel_analysts_execution`: fold every
completed analyst result into a deep copy of the base state. -/
def parallel_analysts_execution (base : GState)
    (completed : List (AnalystType × GState)) : GState :=
  completed.foldl mergeStep base

/-- A full coordinator run: each selected analyst's execution behaviour
(normal result or raised exception) is resolved through
`execute_single_analyst` against the shared base state, then merged. -/
def coordinatorRun (base : GState)
    (runs : List (AnalystType × Except String GState)) : GState :=
  parallel_analysts_execution base
    (runs.map (fun p => (p.1, execute_single_analyst base p.2)))

/-!
## Derived predicates and characterizations used by the statements
-/

/-- The truthy, non-whitespace text a chunk carries for analyst report
field `r`, if any (the loop skips `None` and whitespace-only values). -/
def activeTxt (c : Chunk) (r : AR) : Option String :=
  match chunkAR c r with
  | some (some t) => if strip t = "" then none else some t
  | _ => none

/-- Does the chunk carry a processable value for analyst field `r`? -/
def reportActive (c : Chunk) (r : AR) : Bool :=
  (activeTxt c r).isSome

/-- Every analyst report field carried by the chunk has its owning agent
`completed` in `s`. -/
def ownersDone (c : Chunk) (s : SymbolState) : Bool :=
  arList.all fun r =>
    !(reportActive c r) || decide (s.agent_statuses (arAgent r) = Status.completed)

/-- A configuration in which the analyst-report step leaves the state
untouched: the carried text differs from the stored report and is either
too short for the post-completion length guard or blocked by the
update-count circuit breaker. -/
def rejectCfg (v : SymbolState) (r : AR) (txt : String) : Prop :=
  some txt ≠ v.current_reports (arField r) ∧
    (5 * txt.length < 6 * ((v.current_reports (arField r)).getD "").length ∨
      v.update_counts r > 15)

/-- A chunk whose `risk_debate_state` carries a truthy `judge_decision`. -/
def isRiskJudgeChunk (c : Chunk) : Bool :=
  match c.risk_debate_state with
  | some rd => (otruthy rd.judge_decision).isSome
  | none => false

/-- Number of `false → true` transitions of `analysis_complete` while a
stream of timed chunks is folded in. -/
def flagFlips (seq : List Agent) : List (Nat × Chunk) → SymbolState → Nat
  | [], _ => 0
  | (n, c) :: rest, s =>
    let s' := process_chunk_updates seq n c s
    (if s.analysis_complete = false ∧ s'.analysis_complete = true then 1 else 0) +
      flagFlips seq rest s'

/-- The chunk with analyst report field `r` removed. -/
def chunkWithout (c : Chunk) : AR → Chunk
  | AR.marketReport => { c with market_report := none }
  | AR.sentimentReport => { c with sentiment_report := none }
  | AR.newsReport => { c with news_report := none }
  | AR.fundamentalsReport => { c with fundamentals_report := none }
  | AR.macroReport => { c with macro_report := none }

/-- The bull report value the investment-debate section would store:
latest structured message when available, full history otherwise. -/
def bullVal (d : InvDebate) : Option String :=
  match otruthy d.bull_history with
  | some h =>
    some (match d.bull_messages with
      | some ms =>
        match ms.getLast? with
        | some m => m
        | none => h
      | none => h)
  | none => none

/-- The bear analogue of `bullVal`. -/
def bearVal (d : InvDebate) : Option String :=
  match otruthy d.bear_history with
  | some h =>
    some (match d.bear_messages with
      | some ms =>
        match ms.getLast? with
        | some m => m
        | none => h
      | none => h)
  | none => none

/-- The risky-report value written by the response branch, if any. -/
def riskyStageVal (rd : RiskDebate) : Option String :=
  (otruthy rd.current_risky_response).map fun t =>
    if beginsWith t "Risky Analyst: " then dropChars t 15 else t

/-- The safe-report value written by the response branch, if any. -/
def safeStageVal (rd : RiskDebate) : Option String :=
  (otruthy rd.current_safe_response).map fun t =>
    if beginsWith t "Safe Analyst: " then dropChars t 14 else t

/-- The neutral-report value written by the response branch, if any. -/
def neutralStageVal (rd : RiskDebate) : Option String :=
  (otruthy rd.current_neutral_response).map fun t =>
    if beginsWith t "Neutral Analyst: " then dropChars t 17 else t

/-- The value the judge-branch back-fill leaves in a debater report
slot: an empty slot is reconstructed from the truthy history, everything
else is kept. -/
def backfillVal (hist : Option String) (sp : String) (x : Option String) :
    Option String :=
  if x.getD "" = "" then
    match hist with
    | some h => if h = "" then x else some (strip (removeAll h sp))
    | none => x
  else x

/-- What the risk-debate section turns an incoming risky report into:
the response overwrite, then the judge-branch back-fill. -/
def riskyRepF (rd : RiskDebate) (x : Option String) : Option String :=
  let y := match riskyStageVal rd with
    | some v => some v
    | none => x
  match otruthy rd.judge_decision with
  | none => y
  | some _ => backfillVal rd.risky_history "Risky Analyst: " y

/-- The safe analogue of `riskyRepF`. -/
def safeRepF (rd : RiskDebate) (x : Option String) : Option String :=
  let y := match safeStageVal rd with
    | some v => some v
    | none => x
  match otruthy rd.judge_decision with
  | none => y
  | some _ => backfillVal rd.safe_history "Safe Analyst: " y

/-- The neutral analogue of `riskyRepF`. -/
def neutralRepF (rd : RiskDebate) (x : Option String) : Option String :=
  let y := match neutralStageVal rd with
    | some v => some v
    | none => x
  match otruthy rd.judge_decision with
  | none => y
  | some _ => backfillVal rd.neutral_history "Neutral Analyst: " y

/-- Forward-only status evolution, with the two unguarded regressions of
the source exempted: every status that reads `pending` after processing
already was `pending`, and every agent other than the trader and the
risky analyst only moves forward. -/
def Progress (s t : SymbolState) : Prop :=
  (∀ a, t.agent_statuses a = Status.pending → s.agent_statuses a = Status.pending) ∧
    ∀ a, a ≠ Agent.trader → a ≠ Agent.riskyAnalyst →
      rank (s.agent_statuses a) ≤ rank (t.agent_statuses a)

/-!
## Concrete states and chunks used by counterexamples and witnesses
-/

/-- A chunk carrying only a trader investment plan. -/
def chunkTraderPlan : Chunk :=
  { emptyChunk with trader_investment_plan := some (some "Plan: buy 10 shares") }

/-- An investment-debate fragment carrying only a judge decision. -/
def invJudgeOnly : InvDebate :=
  { bull_history := none, bull_messages := none, bear_history := none,
    bear_messages := none, judge_decision := some "BUY" }

/-- A chunk carrying only an investment-debate judge decision. -/
def chunkInvJudge : Chunk :=
  { emptyChunk with investment_debate_state := some invJudgeOnly }

/-- A chunk carrying an investment judge decision together with a trader
plan. -/
def chunkInvJudgeAndPlan : Chunk :=
  { emptyChunk with
    investment_debate_state := some invJudgeOnly
    trader_investment_plan := some (some "Plan: buy 10 shares") }

/-- A chunk carrying only a market report. -/
def chunkMarketA : Chunk :=
  { emptyChunk with market_report := some (some "A") }

/-- A chunk carrying a 12-character market report. -/
def chunkMarketLong : Chunk :=
  { emptyChunk with market_report := some (some "012345678901") }

/-- A chunk whose market report is whitespace only. -/
def chunkMarketBlank : Chunk :=
  { emptyChunk with market_report := some (some "   ") }

/-- A symbol state whose market analyst is `completed` with a stored
ten-character report whose update count has passed the hard cap. -/
def stateMarketCapped : SymbolState :=
  { init_symbol_state with
    agent_statuses :=
      updS init_symbol_state.agent_statuses Agent.marketAnalyst Status.completed
    current_reports :=
      updR init_symbol_state.current_reports RField.marketReport (some "0123456789")
    update_counts := updN init_symbol_state.update_counts AR.marketReport 16 }

/-- A symbol state whose market analyst is `completed` with a stored
ten-character report and no recorded updates. -/
def stateMarketDone : SymbolState :=
  { init_symbol_state with
    agent_statuses :=
      updS init_symbol_state.agent_statuses Agent.marketAnalyst Status.completed
    current_reports :=
      updR init_symbol_state.current_reports RField.marketReport (some "0123456789") }

/-- A symbol state whose market analyst is `in_progress`. -/
def stateMarketInProgress : SymbolState :=
  { init_symbol_state with
    agent_statuses :=
      updS init_symbol_state.agent_statuses Agent.marketAnalyst Status.in_progress }

/-- A risk-debate fragment carrying a judge decision and a risky
history. -/
def riskJudgeFrag : RiskDebate :=
  { current_risky_response := none, current_safe_response := none,
    current_neutral_response := none,
    risky_history := some "Risky Analyst: take the trade",
    safe_history := none, neutral_history := none,
    judge_decision := some "SELL" }

/-- A chunk carrying only the risk-debate judge fragment. -/
def chunkRiskJudge : Chunk :=
  { emptyChunk with risk_debate_state := some riskJudgeFrag }

/-- The coordinator base state after message coercion: the initial human
message carries the ticker as truthy `content`. -/
def baseWithObjMsg : GState :=
  { messages := [PMsg.obj (some "AAPL")],
    fields := [("market_report", ""), ("fundamentals_report", ""),
      ("sentiment_report", ""), ("news_report", ""), ("macro_report", "")] }

/-- The coordinator base state exactly as `create_initial_state` builds
it: the human message is a `(role, text)` tuple without a `content`
attribute. -/
def baseWithTupMsg : GState :=
  { messages := [PMsg.tup "human" "AAPL"],
    fields := [("market_report", ""), ("fundamentals_report", ""),
      ("sentiment_report", ""), ("news_report", ""), ("macro_report", "")] }

/-- A successful news-analyst result state. -/
def newsResult : GState :=
  { messages := [PMsg.obj (some "news says up")], fields := [] }

/-!
## The tool-call timeout wrapper (`agent_utils.timing_wrapper`)

The wrapped callable is abstracted by how long it would run and what it
would produce; the wrapper races it against the effective timeout budget,
appends exactly one record to the shared tool-call log, and either
returns a result, returns a synthesized timeout message, or re-raises
the callable's exception.
-/

/-- One entry of `app_state.tool_calls_log`. -/
structure ToolCallRecord where
  tool_name : String
  output : String
  status : String
  agent_type : String
deriving DecidableEq

/-- `timeout_seconds`, plus 180 extra seconds for web-search tools
(120 + 180 = 300 by default). -/
def effectiveTimeout (timeout_seconds : Nat) (uses_web_search : Bool) : Nat :=
  if uses_web_search then timeout_seconds + 180 else timeout_seconds

/-- The string returned to the caller on a timeout. -/
def timeoutReturnMsg (tool_name : String) (tmo : Nat) : String :=
  "Error: Tool '" ++ tool_name ++ "' timed out after " ++ toString tmo ++
    "s. This may indicate network issues, API problems, or insufficient data."

/-- Behaviour of the wrapped callable: its running time and its
completed outcome (normal result or raised exception). -/
structure CallBehavior where
  duration : Nat
  outcome : Except String String

/-- `timing_wrapper`'s wrapper function.  `future.result(timeout)`
raises `TimeoutError` exactly when the callable runs longer than the
effective budget; in that case the wrapper logs a `timeout` record and
returns the synthesized message instead of raising.  A callable that
completes in time either logs `success` and returns the result, or
logs `error` and re-raises. -/
def timing_wrapper (analyst_type tool_name : String)
    (timeout_seconds : Nat) (uses_web_search : Bool) (b : CallBehavior)
    (log : List ToolCallRecord) :
    List ToolCallRecord × Except String String :=
  let tmo := effectiveTimeout timeout_seconds uses_web_search
  if tmo < b.duration then
    (log ++ [⟨tool_name,
        "TIMEOUT ERROR: TIMEOUT: Tool '" ++ tool_name ++ "' exceeded " ++
          toString tmo ++ "s limit", "timeout", analyst_type⟩],
      Except.ok (timeoutReturnMsg tool_name tmo))
  else
    match b.outcome with
    | Except.ok r => (log ++ [⟨tool_name, r, "success", analyst_type⟩], Except.ok r)
    | Except.error m =>
      (log ++ [⟨tool_name, "ERROR: " ++ m, "error", analyst_type⟩], Except.error m)

/-!
## Basic update, projection, and evaluation lemmas
-/

@[simp] theorem updS_eq (f : Agent → Status) (a : Agent) (v : Status) :
    updS f a v a = v := by
  simp [updS]

theorem updS_ne (f : Agent → Status) (a : Agent) (v : Status) (b : Agent)
    (h : b ≠ a) : updS f a v b = f b := by
  simp [updS, h]

theorem updS_self (f : Agent → Status) (a : Agent) (v : Status)
    (h : f a = v) : updS f a v = f := by
  funext b
  by_cases hb : b = a
  · subst hb; simp [updS, h]
  · simp [updS, hb]

theorem updS_updS (f : Agent → Status) (a : Agent) (v w : Status) :
    updS (updS f a v) a w = updS f a w := by
  funext b
  by_cases hb : b = a <;> simp [updS, hb]

@[simp] theorem updR_eq (f : RField → Option String) (r : RField)
    (v : Option String) : updR f r v r = v := by
  simp [updR]

theorem updR_ne (f : RField → Option String) (r : RField)
    (v : Option String) (b : RField) (h : b ≠ r) : updR f r v b = f b := by
  simp [updR, h]

theorem updR_self (f : RField → Option String) (r : RField)
    (v : Option String) (h : f r = v) : updR f r v = f := by
  funext b
  by_cases hb : b = r
  · subst hb; simp [updR, h]
  · simp [updR, hb]

@[simp] theorem updN_eq (f : AR → Nat) (r : AR) (v : Nat) :
    updN f r v r = v := by
  simp [updN]

theorem updN_ne (f : AR → Nat) (r : AR) (v : Nat) (b : AR) (h : b ≠ r) :
    updN f r v b = f b := by
  simp [updN, h]

@[simp] theorem uas_statuses (s : SymbolState) (a : Agent) (x : String) :
    (update_agent_status s a x).agent_statuses =
      updS s.agent_statuses a (parseStatus x) := rfl

@[simp] theorem uas_reports (s : SymbolState) (a : Agent) (x : String) :
    (update_agent_status s a x).current_reports = s.current_reports := rfl

@[simp] theorem uas_timestamps (s : SymbolState) (a : Agent) (x : String) :
    (update_agent_status s a x).report_timestamps = s.report_timestamps := rfl

@[simp] theorem uas_counts (s : SymbolState) (a : Agent) (x : String) :
    (update_agent_status s a x).update_counts = s.update_counts := rfl

@[simp] theorem uas_inv (s : SymbolState) (a : Agent) (x : String) :
    (update_agent_status s a x).investment_debate_state =
      s.investment_debate_state := rfl

@[simp] theorem uas_risk (s : SymbolState) (a : Agent) (x : String) :
    (update_agent_status s a x).risk_debate_state = s.risk_debate_state := rfl

@[simp] theorem uas_flag (s : SymbolState) (a : Agent) (x : String) :
    (update_agent_status s a x).analysis_complete = s.analysis_complete := rfl

@[simp] theorem uas_rec (s : SymbolState) (a : Agent) (x : String) :
    (update_agent_status s a x).recommended_action = s.recommended_action := rfl

@[simp] theorem parseStatus_completed : parseStatus "completed" = Status.completed := rfl

@[simp] theorem parseStatus_in_progress :
    parseStatus "in_progress" = Status.in_progress := rfl

theorem uas_self (s : SymbolState) (a : Agent) (x : String)
    (h : s.agent_statuses a = parseStatus x) : update_agent_status s a x = s := by
  show { s with agent_statuses := updS s.agent_statuses a (parseStatus x) } = s
  rw [updS_self _ _ _ h]

@[simp] theorem setRep_reports (s : SymbolState) (r : RField) (v : Option String) :
    (setRep s r v).current_reports = updR s.current_reports r v := rfl

@[simp] theorem setRep_statuses (s : SymbolState) (r : RField) (v : Option String) :
    (setRep s r v).agent_statuses = s.agent_statuses := rfl

@[simp] theorem setRep_timestamps (s : SymbolState) (r : RField) (v : Option String) :
    (setRep s r v).report_timestamps = s.report_timestamps := rfl

@[simp] theorem setRep_counts (s : SymbolState) (r : RField) (v : Option String) :
    (setRep s r v).update_counts = s.update_counts := rfl

@[simp] theorem setRep_inv (s : SymbolState) (r : RField) (v : Option String) :
    (setRep s r v).investment_debate_state = s.investment_debate_state := rfl

@[simp] theorem setRep_risk (s : SymbolState) (r : RField) (v : Option String) :
    (setRep s r v).risk_debate_state = s.risk_debate_state := rfl

@[simp] theorem setRep_flag (s : SymbolState) (r : RField) (v : Option String) :
    (setRep s r v).analysis_complete = s.analysis_complete := rfl

@[simp] theorem setRep_rec (s : SymbolState) (r : RField) (v : Option String) :
    (setRep s r v).recommended_action = s.recommended_action := rfl

theorem setRep_self (s : SymbolState) (r : RField) (v : Option String)
    (h : s.current_reports r = v) : setRep s r v = s := by
  show { s with current_reports := updR s.current_reports r v } = s
  rw [updR_self _ _ _ h]

@[simp] theorem storeReport_reports (s : SymbolState) (r : AR) (txt : String)
    (now : Nat) : (storeReport s r txt now).current_reports =
      updR s.current_reports (arField r) (some txt) := rfl

@[simp] theorem storeReport_statuses (s : SymbolState) (r : AR) (txt : String)
    (now : Nat) : (storeReport s r txt now).agent_statuses = s.agent_statuses := rfl

@[simp] theorem storeReport_timestamps (s : SymbolState) (r : AR) (txt : String)
    (now : Nat) : (storeReport s r txt now).report_timestamps =
      updN s.report_timestamps r now := rfl

@[simp] theorem storeReport_counts (s : SymbolState) (r : AR) (txt : String)
    (now : Nat) : (storeReport s r txt now).update_counts =
      updN s.update_counts r (s.update_counts r + 1) := rfl

@[simp] theorem storeReport_inv (s : SymbolState) (r : AR) (txt : String)
    (now : Nat) : (storeReport s r txt now).investment_debate_state =
      s.investment_debate_state := rfl

@[simp] theorem storeReport_risk (s : SymbolState) (r : AR) (txt : String)
    (now : Nat) : (storeReport s r txt now).risk_debate_state =
      s.risk_debate_state := rfl

@[simp] theorem storeReport_flag (s : SymbolState) (r : AR) (txt : String)
    (now : Nat) : (storeReport s r txt now).analysis_complete =
      s.analysis_complete := rfl

@[simp] theorem storeReport_rec (s : SymbolState) (r : AR) (txt : String)
    (now : Nat) : (storeReport s r txt now).recommended_action =
      s.recommended_action := rfl

theorem mem_agentList (a : Agent) : a ∈ agentList := by
  cases a <;> simp [agentList]

theorem arField_inj (r r' : AR) (h : arField r = arField r') : r = r' := by
  cases r <;> cases r' <;> first | rfl | exact absurd h (by decide)

theorem arAgent_inj (r r' : AR) (h : arAgent r = arAgent r') : r = r' := by
  cases r <;> cases r' <;> first | rfl | exact absurd h (by decide)

theorem rank_le_two (v : Status) : rank v ≤ 2 := by
  cases v <;> decide

theorem rank_completed_le (v : Status) (h : rank Status.completed ≤ rank v) :
    v = Status.completed := by
  cases v <;> first | rfl | exact absurd h (by decide)

/-!
## Forward-progress lemmas for the status state machine
-/

theorem Progress.rfl (s : SymbolState) : Progress s s :=
  ⟨fun _ h => h, fun _ _ _ => le_refl _⟩

theorem Progress.trans {s t u : SymbolState} (h1 : Progress s t)
    (h2 : Progress t u) : Progress s u :=
  ⟨fun a h => h1.1 a (h2.1 a h),
   fun a n1 n2 => le_trans (h1.2 a n1 n2) (h2.2 a n1 n2)⟩

theorem Progress.of_statuses_eq {s t : SymbolState}
    (h : t.agent_statuses = s.agent_statuses) : Progress s t := by
  refine ⟨fun a ha => ?_, fun a _ _ => ?_⟩
  · rwa [h] at ha
  · rw [h]

theorem progress_uas_completed (s : SymbolState) (a : Agent) :
    Progress s (update_agent_status s a "completed") := by
  refine ⟨fun b hb => ?_, fun b _ _ => ?_⟩
  · by_cases h : b = a
    · subst h
      rw [uas_statuses, updS_eq] at hb
      exact absurd hb (by decide)
    · rwa [uas_statuses, updS_ne _ _ _ _ h] at hb
  · by_cases h : b = a
    · subst h
      rw [uas_statuses, updS_eq, parseStatus_completed]
      exact le_trans (rank_le_two _) (by decide)
    · rw [uas_statuses, updS_ne _ _ _ _ h]

theorem progress_uas_ip_pending (s : SymbolState) (a : Agent)
    (hp : s.agent_statuses a = Status.pending) :
    Progress s (update_agent_status s a "in_progress") := by
  refine ⟨fun b hb => ?_, fun b _ _ => ?_⟩
  · by_cases h : b = a
    · subst h
      rw [uas_statuses, updS_eq] at hb
      exact absurd hb (by decide)
    · rwa [uas_statuses, updS_ne _ _ _ _ h] at hb
  · by_cases h : b = a
    · subst h
      rw [uas_statuses, updS_eq, parseStatus_in_progress, hp]
      decide
    · rw [uas_statuses, updS_ne _ _ _ _ h]

theorem progress_uas_ip_excl (s : SymbolState) (a : Agent)
    (hex : a = Agent.trader ∨ a = Agent.riskyAnalyst) :
    Progress s (update_agent_status s a "in_progress") := by
  refine ⟨fun b hb => ?_, fun b n1 n2 => ?_⟩
  · by_cases h : b = a
    · subst h
      rw [uas_statuses, updS_eq] at hb
      exact absurd hb (by decide)
    · rwa [uas_statuses, updS_ne _ _ _ _ h] at hb
  · by_cases h : b = a
    · subst h
      rcases hex with h' | h'
      · exact absurd h' n1
      · exact absurd h' n2
    · rw [uas_statuses, updS_ne _ _ _ _ h]

theorem progress_advance (seq : List Agent) (agent : Agent) (st : Status)
    (s : SymbolState) : Progress s (advanceAfterReport seq agent st s) := by
  unfold advanceAfterReport
  dsimp only
  split
  · split
    · split
      · split
        · rename_i hp
          exact Progress.trans (progress_uas_completed s agent)
            (progress_uas_ip_pending _ _ hp)
        · exact progress_uas_completed s agent
      · exact progress_uas_completed s agent
    · exact progress_uas_completed s agent
  · exact Progress.rfl s

theorem progress_stageBull (d : InvDebate) (s : SymbolState) :
    Progress s (stageBull d s) := by
  unfold stageBull
  cases otruthy d.bull_history with
  | none => exact Progress.rfl s
  | some h =>
    dsimp only
    refine Progress.trans ?_ (Progress.of_statuses_eq (setRep_statuses _ _ _))
    split
    · rename_i hp
      exact progress_uas_ip_pending _ _ hp
    · exact Progress.rfl s

theorem progress_stageBear (d : InvDebate) (s : SymbolState) :
    Progress s (stageBear d s) := by
  unfold stageBear
  cases otruthy d.bear_history with
  | none => exact Progress.rfl s
  | some h =>
    dsimp only
    refine Progress.trans ?_ (Progress.of_statuses_eq (setRep_statuses _ _ _))
    split
    · rename_i hp
      exact progress_uas_ip_pending _ _ hp
    · exact Progress.rfl s

theorem progress_stageRisky (rd : RiskDebate) (s : SymbolState) :
    Progress s (stageRisky rd s) := by
  unfold stageRisky
  cases otruthy rd.current_risky_response with
  | none => exact Progress.rfl s
  | some t =>
    dsimp only
    refine Progress.trans ?_ (Progress.of_statuses_eq (setRep_statuses _ _ _))
    split
    · rename_i hp
      exact progress_uas_ip_pending _ _ hp
    · exact Progress.rfl s

theorem progress_stageSafe (rd : RiskDebate) (s : SymbolState) :
    Progress s (stageSafe rd s) := by
  unfold stageSafe
  cases otruthy rd.current_safe_response with
  | none => exact Progress.rfl s
  | some t =>
    dsimp only
    refine Progress.trans ?_ (Progress.of_statuses_eq (setRep_statuses _ _ _))
    split
    · rename_i hp
      exact progress_uas_ip_pending _ _ hp
    · exact Progress.rfl s

theorem progress_stageNeutral (rd : RiskDebate) (s : SymbolState) :
    Progress s (stageNeutral rd s) := by
  unfold stageNeutral
  cases otruthy rd.current_neutral_response with
  | none => exact Progress.rfl s
  | some t =>
    dsimp only
    refine Progress.trans ?_ (Progress.of_statuses_eq (setRep_statuses _ _ _))
    split
    · rename_i hp
      exact progress_uas_ip_pending _ _ hp
    · exact Progress.rfl s

theorem progress_invPhase (c : Chunk) (s : SymbolState) :
    Progress s (invPhase c s) := by
  unfold invPhase
  cases c.investment_debate_state with
  | none => exact Progress.rfl s
  | some d =>
    dsimp only
    have h0 : Progress s { s with investment_debate_state := some d } :=
      Progress.of_statuses_eq rfl
    have h1 := Progress.trans h0
      (Progress.trans (progress_stageBull d _) (progress_stageBear d _))
    cases otruthy d.judge_decision with
    | none => exact h1
    | some j =>
      dsimp only
      refine Progress.trans h1 ?_
      refine Progress.trans (progress_uas_completed _ Agent.bullResearcher) ?_
      refine Progress.trans (progress_uas_completed _ Agent.bearResearcher) ?_
      refine Progress.trans (progress_uas_completed _ Agent.researchManager) ?_
      exact Progress.trans (Progress.of_statuses_eq rfl)
        (progress_uas_ip_excl _ _ (Or.inl rfl))

theorem progress_traderPhase (c : Chunk) (s : SymbolState) :
    Progress s (traderPhase c s) := by
  unfold traderPhase
  cases truthy2 c.trader_investment_plan with
  | none => exact Progress.rfl s
  | some p =>
    dsimp only
    refine Progress.trans (Progress.of_statuses_eq
      (setRep_statuses s RField.traderInvestmentPlan (some p))) ?_
    refine Progress.trans (progress_uas_completed _ Agent.trader) ?_
    exact progress_uas_ip_excl _ _ (Or.inr rfl)

theorem backfill_statuses (field : RField) (hist : Option String)
    (sp : String) (s : SymbolState) :
    (backfill field hist sp s).agent_statuses = s.agent_statuses := by
  unfold backfill
  split
  · cases hist with
    | none => rfl
    | some h =>
      dsimp only
      split <;> rfl
  · rfl

theorem progress_riskJudge (rd : RiskDebate) (c : Chunk) (s : SymbolState) :
    Progress s (riskJudge rd c s) := by
  unfold riskJudge
  cases otruthy rd.judge_decision with
  | none => exact Progress.rfl s
  | some j =>
    dsimp only
    refine Progress.trans (Progress.of_statuses_eq
      (backfill_statuses RField.riskyReport rd.risky_history "Risky Analyst: " s)) ?_
    refine Progress.trans (Progress.of_statuses_eq
      (backfill_statuses RField.safeReport rd.safe_history "Safe Analyst: " _)) ?_
    refine Progress.trans (Progress.of_statuses_eq
      (backfill_statuses RField.neutralReport rd.neutral_history "Neutral Analyst: " _)) ?_
    refine Progress.trans (progress_uas_completed _ Agent.riskyAnalyst) ?_
    refine Progress.trans (progress_uas_completed _ Agent.safeAnalyst) ?_
    refine Progress.trans (progress_uas_completed _ Agent.neutralAnalyst) ?_
    refine Progress.trans (progress_uas_completed _ Agent.portfolioManager) ?_
    refine Progress.of_statuses_eq ?_
    cases c.recommended_action <;> rfl

theorem progress_riskPhase (c : Chunk) (s : SymbolState) :
    Progress s (riskPhase c s) := by
  unfold riskPhase
  cases c.risk_debate_state with
  | none => exact Progress.rfl s
  | some rd =>
    dsimp only
    refine Progress.trans
      (Progress.of_statuses_eq (rfl :
        ({ s with risk_debate_state := some rd } : SymbolState).agent_statuses =
          s.agent_statuses)) ?_
    refine Progress.trans (progress_stageRisky rd _) ?_
    refine Progress.trans (progress_stageSafe rd _) ?_
    refine Progress.trans (progress_stageNeutral rd _) ?_
    exact progress_riskJudge rd c _

theorem progress_humanPhase (seq : List Agent) (c : Chunk) (s : SymbolState) :
    Progress s (humanPhase seq c s) := by
  unfold humanPhase
  split
  · split
    · exact Progress.rfl s
    · cases hf : seq.find? (fun a => decide (s.agent_statuses a = Status.pending)) with
      | none => exact Progress.rfl s
      | some a =>
        have hp := List.find?_some hf
        exact progress_uas_ip_pending _ _ (of_decide_eq_true hp)
  · exact Progress.rfl s

theorem progress_analystStep (seq : List Agent) (now : Nat) (c : Chunk)
    (r : AR) (s : SymbolState) : Progress s (analystStep seq now c r s) := by
  unfold analystStep
  cases chunkAR c r with
  | none => exact Progress.rfl s
  | some v =>
    cases v with
    | none => exact Progress.rfl s
    | some txt =>
      dsimp only
      split
      · exact Progress.rfl s
      · split
        · exact Progress.rfl s
        · split
          · exact Progress.rfl s
          · split
            · exact Progress.rfl s
            · refine Progress.trans ?_ (progress_advance seq (arAgent r) _ _)
              split
              · exact Progress.of_statuses_eq (storeReport_statuses _ _ _ _)
              · exact Progress.rfl s

theorem progress_analystLoop (seq : List Agent) (now : Nat) (c : Chunk)
    (s : SymbolState) : Progress s (analystLoop seq now c s) := by
  unfold analystLoop
  refine Progress.trans (progress_analystStep seq now c AR.marketReport s) ?_
  refine Progress.trans (progress_analystStep seq now c AR.sentimentReport _) ?_
  refine Progress.trans (progress_analystStep seq now c AR.newsReport _) ?_
  refine Progress.trans (progress_analystStep seq now c AR.fundamentalsReport _) ?_
  exact progress_analystStep seq now c AR.macroReport _

theorem progress_process (seq : List Agent) (now : Nat) (c : Chunk)
    (s : SymbolState) : Progress s (process_chunk_updates seq now c s) := by
  unfold process_chunk_updates
  refine Progress.trans (progress_analystLoop seq now c s) ?_
  refine Progress.trans (progress_invPhase c _) ?_
  refine Progress.trans (progress_traderPhase c _) ?_
  refine Progress.trans (progress_riskPhase c _) ?_
  exact progress_humanPhase seq c _

theorem progress_processChunks (seq : List Agent) (cs : List (Nat × Chunk))
    (s : SymbolState) : Progress s (processChunks seq cs s) := by
  induction cs generalizing s with
  | nil => exact Progress.rfl s
  | cons p rest ih =>
    obtain ⟨n, c⟩ := p
    exact Progress.trans (progress_process seq n c s) (ih _)

theorem completed_preserved {s t : SymbolState} (hP : Progress s t)
    (a : Agent) (h1 : a ≠ Agent.trader) (h2 : a ≠ Agent.riskyAnalyst)
    (hc : s.agent_statuses a = Status.completed) :
    t.agent_statuses a = Status.completed := by
  have := hP.2 a h1 h2
  rw [hc] at this
  exact rank_completed_le _ this

theorem nonpending_preserved {s t : SymbolState} (hP : Progress s t)
    (a : Agent) (h : s.agent_statuses a ≠ Status.pending) :
    t.agent_statuses a ≠ Status.pending :=
  fun hh => h (hP.1 a hh)

/-!
## Claim 1: status monotonicity
-/

/-- **C1, counterexample.**  Replaying an investment-debate
`judge_decision` chunk after the trader plan has been processed drives
the Trader from `completed` back to `in_progress`: the unconditional
`update_agent_status("Trader", "in_progress")` at the end of the
investment-debate branch has no monotonicity guard. -/
theorem claim1_counterexample :
    (process_chunk_updates defaultSeq 0 chunkTraderPlan init_symbol_state).agent_statuses
        Agent.trader = Status.completed ∧
      (process_chunk_updates defaultSeq 1 chunkInvJudge
          (process_chunk_updates defaultSeq 0 chunkTraderPlan
            init_symbol_state)).agent_statuses Agent.trader =
        Status.in_progress := by
  constructor <;> rfl

/-- **C1, amended.**  For every symbol state and every chunk sequence
folded in by `process_chunk_updates`: no agent's status ever returns to
`pending` once it has left it (so `completed → pending` and
`in_progress → pending` never occur), and every agent other than the
Trader and the Risky Analyst only moves forward
(`pending → in_progress → completed`).  The Trader and the Risky
Analyst can regress `completed → in_progress` when an
investment-debate `judge_decision` chunk (respectively a
`trader_investment_plan` chunk) is replayed after their completion. -/
theorem claim1_status_forward (seq : List Agent) (cs : List (Nat × Chunk))
    (s : SymbolState) (a : Agent) :
    ((processChunks seq cs s).agent_statuses a = Status.pending →
        s.agent_statuses a = Status.pending) ∧
      (a ≠ Agent.trader → a ≠ Agent.riskyAnalyst →
        rank (s.agent_statuses a) ≤ rank ((processChunks seq cs s).agent_statuses a)) :=
  ⟨fun h => (progress_processChunks seq cs s).1 a h,
   fun h1 h2 => (progress_processChunks seq cs s).2 a h1 h2⟩

/-- Witness for `claim1_status_forward` at a concrete run. -/
theorem claim1_status_forward_witness :
    init_symbol_state.agent_statuses Agent.marketAnalyst = Status.pending ∧
      rank (init_symbol_state.agent_statuses Agent.marketAnalyst) ≤
        rank ((processChunks defaultSeq [(0, chunkMarketA)]
          init_symbol_state).agent_statuses Agent.marketAnalyst) :=
  ⟨(claim1_status_forward defaultSeq [] init_symbol_state Agent.marketAnalyst).1 rfl,
   (claim1_status_forward defaultSeq [(0, chunkMarketA)] init_symbol_state
      Agent.marketAnalyst).2 (by decide) (by decide)⟩

/-!
## Claim 9: invalid status strings
-/

/-- **C9.**  `update_agent_status` with a status string outside
`{"pending", "in_progress", "completed"}` never raises (the embedding is
a total function, mirroring the source's warn-and-default path) and
overwrites the stored status with `pending` — the assignment is
unconditional, so it also fires when the agent was previously
`completed`. -/
theorem claim9_invalid_status_defaults_pending (s : SymbolState) (a : Agent)
    (x : String) (_h1 : x ≠ "pending") (h2 : x ≠ "in_progress")
    (h3 : x ≠ "completed") :
    (update_agent_status s a x).agent_statuses a = Status.pending := by
  rw [uas_statuses, updS_eq]
  unfold parseStatus
  rw [if_neg h2, if_neg h3]

/-- Witness for `claim9_invalid_status_defaults_pending`: the market
analyst was `completed` and is knocked back to `pending` by the invalid
status string `"error"`. -/
theorem claim9_witness :
    stateMarketCapped.agent_statuses Agent.marketAnalyst = Status.completed ∧
      (update_agent_status stateMarketCapped Agent.marketAnalyst
        "error").agent_statuses Agent.marketAnalyst = Status.pending :=
  ⟨by decide,
   claim9_invalid_status_defaults_pending stateMarketCapped Agent.marketAnalyst
     "error" (by decide) (by decide) (by decide)⟩

/-!
## Claim 10: `None` / whitespace-only analyst report values
-/

theorem analystStep_none (seq : List Agent) (now : Nat) (c : Chunk) (r : AR)
    (h : chunkAR c r = none) (s : SymbolState) :
    analystStep seq now c r s = s := by
  unfold analystStep
  rw [h]

theorem analystStep_skip (seq : List Agent) (now : Nat) (c : Chunk) (r : AR)
    (h : chunkAR c r = some none ∨
      ∃ t, chunkAR c r = some (some t) ∧ strip t = "") (s : SymbolState) :
    analystStep seq now c r s = s := by
  unfold analystStep
  rcases h with h | ⟨t, h, ht⟩
  · rw [h]
  · rw [h]
    dsimp only
    rw [if_pos ht]

theorem riskJudge_congr {c c' : Chunk} (rd : RiskDebate)
    (h : c'.recommended_action = c.recommended_action) (s : SymbolState) :
    riskJudge rd c' s = riskJudge rd c s := by
  unfold riskJudge
  rw [h]

theorem riskPhase_congr {c c' : Chunk}
    (h1 : c'.risk_debate_state = c.risk_debate_state)
    (h2 : c'.recommended_action = c.recommended_action) (s : SymbolState) :
    riskPhase c' s = riskPhase c s := by
  unfold riskPhase
  rw [h1]
  cases c.risk_debate_state with
  | none => rfl
  | some rd => exact riskJudge_congr rd h2 _

theorem invPhase_congr {c c' : Chunk}
    (h : c'.investment_debate_state = c.investment_debate_state)
    (s : SymbolState) : invPhase c' s = invPhase c s := by
  unfold invPhase
  rw [h]

theorem traderPhase_congr {c c' : Chunk}
    (h : c'.trader_investment_plan = c.trader_investment_plan)
    (s : SymbolState) : traderPhase c' s = traderPhase c s := by
  unfold traderPhase
  rw [h]

theorem humanPhase_congr (seq : List Agent) {c c' : Chunk}
    (h : c'.messages = c.messages) (s : SymbolState) :
    humanPhase seq c' s = humanPhase seq c s := by
  unfold humanPhase
  rw [h]

/-- **C10.**  A chunk whose value for one of the five analyst report
fields is `None` or a whitespace-only string is processed exactly like
the same chunk without that key: the `continue` at the top of the loop
body skips the field before any store, timestamp, update count, or
status transition can be triggered by it. -/
theorem claim10_blank_report_noop (seq : List Agent) (now : Nat) (c : Chunk)
    (s : SymbolState) (r : AR)
    (h : chunkAR c r = some none ∨
      ∃ t, chunkAR c r = some (some t) ∧ strip t = "") :
    process_chunk_updates seq now c s =
      process_chunk_updates seq now (chunkWithout c r) s := by
  have hmsg : (chunkWithout c r).messages = c.messages := by cases r <;> rfl
  have hinv : (chunkWithout c r).investment_debate_state =
      c.investment_debate_state := by cases r <;> rfl
  have htp : (chunkWithout c r).trader_investment_plan =
      c.trader_investment_plan := by cases r <;> rfl
  have hrisk : (chunkWithout c r).risk_debate_state = c.risk_debate_state := by
    cases r <;> rfl
  have hrec : (chunkWithout c r).recommended_action = c.recommended_action := by
    cases r <;> rfl
  have hnone : chunkAR (chunkWithout c r) r = none := by cases r <;> rfl
  have hloop : analystLoop seq now (chunkWithout c r) s =
      analystLoop seq now c s := by
    unfold analystLoop
    cases r <;>
      simp only [analystStep_skip seq now c _ h,
        analystStep_none seq now (chunkWithout c _) _ hnone] <;> rfl
  unfold process_chunk_updates
  rw [humanPhase_congr seq hmsg, riskPhase_congr hrisk hrec,
    traderPhase_congr htp, invPhase_congr hinv, hloop]

/-- Witness for `claim10_blank_report_noop`: a whitespace-only market
report value is a no-op. -/
theorem claim10_witness :
    (chunkAR chunkMarketBlank AR.marketReport = some (some "   ") ∧
        strip "   " = "") ∧
      process_chunk_updates defaultSeq 0 chunkMarketBlank init_symbol_state =
        process_chunk_updates defaultSeq 0
          (chunkWithout chunkMarketBlank AR.marketReport) init_symbol_state :=
  ⟨⟨rfl, by decide⟩,
   claim10_blank_report_noop defaultSeq 0 chunkMarketBlank init_symbol_state
     AR.marketReport (Or.inr ⟨"   ", rfl, by decide⟩)⟩

/-!
## Frame lemmas: which components each phase leaves untouched
-/

theorem advance_reports (seq : List Agent) (agent : Agent) (st : Status)
    (s : SymbolState) :
    (advanceAfterReport seq agent st s).current_reports = s.current_reports := by
  unfold advanceAfterReport
  dsimp only
  repeat' split
  all_goals rfl

theorem advance_timestamps (seq : List Agent) (agent : Agent) (st : Status)
    (s : SymbolState) :
    (advanceAfterReport seq agent st s).report_timestamps = s.report_timestamps := by
  unfold advanceAfterReport
  dsimp only
  repeat' split
  all_goals rfl

theorem advance_counts (seq : List Agent) (agent : Agent) (st : Status)
    (s : SymbolState) :
    (advanceAfterReport seq agent st s).update_counts = s.update_counts := by
  unfold advanceAfterReport
  dsimp only
  repeat' split
  all_goals rfl

theorem advance_inv (seq : List Agent) (agent : Agent) (st : Status)
    (s : SymbolState) :
    (advanceAfterReport seq agent st s).investment_debate_state =
      s.investment_debate_state := by
  unfold advanceAfterReport
  dsimp only
  repeat' split
  all_goals rfl

theorem advance_risk (seq : List Agent) (agent : Agent) (st : Status)
    (s : SymbolState) :
    (advanceAfterReport seq agent st s).risk_debate_state =
      s.risk_debate_state := by
  unfold advanceAfterReport
  dsimp only
  repeat' split
  all_goals rfl

theorem advance_flag (seq : List Agent) (agent : Agent) (st : Status)
    (s : SymbolState) :
    (advanceAfterReport seq agent st s).analysis_complete =
      s.analysis_complete := by
  unfold advanceAfterReport
  dsimp only
  repeat' split
  all_goals rfl

theorem advance_rec (seq : List Agent) (agent : Agent) (st : Status)
    (s : SymbolState) :
    (advanceAfterReport seq agent st s).recommended_action =
      s.recommended_action := by
  unfold advanceAfterReport
  dsimp only
  repeat' split
  all_goals rfl

theorem analystStep_inv (seq : List Agent) (now : Nat) (c : Chunk) (r : AR)
    (s : SymbolState) :
    (analystStep seq now c r s).investment_debate_state =
      s.investment_debate_state := by
  unfold analystStep
  cases chunkAR c r with
  | none => rfl
  | some v =>
    cases v with
    | none => rfl
    | some txt =>
      dsimp only
      repeat' split
      all_goals simp only [advance_inv, storeReport_inv]

theorem analystStep_risk (seq : List Agent) (now : Nat) (c : Chunk) (r : AR)
    (s : SymbolState) :
    (analystStep seq now c r s).risk_debate_state = s.risk_debate_state := by
  unfold analystStep
  cases chunkAR c r with
  | none => rfl
  | some v =>
    cases v with
    | none => rfl
    | some txt =>
      dsimp only
      repeat' split
      all_goals simp only [advance_risk, storeReport_risk]

theorem analystStep_flag (seq : List Agent) (now : Nat) (c : Chunk) (r : AR)
    (s : SymbolState) :
    (analystStep seq now c r s).analysis_complete = s.analysis_complete := by
  unfold analystStep
  cases chunkAR c r with
  | none => rfl
  | some v =>
    cases v with
    | none => rfl
    | some txt =>
      dsimp only
      repeat' split
      all_goals simp only [advance_flag, storeReport_flag]

theorem analystStep_rec (seq : List Agent) (now : Nat) (c : Chunk) (r : AR)
    (s : SymbolState) :
    (analystStep seq now c r s).recommended_action = s.recommended_action := by
  unfold analystStep
  cases chunkAR c r with
  | none => rfl
  | some v =>
    cases v with
    | none => rfl
    | some txt =>
      dsimp only
      repeat' split
      all_goals simp only [advance_rec, storeReport_rec]

theorem analystStep_reports_ne (seq : List Agent) (now : Nat) (c : Chunk)
    (r : AR) (s : SymbolState) (b : RField) (hb : b ≠ arField r) :
    (analystStep seq now c r s).current_reports b = s.current_reports b := by
  unfold analystStep
  cases chunkAR c r with
  | none => rfl
  | some v =>
    cases v with
    | none => rfl
    | some txt =>
      dsimp only
      repeat' split
      all_goals simp only [advance_reports, storeReport_reports,
        updR_ne _ _ _ _ hb]

theorem analystStep_timestamps_ne (seq : List Agent) (now : Nat) (c : Chunk)
    (r : AR) (s : SymbolState) (b : AR) (hb : b ≠ r) :
    (analystStep seq now c r s).report_timestamps b = s.report_timestamps b := by
  unfold analystStep
  cases chunkAR c r with
  | none => rfl
  | some v =>
    cases v with
    | none => rfl
    | some txt =>
      dsimp only
      repeat' split
      all_goals simp only [advance_timestamps, storeReport_timestamps,
        updN_ne _ _ _ _ hb]

theorem analystStep_counts_ne (seq : List Agent) (now : Nat) (c : Chunk)
    (r : AR) (s : SymbolState) (b : AR) (hb : b ≠ r) :
    (analystStep seq now c r s).update_counts b = s.update_counts b := by
  unfold analystStep
  cases chunkAR c r with
  | none => rfl
  | some v =>
    cases v with
    | none => rfl
    | some txt =>
      dsimp only
      repeat' split
      all_goals simp only [advance_counts, storeReport_counts,
        updN_ne _ _ _ _ hb]

theorem stageBull_timestamps (d : InvDebate) (s : SymbolState) :
    (stageBull d s).report_timestamps = s.report_timestamps := by
  unfold stageBull
  cases otruthy d.bull_history with
  | none => rfl
  | some h =>
    dsimp only
    repeat' split
    all_goals rfl

theorem stageBull_counts (d : InvDebate) (s : SymbolState) :
    (stageBull d s).update_counts = s.update_counts := by
  unfold stageBull
  cases otruthy d.bull_history with
  | none => rfl
  | some h =>
    dsimp only
    repeat' split
    all_goals rfl

theorem stageBull_inv (d : InvDebate) (s : SymbolState) :
    (stageBull d s).investment_debate_state = s.investment_debate_state := by
  unfold stageBull
  cases otruthy d.bull_history with
  | none => rfl
  | some h =>
    dsimp only
    repeat' split
    all_goals rfl

theorem stageBull_risk (d : InvDebate) (s : SymbolState) :
    (stageBull d s).risk_debate_state = s.risk_debate_state := by
  unfold stageBull
  cases otruthy d.bull_history with
  | none => rfl
  | some h =>
    dsimp only
    repeat' split
    all_goals rfl

theorem stageBull_flag (d : InvDebate) (s : SymbolState) :
    (stageBull d s).analysis_complete = s.analysis_complete := by
  unfold stageBull
  cases otruthy d.bull_history with
  | none => rfl
  | some h =>
    dsimp only
    repeat' split
    all_goals rfl

theorem stageBull_rec (d : InvDebate) (s : SymbolState) :
    (stageBull d s).recommended_action = s.recommended_action := by
  unfold stageBull
  cases otruthy d.bull_history with
  | none => rfl
  | some h =>
    dsimp only
    repeat' split
    all_goals rfl

theorem stageBull_reports_ne (d : InvDebate) (s : SymbolState) (b : RField)
    (hb : b ≠ RField.bullReport) :
    (stageBull d s).current_reports b = s.current_reports b := by
  unfold stageBull
  cases otruthy d.bull_history with
  | none => rfl
  | some h =>
    dsimp only
    repeat' split
    all_goals simp only [setRep_reports, uas_reports, updR_ne _ _ _ _ hb]

theorem stageBear_timestamps (d : InvDebate) (s : SymbolState) :
    (stageBear d s).report_timestamps = s.report_timestamps := by
  unfold stageBear
  cases otruthy d.bear_history with
  | none => rfl
  | some h =>
    dsimp only
    repeat' split
    all_goals rfl

theorem stageBear_counts (d : InvDebate) (s : SymbolState) :
    (stageBear d s).update_counts = s.update_counts := by
  unfold stageBear
  cases otruthy d.bear_history with
  | none => rfl
  | some h =>
    dsimp only
    repeat' split
    all_goals rfl

theorem stageBear_inv (d : InvDebate) (s : SymbolState) :
    (stageBear d s).investment_debate_state = s.investment_debate_state := by
  unfold stageBear
  cases otruthy d.bear_history with
  | none => rfl
  | some h =>
    dsimp only
    repeat' split
    all_goals rfl

theorem stageBear_risk (d : InvDebate) (s : SymbolState) :
    (stageBear d s).risk_debate_state = s.risk_debate_state := by
  unfold stageBear
  cases otruthy d.bear_history with
  | none => rfl
  | some h =>
    dsimp only
    repeat' split
    all_goals rfl

theorem stageBear_flag (d : InvDebate) (s : SymbolState) :
    (stageBear d s).analysis_complete = s.analysis_complete := by
  unfold stageBear
  cases otruthy d.bear_history with
  | none => rfl
  | some h =>
    dsimp only
    repeat' split
    all_goals rfl

theorem stageBear_rec (d : InvDebate) (s : SymbolState) :
    (stageBear d s).recommended_action = s.recommended_action := by
  unfold stageBear
  cases otruthy d.bear_history with
  | none => rfl
  | some h =>
    dsimp only
    repeat' split
    all_goals rfl

theorem stageBear_reports_ne (d : InvDebate) (s : SymbolState) (b : RField)
    (hb : b ≠ RField.bearReport) :
    (stageBear d s).current_reports b = s.current_reports b := by
  unfold stageBear
  cases otruthy d.bear_history with
  | none => rfl
  | some h =>
    dsimp only
    repeat' split
    all_goals simp only [setRep_reports, uas_reports, updR_ne _ _ _ _ hb]

theorem stageRisky_timestamps (rd : RiskDebate) (s : SymbolState) :
    (stageRisky rd s).report_timestamps = s.report_timestamps := by
  unfold stageRisky
  cases otruthy rd.current_risky_response with
  | none => rfl
  | some h =>
    dsimp only
    repeat' split
    all_goals rfl

theorem stageRisky_counts (rd : RiskDebate) (s : SymbolState) :
    (stageRisky rd s).update_counts = s.update_counts := by
  unfold stageRisky
  cases otruthy rd.current_risky_response with
  | none => rfl
  | some h =>
    dsimp only
    repeat' split
    all_goals rfl

theorem stageRisky_inv (rd : RiskDebate) (s : SymbolState) :
    (stageRisky rd s).investment_debate_state = s.investment_debate_state := by
  unfold stageRisky
  cases otruthy rd.current_risky_response with
  | none => rfl
  | some h =>
    dsimp only
    repeat' split
    all_goals rfl

theorem stageRisky_risk (rd : RiskDebate) (s : SymbolState) :
    (stageRisky rd s).risk_debate_state = s.risk_debate_state := by
  unfold stageRisky
  cases otruthy rd.current_risky_response with
  | none => rfl
  | some h =>
    dsimp only
    repeat' split
    all_goals rfl

theorem stageRisky_flag (rd : RiskDebate) (s : SymbolState) :
    (stageRisky rd s).analysis_complete = s.analysis_complete := by
  unfold stageRisky
  cases otruthy rd.current_risky_response with
  | none => rfl
  | some h =>
    dsimp only
    repeat' split
    all_goals rfl

theorem stageRisky_rec (rd : RiskDebate) (s : SymbolState) :
    (stageRisky rd s).recommended_action = s.recommended_action := by
  unfold stageRisky
  cases otruthy rd.current_risky_response with
  | none => rfl
  | some h =>
    dsimp only
    repeat' split
    all_goals rfl

theorem stageRisky_reports_ne (rd : RiskDebate) (s : SymbolState) (b : RField)
    (hb : b ≠ RField.riskyReport) :
    (stageRisky rd s).current_reports b = s.current_reports b := by
  unfold stageRisky
  cases otruthy rd.current_risky_response with
  | none => rfl
  | some h =>
    dsimp only
    repeat' split
    all_goals simp only [setRep_reports, uas_reports, updR_ne _ _ _ _ hb]

theorem stageSafe_timestamps (rd : RiskDebate) (s : SymbolState) :
    (stageSafe rd s).report_timestamps = s.report_timestamps := by
  unfold stageSafe
  cases otruthy rd.current_safe_response with
  | none => rfl
  | some h =>
    dsimp only
    repeat' split
    all_goals rfl

theorem stageSafe_counts (rd : RiskDebate) (s : SymbolState) :
    (stageSafe rd s).update_counts = s.update_counts := by
  unfold stageSafe
  cases otruthy rd.current_safe_response with
  | none => rfl
  | some h =>
    dsimp only
    repeat' split
    all_goals rfl

theorem stageSafe_inv (rd : RiskDebate) (s : SymbolState) :
    (stageSafe rd s).investment_debate_state = s.investment_debate_state := by
  unfold stageSafe
  cases otruthy rd.current_safe_response with
  | none => rfl
  | some h =>
    dsimp only
    repeat' split
    all_goals rfl

theorem stageSafe_risk (rd : RiskDebate) (s : SymbolState) :
    (stageSafe rd s).risk_debate_state = s.risk_debate_state := by
  unfold stageSafe
  cases otruthy rd.current_safe_response with
  | none => rfl
  | some h =>
    dsimp only
    repeat' split
    all_goals rfl

theorem stageSafe_flag (rd : RiskDebate) (s : SymbolState) :
    (stageSafe rd s).analysis_complete = s.analysis_complete := by
  unfold stageSafe
  cases otruthy rd.current_safe_response with
  | none => rfl
  | some h =>
    dsimp only
    repeat' split
    all_goals rfl

theorem stageSafe_rec (rd : RiskDebate) (s : SymbolState) :
    (stageSafe rd s).recommended_action = s.recommended_action := by
  unfold stageSafe
  cases otruthy rd.current_safe_response with
  | none => rfl
  | some h =>
    dsimp only
    repeat' split
    all_goals rfl

theorem stageSafe_reports_ne (rd : RiskDebate) (s : SymbolState) (b : RField)
    (hb : b ≠ RField.safeReport) :
    (stageSafe rd s).current_reports b = s.current_reports b := by
  unfold stageSafe
  cases otruthy rd.current_safe_response with
  | none => rfl
  | some h =>
    dsimp only
    repeat' split
    all_goals simp only [setRep_reports, uas_reports, updR_ne _ _ _ _ hb]

theorem stageNeutral_timestamps (rd : RiskDebate) (s : SymbolState) :
    (stageNeutral rd s).report_timestamps = s.report_timestamps := by
  unfold stageNeutral
  cases otruthy rd.current_neutral_response with
  | none => rfl
  | some h =>
    dsimp only
    repeat' split
    all_goals rfl

theorem stageNeutral_counts (rd : RiskDebate) (s : SymbolState) :
    (stageNeutral rd s).update_counts = s.update_counts := by
  unfold stageNeutral
  cases otruthy rd.current_neutral_response with
  | none => rfl
  | some h =>
    dsimp only
    repeat' split
    all_goals rfl

theorem stageNeutral_inv (rd : RiskDebate) (s : SymbolState) :
    (stageNeutral rd s).investment_debate_state = s.investment_debate_state := by
  unfold stageNeutral
  cases otruthy rd.current_neutral_response with
  | none => rfl
  | some h =>
    dsimp only
    repeat' split
    all_goals rfl

theorem stageNeutral_risk (rd : RiskDebate) (s : SymbolState) :
    (stageNeutral rd s).risk_debate_state = s.risk_debate_state := by
  unfold stageNeutral
  cases otruthy rd.current_neutral_response with
  | none => rfl
  | some h =>
    dsimp only
    repeat' split
    all_goals rfl

theorem stageNeutral_flag (rd : RiskDebate) (s : SymbolState) :
    (stageNeutral rd s).analysis_complete = s.analysis_complete := by
  unfold stageNeutral
  cases otruthy rd.current_neutral_response with
  | none => rfl
  | some h =>
    dsimp only
    repeat' split
    all_goals rfl

theorem stageNeutral_rec (rd : RiskDebate) (s : SymbolState) :
    (stageNeutral rd s).recommended_action = s.recommended_action := by
  unfold stageNeutral
  cases otruthy rd.current_neutral_response with
  | none => rfl
  | some h =>
    dsimp only
    repeat' split
    all_goals rfl

theorem stageNeutral_reports_ne (rd : RiskDebate) (s : SymbolState) (b : RField)
    (hb : b ≠ RField.neutralReport) :
    (stageNeutral rd s).current_reports b = s.current_reports b := by
  unfold stageNeutral
  cases otruthy rd.current_neutral_response with
  | none => rfl
  | some h =>
    dsimp only
    repeat' split
    all_goals simp only [setRep_reports, uas_reports, updR_ne _ _ _ _ hb]

theorem backfill_timestamps (field : RField) (hist : Option String) (sp : String)
    (s : SymbolState) : (backfill field hist sp s).report_timestamps = s.report_timestamps := by
  unfold backfill
  repeat' split
  all_goals rfl

theorem backfill_counts (field : RField) (hist : Option String) (sp : String)
    (s : SymbolState) : (backfill field hist sp s).update_counts = s.update_counts := by
  unfold backfill
  repeat' split
  all_goals rfl

theorem backfill_inv (field : RField) (hist : Option String) (sp : String)
    (s : SymbolState) : (backfill field hist sp s).investment_debate_state = s.investment_debate_state := by
  unfold backfill
  repeat' split
  all_goals rfl

theorem backfill_risk (field : RField) (hist : Option String) (sp : String)
    (s : SymbolState) : (backfill field hist sp s).risk_debate_state = s.risk_debate_state := by
  unfold backfill
  repeat' split
  all_goals rfl

theorem backfill_flag (field : RField) (hist : Option String) (sp : String)
    (s : SymbolState) : (backfill field hist sp s).analysis_complete = s.analysis_complete := by
  unfold backfill
  repeat' split
  all_goals rfl

theorem backfill_rec (field : RField) (hist : Option String) (sp : String)
    (s : SymbolState) : (backfill field hist sp s).recommended_action = s.recommended_action := by
  unfold backfill
  repeat' split
  all_goals rfl

theorem backfill_reports_ne (field : RField) (hist : Option String)
    (sp : String) (s : SymbolState) (b : RField) (hb : b ≠ field) :
    (backfill field hist sp s).current_reports b = s.current_reports b := by
  unfold backfill
  repeat' split
  all_goals simp only [setRep_reports, updR_ne _ _ _ _ hb]

theorem invPhase_timestamps (c : Chunk) (s : SymbolState) :
    (invPhase c s).report_timestamps = s.report_timestamps := by
  unfold invPhase
  cases c.investment_debate_state with
  | none => rfl
  | some d =>
    dsimp only
    cases otruthy d.judge_decision with
    | none => rw [stageBear_timestamps, stageBull_timestamps]
    | some j =>
      dsimp only
      simp only [uas_timestamps, setRep_timestamps]
      rw [stageBear_timestamps, stageBull_timestamps]

theorem invPhase_counts (c : Chunk) (s : SymbolState) :
    (invPhase c s).update_counts = s.update_counts := by
  unfold invPhase
  cases c.investment_debate_state with
  | none => rfl
  | some d =>
    dsimp only
    cases otruthy d.judge_decision with
    | none => rw [stageBear_counts, stageBull_counts]
    | some j =>
      dsimp only
      simp only [uas_counts, setRep_counts]
      rw [stageBear_counts, stageBull_counts]

theorem invPhase_risk (c : Chunk) (s : SymbolState) :
    (invPhase c s).risk_debate_state = s.risk_debate_state := by
  unfold invPhase
  cases c.investment_debate_state with
  | none => rfl
  | some d =>
    dsimp only
    cases otruthy d.judge_decision with
    | none => rw [stageBear_risk, stageBull_risk]
    | some j =>
      dsimp only
      simp only [uas_risk, setRep_risk]
      rw [stageBear_risk, stageBull_risk]

theorem invPhase_flag (c : Chunk) (s : SymbolState) :
    (invPhase c s).analysis_complete = s.analysis_complete := by
  unfold invPhase
  cases c.investment_debate_state with
  | none => rfl
  | some d =>
    dsimp only
    cases otruthy d.judge_decision with
    | none => rw [stageBear_flag, stageBull_flag]
    | some j =>
      dsimp only
      simp only [uas_flag, setRep_flag]
      rw [stageBear_flag, stageBull_flag]

theorem invPhase_rec (c : Chunk) (s : SymbolState) :
    (invPhase c s).recommended_action = s.recommended_action := by
  unfold invPhase
  cases c.investment_debate_state with
  | none => rfl
  | some d =>
    dsimp only
    cases otruthy d.judge_decision with
    | none => rw [stageBear_rec, stageBull_rec]
    | some j =>
      dsimp only
      simp only [uas_rec, setRep_rec]
      rw [stageBear_rec, stageBull_rec]

theorem invPhase_inv_some (c : Chunk) (d : InvDebate) (s : SymbolState)
    (hc : c.investment_debate_state = some d) :
    (invPhase c s).investment_debate_state = some d := by
  unfold invPhase
  rw [hc]
  dsimp only
  cases otruthy d.judge_decision with
  | none => rw [stageBear_inv, stageBull_inv]
  | some j =>
    dsimp only
    simp only [uas_inv, setRep_inv]
    rw [stageBear_inv, stageBull_inv]

theorem invPhase_reports_ne (c : Chunk) (s : SymbolState) (b : RField)
    (hb1 : b ≠ RField.bullReport) (hb2 : b ≠ RField.bearReport)
    (hb3 : b ≠ RField.researchManagerReport)
    (hb4 : b ≠ RField.investmentPlan) :
    (invPhase c s).current_reports b = s.current_reports b := by
  unfold invPhase
  cases c.investment_debate_state with
  | none => rfl
  | some d =>
    dsimp only
    cases otruthy d.judge_decision with
    | none =>
      rw [stageBear_reports_ne _ _ _ hb2, stageBull_reports_ne _ _ _ hb1]
    | some j =>
      dsimp only
      simp only [uas_reports, setRep_reports, updR_ne _ _ _ _ hb4,
        updR_ne _ _ _ _ hb3]
      rw [stageBear_reports_ne _ _ _ hb2, stageBull_reports_ne _ _ _ hb1]

theorem traderPhase_timestamps (c : Chunk) (s : SymbolState) :
    (traderPhase c s).report_timestamps = s.report_timestamps := by
  unfold traderPhase
  repeat' split
  all_goals rfl

theorem traderPhase_counts (c : Chunk) (s : SymbolState) :
    (traderPhase c s).update_counts = s.update_counts := by
  unfold traderPhase
  repeat' split
  all_goals rfl

theorem traderPhase_inv (c : Chunk) (s : SymbolState) :
    (traderPhase c s).investment_debate_state = s.investment_debate_state := by
  unfold traderPhase
  repeat' split
  all_goals rfl

theorem traderPhase_risk (c : Chunk) (s : SymbolState) :
    (traderPhase c s).risk_debate_state = s.risk_debate_state := by
  unfold traderPhase
  repeat' split
  all_goals rfl

theorem traderPhase_flag (c : Chunk) (s : SymbolState) :
    (traderPhase c s).analysis_complete = s.analysis_complete := by
  unfold traderPhase
  repeat' split
  all_goals rfl

theorem traderPhase_rec (c : Chunk) (s : SymbolState) :
    (traderPhase c s).recommended_action = s.recommended_action := by
  unfold traderPhase
  repeat' split
  all_goals rfl

theorem traderPhase_reports_ne (c : Chunk) (s : SymbolState) (b : RField)
    (hb : b ≠ RField.traderInvestmentPlan) :
    (traderPhase c s).current_reports b = s.current_reports b := by
  unfold traderPhase
  cases truthy2 c.trader_investment_plan with
  | none => rfl
  | some p =>
    dsimp only
    simp only [uas_reports, setRep_reports, updR_ne _ _ _ _ hb]

theorem riskJudge_timestamps (rd : RiskDebate) (c : Chunk) (s : SymbolState) :
    (riskJudge rd c s).report_timestamps = s.report_timestamps := by
  unfold riskJudge
  cases otruthy rd.judge_decision with
  | none => rfl
  | some j =>
    dsimp only
    cases c.recommended_action <;>
      simp only [uas_timestamps, setRep_timestamps, backfill_timestamps]

theorem riskJudge_counts (rd : RiskDebate) (c : Chunk) (s : SymbolState) :
    (riskJudge rd c s).update_counts = s.update_counts := by
  unfold riskJudge
  cases otruthy rd.judge_decision with
  | none => rfl
  | some j =>
    dsimp only
    cases c.recommended_action <;>
      simp only [uas_counts, setRep_counts, backfill_counts]

theorem riskJudge_inv (rd : RiskDebate) (c : Chunk) (s : SymbolState) :
    (riskJudge rd c s).investment_debate_state = s.investment_debate_state := by
  unfold riskJudge
  cases otruthy rd.judge_decision with
  | none => rfl
  | some j =>
    dsimp only
    cases c.recommended_action <;>
      simp only [uas_inv, setRep_inv, backfill_inv]

theorem riskJudge_risk (rd : RiskDebate) (c : Chunk) (s : SymbolState) :
    (riskJudge rd c s).risk_debate_state = s.risk_debate_state := by
  unfold riskJudge
  cases otruthy rd.judge_decision with
  | none => rfl
  | some j =>
    dsimp only
    cases c.recommended_action <;>
      simp only [uas_risk, setRep_risk, backfill_risk]

theorem riskJudge_flag_none (rd : RiskDebate) (c : Chunk) (s : SymbolState)
    (h : otruthy rd.judge_decision = none) :
    (riskJudge rd c s).analysis_complete = s.analysis_complete := by
  unfold riskJudge
  rw [h]

theorem riskJudge_flag_some (rd : RiskDebate) (c : Chunk) (s : SymbolState)
    (j : String) (h : otruthy rd.judge_decision = some j) :
    (riskJudge rd c s).analysis_complete = true := by
  unfold riskJudge
  rw [h]

theorem riskJudge_reports_ne (rd : RiskDebate) (c : Chunk) (s : SymbolState)
    (b : RField) (hb1 : b ≠ RField.riskyReport) (hb2 : b ≠ RField.safeReport)
    (hb3 : b ≠ RField.neutralReport) (hb4 : b ≠ RField.portfolioDecision)
    (hb5 : b ≠ RField.finalTradeDecision) :
    (riskJudge rd c s).current_reports b = s.current_reports b := by
  unfold riskJudge
  cases otruthy rd.judge_decision with
  | none => rfl
  | some j =>
    dsimp only
    cases c.recommended_action <;>
      simp only [uas_reports, setRep_reports, updR_ne _ _ _ _ hb5,
        updR_ne _ _ _ _ hb4, backfill_reports_ne _ _ _ _ _ hb3,
        backfill_reports_ne _ _ _ _ _ hb2, backfill_reports_ne _ _ _ _ _ hb1]

theorem riskPhase_timestamps (c : Chunk) (s : SymbolState) :
    (riskPhase c s).report_timestamps = s.report_timestamps := by
  unfold riskPhase
  cases c.risk_debate_state with
  | none => rfl
  | some rd =>
    dsimp only
    rw [riskJudge_timestamps, stageNeutral_timestamps, stageSafe_timestamps,
      stageRisky_timestamps]

theorem riskPhase_counts (c : Chunk) (s : SymbolState) :
    (riskPhase c s).update_counts = s.update_counts := by
  unfold riskPhase
  cases c.risk_debate_state with
  | none => rfl
  | some rd =>
    dsimp only
    rw [riskJudge_counts, stageNeutral_counts, stageSafe_counts,
      stageRisky_counts]

theorem riskPhase_inv (c : Chunk) (s : SymbolState) :
    (riskPhase c s).investment_debate_state = s.investment_debate_state := by
  unfold riskPhase
  cases c.risk_debate_state with
  | none => rfl
  | some rd =>
    dsimp only
    rw [riskJudge_inv, stageNeutral_inv, stageSafe_inv, stageRisky_inv]

theorem riskPhase_risk_some (c : Chunk) (rd : RiskDebate) (s : SymbolState)
    (hc : c.risk_debate_state = some rd) :
    (riskPhase c s).risk_debate_state = some rd := by
  unfold riskPhase
  rw [hc]
  dsimp only
  rw [riskJudge_risk, stageNeutral_risk, stageSafe_risk, stageRisky_risk]

theorem riskPhase_reports_ne (c : Chunk) (s : SymbolState) (b : RField)
    (hb1 : b ≠ RField.riskyReport) (hb2 : b ≠ RField.safeReport)
    (hb3 : b ≠ RField.neutralReport) (hb4 : b ≠ RField.portfolioDecision)
    (hb5 : b ≠ RField.finalTradeDecision) :
    (riskPhase c s).current_reports b = s.current_reports b := by
  unfold riskPhase
  cases c.risk_debate_state with
  | none => rfl
  | some rd =>
    dsimp only
    rw [riskJudge_reports_ne _ _ _ _ hb1 hb2 hb3 hb4 hb5,
      stageNeutral_reports_ne _ _ _ hb3, stageSafe_reports_ne _ _ _ hb2,
      stageRisky_reports_ne _ _ _ hb1]

theorem riskPhase_flag_none (c : Chunk) (s : SymbolState)
    (h : isRiskJudgeChunk c = false) :
    (riskPhase c s).analysis_complete = s.analysis_complete := by
  unfold riskPhase
  unfold isRiskJudgeChunk at h
  cases hc : c.risk_debate_state with
  | none => rfl
  | some rd =>
    rw [hc] at h
    dsimp only at h
    dsimp only
    have hj : otruthy rd.judge_decision = none := by
      cases ho : otruthy rd.judge_decision with
      | none => rfl
      | some j => rw [ho] at h; simp at h
    rw [riskJudge_flag_none _ _ _ hj, stageNeutral_flag, stageSafe_flag,
      stageRisky_flag]

theorem riskPhase_flag_some (c : Chunk) (s : SymbolState)
    (h : isRiskJudgeChunk c = true) :
    (riskPhase c s).analysis_complete = true := by
  unfold riskPhase
  unfold isRiskJudgeChunk at h
  cases hc : c.risk_debate_state with
  | none => rw [hc] at h; exact absurd h (by decide)
  | some rd =>
    rw [hc] at h
    dsimp only at h
    dsimp only
    cases ho : otruthy rd.judge_decision with
    | none => rw [ho] at h; simp at h
    | some j => exact riskJudge_flag_some _ _ _ j ho

theorem humanPhase_reports (seq : List Agent) (c : Chunk) (s : SymbolState) :
    (humanPhase seq c s).current_reports = s.current_reports := by
  unfold humanPhase
  repeat' split
  all_goals rfl

theorem humanPhase_timestamps (seq : List Agent) (c : Chunk) (s : SymbolState) :
    (humanPhase seq c s).report_timestamps = s.report_timestamps := by
  unfold humanPhase
  repeat' split
  all_goals rfl

theorem humanPhase_counts (seq : List Agent) (c : Chunk) (s : SymbolState) :
    (humanPhase seq c s).update_counts = s.update_counts := by
  unfold humanPhase
  repeat' split
  all_goals rfl

theorem humanPhase_inv (seq : List Agent) (c : Chunk) (s : SymbolState) :
    (humanPhase seq c s).investment_debate_state = s.investment_debate_state := by
  unfold humanPhase
  repeat' split
  all_goals rfl

theorem humanPhase_risk (seq : List Agent) (c : Chunk) (s : SymbolState) :
    (humanPhase seq c s).risk_debate_state = s.risk_debate_state := by
  unfold humanPhase
  repeat' split
  all_goals rfl

theorem humanPhase_flag (seq : List Agent) (c : Chunk) (s : SymbolState) :
    (humanPhase seq c s).analysis_complete = s.analysis_complete := by
  unfold humanPhase
  repeat' split
  all_goals rfl

theorem humanPhase_rec (seq : List Agent) (c : Chunk) (s : SymbolState) :
    (humanPhase seq c s).recommended_action = s.recommended_action := by
  unfold humanPhase
  repeat' split
  all_goals rfl

theorem analystLoop_reports_ne (seq : List Agent) (now : Nat) (c : Chunk)
    (s : SymbolState) (b : RField) (hb : ∀ r : AR, b ≠ arField r) :
    (analystLoop seq now c s).current_reports b = s.current_reports b := by
  unfold analystLoop
  rw [analystStep_reports_ne _ _ _ _ _ _ (hb _),
    analystStep_reports_ne _ _ _ _ _ _ (hb _),
    analystStep_reports_ne _ _ _ _ _ _ (hb _),
    analystStep_reports_ne _ _ _ _ _ _ (hb _),
    analystStep_reports_ne _ _ _ _ _ _ (hb _)]

theorem analystLoop_inv (seq : List Agent) (now : Nat) (c : Chunk)
    (s : SymbolState) :
    (analystLoop seq now c s).investment_debate_state =
      s.investment_debate_state := by
  unfold analystLoop
  rw [analystStep_inv, analystStep_inv, analystStep_inv, analystStep_inv,
    analystStep_inv]

theorem analystLoop_risk (seq : List Agent) (now : Nat) (c : Chunk)
    (s : SymbolState) :
    (analystLoop seq now c s).risk_debate_state = s.risk_debate_state := by
  unfold analystLoop
  rw [analystStep_risk, analystStep_risk, analystStep_risk, analystStep_risk,
    analystStep_risk]

theorem analystLoop_flag (seq : List Agent) (now : Nat) (c : Chunk)
    (s : SymbolState) :
    (analystLoop seq now c s).analysis_complete = s.analysis_complete := by
  unfold analystLoop
  rw [analystStep_flag, analystStep_flag, analystStep_flag, analystStep_flag,
    analystStep_flag]

theorem analystLoop_rec (seq : List Agent) (now : Nat) (c : Chunk)
    (s : SymbolState) :
    (analystLoop seq now c s).recommended_action = s.recommended_action := by
  unfold analystLoop
  rw [analystStep_rec, analystStep_rec, analystStep_rec, analystStep_rec,
    analystStep_rec]

/-!
## Claim 3: the post-completion length guard
-/

theorem analystStep_guard (seq : List Agent) (now : Nat) (c : Chunk) (r : AR)
    (v : SymbolState) (txt : String)
    (hc : chunkAR c r = some (some txt)) (ht : ¬ (strip txt = ""))
    (hst : v.agent_statuses (arAgent r) = Status.completed)
    (hne : some txt ≠ v.current_reports (arField r)) :
    (5 * txt.length < 6 * ((v.current_reports (arField r)).getD "").length →
      analystStep seq now c r v = v) ∧
    (6 * ((v.current_reports (arField r)).getD "").length ≤ 5 * txt.length →
      v.update_counts r ≤ 15 →
      (analystStep seq now c r v).current_reports (arField r) = some txt) := by
  unfold analystStep
  rw [hc]
  dsimp only
  rw [if_neg ht]
  rw [if_neg (fun hh => hne hh.1)]
  constructor
  · intro hshort
    rw [if_pos ⟨Or.inl hne, hst, hshort⟩]
  · intro hlong hcnt
    rw [if_neg (fun hh => absurd hh.2.2 (Nat.not_lt_of_le hlong))]
    rw [if_neg (fun hh => absurd hh.2 (Nat.not_lt_of_le hcnt))]
    rw [if_pos (Or.inl hne)]
    rw [advance_reports]
    simp

theorem analystLoop_guard (seq : List Agent) (now : Nat) (c : Chunk)
    (s : SymbolState) (r : AR) (txt : String)
    (hc : chunkAR c r = some (some txt)) (ht : ¬ (strip txt = ""))
    (hst : s.agent_statuses (arAgent r) = Status.completed)
    (hne : some txt ≠ s.current_reports (arField r)) :
    (5 * txt.length < 6 * ((s.current_reports (arField r)).getD "").length →
      (analystLoop seq now c s).current_reports (arField r) =
        s.current_reports (arField r)) ∧
    (6 * ((s.current_reports (arField r)).getD "").length ≤ 5 * txt.length →
      s.update_counts r ≤ 15 →
      (analystLoop seq now c s).current_reports (arField r) = some txt) := by
  unfold analystLoop
  cases r with
  | marketReport =>
    have hP : Progress s s :=
      Progress.rfl s
    have hstv := completed_preserved hP (arAgent AR.marketReport) (by decide) (by decide) hst
    have hrep : (s).current_reports (arField AR.marketReport) = s.current_reports (arField AR.marketReport) := by
      rfl
    have hcnt : (s).update_counts AR.marketReport = s.update_counts AR.marketReport := by
      rfl
    have hne2 : some txt ≠ (s).current_reports (arField AR.marketReport) := by
      rw [hrep]; exact hne
    have hown := analystStep_guard seq now c AR.marketReport s txt hc ht hstv hne2
    constructor
    · intro hshort
      rw [hown.1 (by rw [hrep]; exact hshort)]
      rw [analystStep_reports_ne seq now c AR.macroReport _ (arField AR.marketReport) (by decide),
        analystStep_reports_ne seq now c AR.fundamentalsReport _ (arField AR.marketReport) (by decide),
        analystStep_reports_ne seq now c AR.newsReport _ (arField AR.marketReport) (by decide),
        analystStep_reports_ne seq now c AR.sentimentReport _ (arField AR.marketReport) (by decide)]
    · intro hlong hc15
      rw [analystStep_reports_ne seq now c AR.macroReport _ (arField AR.marketReport) (by decide),
        analystStep_reports_ne seq now c AR.fundamentalsReport _ (arField AR.marketReport) (by decide),
        analystStep_reports_ne seq now c AR.newsReport _ (arField AR.marketReport) (by decide),
        analystStep_reports_ne seq now c AR.sentimentReport _ (arField AR.marketReport) (by decide)]
      exact hown.2 (by rw [hrep]; exact hlong) (by rw [hcnt]; exact hc15)
  | sentimentReport =>
    have hP : Progress s (analystStep seq now c AR.marketReport s) :=
      progress_analystStep seq now c AR.marketReport _
    have hstv := completed_preserved hP (arAgent AR.sentimentReport) (by decide) (by decide) hst
    have hrep : ((analystStep seq now c AR.marketReport s)).current_reports (arField AR.sentimentReport) = s.current_reports (arField AR.sentimentReport) := by
      rw [analystStep_reports_ne seq now c AR.marketReport _ (arField AR.sentimentReport) (by decide)]
    have hcnt : ((analystStep seq now c AR.marketReport s)).update_counts AR.sentimentReport = s.update_counts AR.sentimentReport := by
      rw [analystStep_counts_ne seq now c AR.marketReport _ AR.sentimentReport (by decide)]
    have hne2 : some txt ≠ ((analystStep seq now c AR.marketReport s)).current_reports (arField AR.sentimentReport) := by
      rw [hrep]; exact hne
    have hown := analystStep_guard seq now c AR.sentimentReport (analystStep seq now c AR.marketReport s) txt hc ht hstv hne2
    constructor
    · intro hshort
      rw [hown.1 (by rw [hrep]; exact hshort)]
      rw [analystStep_reports_ne seq now c AR.macroReport _ (arField AR.sentimentReport) (by decide),
        analystStep_reports_ne seq now c AR.fundamentalsReport _ (arField AR.sentimentReport) (by decide),
        analystStep_reports_ne seq now c AR.newsReport _ (arField AR.sentimentReport) (by decide)]
      exact hrep
    · intro hlong hc15
      rw [analystStep_reports_ne seq now c AR.macroReport _ (arField AR.sentimentReport) (by decide),
        analystStep_reports_ne seq now c AR.fundamentalsReport _ (arField AR.sentimentReport) (by decide),
        analystStep_reports_ne seq now c AR.newsReport _ (arField AR.sentimentReport) (by decide)]
      exact hown.2 (by rw [hrep]; exact hlong) (by rw [hcnt]; exact hc15)
  | newsReport =>
    have hP : Progress s (analystStep seq now c AR.sentimentReport (analystStep seq now c AR.marketReport s)) :=
      Progress.trans (progress_analystStep seq now c AR.marketReport _) (progress_analystStep seq now c AR.sentimentReport _)
    have hstv := completed_preserved hP (arAgent AR.newsReport) (by decide) (by decide) hst
    have hrep : ((analystStep seq now c AR.sentimentReport (analystStep seq now c AR.marketReport s))).current_reports (arField AR.newsReport) = s.current_reports (arField AR.newsReport) := by
      rw [analystStep_reports_ne seq now c AR.sentimentReport _ (arField AR.newsReport) (by decide),
        analystStep_reports_ne seq now c AR.marketReport _ (arField AR.newsReport) (by decide)]
    have hcnt : ((analystStep seq now c AR.sentimentReport (analystStep seq now c AR.marketReport s))).update_counts AR.newsReport = s.update_counts AR.newsReport := by
      rw [analystStep_counts_ne seq now c AR.sentimentReport _ AR.newsReport (by decide),
        analystStep_counts_ne seq now c AR.marketReport _ AR.newsReport (by decide)]
    have hne2 : some txt ≠ ((analystStep seq now c AR.sentimentReport (analystStep seq now c AR.marketReport s))).current_reports (arField AR.newsReport) := by
      rw [hrep]; exact hne
    have hown := analystStep_guard seq now c AR.newsReport (analystStep seq now c AR.sentimentReport (analystStep seq now c AR.marketReport s)) txt hc ht hstv hne2
    constructor
    · intro hshort
      rw [hown.1 (by rw [hrep]; exact hshort)]
      rw [analystStep_reports_ne seq now c AR.macroReport _ (arField AR.newsReport) (by decide),
        analystStep_reports_ne seq now c AR.fundamentalsReport _ (arField AR.newsReport) (by decide)]
      exact hrep
    · intro hlong hc15
      rw [analystStep_reports_ne seq now c AR.macroReport _ (arField AR.newsReport) (by decide),
        analystStep_reports_ne seq now c AR.fundamentalsReport _ (arField AR.newsReport) (by decide)]
      exact hown.2 (by rw [hrep]; exact hlong) (by rw [hcnt]; exact hc15)
  | fundamentalsReport =>
    have hP : Progress s (analystStep seq now c AR.newsReport (analystStep seq now c AR.sentimentReport (analystStep seq now c AR.marketReport s))) :=
      Progress.trans (Progress.trans (progress_analystStep seq now c AR.marketReport _) (progress_analystStep seq now c AR.sentimentReport _)) (progress_analystStep seq now c AR.newsReport _)
    have hstv := completed_preserved hP (arAgent AR.fundamentalsReport) (by decide) (by decide) hst
    have hrep : ((analystStep seq now c AR.newsReport (analystStep seq now c AR.sentimentReport (analystStep seq now c AR.marketReport s)))).current_reports (arField AR.fundamentalsReport) = s.current_reports (arField AR.fundamentalsReport) := by
      rw [analystStep_reports_ne seq now c AR.newsReport _ (arField AR.fundamentalsReport) (by decide),
        analystStep_reports_ne seq now c AR.sentimentReport _ (arField AR.fundamentalsReport) (by decide),
        analystStep_reports_ne seq now c AR.marketReport _ (arField AR.fundamentalsReport) (by decide)]
    have hcnt : ((analystStep seq now c AR.newsReport (analystStep seq now c AR.sentimentReport (analystStep seq now c AR.marketReport s)))).update_counts AR.fundamentalsReport = s.update_counts AR.fundamentalsReport := by
      rw [analystStep_counts_ne seq now c AR.newsReport _ AR.fundamentalsReport (by decide),
        analystStep_counts_ne seq now c AR.sentimentReport _ AR.fundamentalsReport (by decide),
        analystStep_counts_ne seq now c AR.marketReport _ AR.fundamentalsReport (by decide)]
    have hne2 : some txt ≠ ((analystStep seq now c AR.newsReport (analystStep seq now c AR.sentimentReport (analystStep seq now c AR.marketReport s)))).current_reports (arField AR.fundamentalsReport) := by
      rw [hrep]; exact hne
    have hown := analystStep_guard seq now c AR.fundamentalsReport (analystStep seq now c AR.newsReport (analystStep seq now c AR.sentimentReport (analystStep seq now c AR.marketReport s))) txt hc ht hstv hne2
    constructor
    · intro hshort
      rw [hown.1 (by rw [hrep]; exact hshort)]
      rw [analystStep_reports_ne seq now c AR.macroReport _ (arField AR.fundamentalsReport) (by decide)]
      exact hrep
    · intro hlong hc15
      rw [analystStep_reports_ne seq now c AR.macroReport _ (arField AR.fundamentalsReport) (by decide)]
      exact hown.2 (by rw [hrep]; exact hlong) (by rw [hcnt]; exact hc15)
  | macroReport =>
    have hP : Progress s (analystStep seq now c AR.fundamentalsReport (analystStep seq now c AR.newsReport (analystStep seq now c AR.sentimentReport (analystStep seq now c AR.marketReport s)))) :=
      Progress.trans (Progress.trans (Progress.trans (progress_analystStep seq now c AR.marketReport _) (progress_analystStep seq now c AR.sentimentReport _)) (progress_analystStep seq now c AR.newsReport _)) (progress_analystStep seq now c AR.fundamentalsReport _)
    have hstv := completed_preserved hP (arAgent AR.macroReport) (by decide) (by decide) hst
    have hrep : ((analystStep seq now c AR.fundamentalsReport (analystStep seq now c AR.newsReport (analystStep seq now c AR.sentimentReport (analystStep seq now c AR.marketReport s))))).current_reports (arField AR.macroReport) = s.current_reports (arField AR.macroReport) := by
      rw [analystStep_reports_ne seq now c AR.fundamentalsReport _ (arField AR.macroReport) (by decide),
        analystStep_reports_ne seq now c AR.newsReport _ (arField AR.macroReport) (by decide),
        analystStep_reports_ne seq now c AR.sentimentReport _ (arField AR.macroReport) (by decide),
        analystStep_reports_ne seq now c AR.marketReport _ (arField AR.macroReport) (by decide)]
    have hcnt : ((analystStep seq now c AR.fundamentalsReport (analystStep seq now c AR.newsReport (analystStep seq now c AR.sentimentReport (analystStep seq now c AR.marketReport s))))).update_counts AR.macroReport = s.update_counts AR.macroReport := by
      rw [analystStep_counts_ne seq now c AR.fundamentalsReport _ AR.macroReport (by decide),
        analystStep_counts_ne seq now c AR.newsReport _ AR.macroReport (by decide),
        analystStep_counts_ne seq now c AR.sentimentReport _ AR.macroReport (by decide),
        analystStep_counts_ne seq now c AR.marketReport _ AR.macroReport (by decide)]
    have hne2 : some txt ≠ ((analystStep seq now c AR.fundamentalsReport (analystStep seq now c AR.newsReport (analystStep seq now c AR.sentimentReport (analystStep seq now c AR.marketReport s))))).current_reports (arField AR.macroReport) := by
      rw [hrep]; exact hne
    have hown := analystStep_guard seq now c AR.macroReport (analystStep seq now c AR.fundamentalsReport (analystStep seq now c AR.newsReport (analystStep seq now c AR.sentimentReport (analystStep seq now c AR.marketReport s)))) txt hc ht hstv hne2
    constructor
    · intro hshort
      rw [hown.1 (by rw [hrep]; exact hshort)]
      exact hrep
    · intro hlong hc15
      exact hown.2 (by rw [hrep]; exact hlong) (by rw [hcnt]; exact hc15)

theorem arField_not_special (r : AR) :
    arField r ≠ RField.bullReport ∧ arField r ≠ RField.bearReport ∧
      arField r ≠ RField.researchManagerReport ∧
      arField r ≠ RField.investmentPlan ∧
      arField r ≠ RField.traderInvestmentPlan ∧
      arField r ≠ RField.riskyReport ∧ arField r ≠ RField.safeReport ∧
      arField r ≠ RField.neutralReport ∧
      arField r ≠ RField.portfolioDecision ∧
      arField r ≠ RField.finalTradeDecision := by
  cases r <;> decide

theorem latePhases_reports_ar (seq : List Agent) (c : Chunk) (r : AR)
    (u : SymbolState) :
    (humanPhase seq c (riskPhase c (traderPhase c
        (invPhase c u)))).current_reports (arField r) =
      u.current_reports (arField r) := by
  obtain ⟨n1, n2, n3, n4, n5, n6, n7, n8, n9, n10⟩ := arField_not_special r
  rw [humanPhase_reports, riskPhase_reports_ne _ _ _ n6 n7 n8 n9 n10,
    traderPhase_reports_ne _ _ _ n5, invPhase_reports_ne _ _ _ n1 n2 n3 n4]

/-- **C3, counterexample.**  With the market analyst `completed`, a
stored ten-character report, and an update count past the hard cap of
15, a twelve-character replacement (≥ 120% of ten characters) is still
rejected: the runaway-update circuit breaker fires before the store. -/
theorem claim3_counterexample :
    stateMarketCapped.agent_statuses Agent.marketAnalyst = Status.completed ∧
      stateMarketCapped.current_reports RField.marketReport =
        some "0123456789" ∧
      some "012345678901" ≠
        stateMarketCapped.current_reports RField.marketReport ∧
      6 * ("0123456789".length) ≤ 5 * ("012345678901".length) ∧
      (process_chunk_updates defaultSeq 99 chunkMarketLong
          stateMarketCapped).current_reports RField.marketReport =
        some "0123456789" :=
  ⟨rfl, rfl, by decide, by decide, rfl⟩

/-- **C3, amended.**  For an analyst report field whose owning agent is
`completed` and whose chunk value differs from the stored report: the
update is rejected (stored report unchanged) whenever the new text's
length is under 1.2 times the stored length, and it is accepted (stored
report replaced) whenever the new length is at least 1.2 times the
stored length, provided the field's update count has not passed the
hard cap of 15 — past the cap, even qualifying updates are dropped
(see the counterexample).  The comparison `5·new < 6·current` is the
exact form of the source's `new_length < current_length * 1.2`. -/
theorem claim3_length_guard (seq : List Agent) (now : Nat) (c : Chunk)
    (s : SymbolState) (r : AR) (txt : String)
    (hc : chunkAR c r = some (some txt)) (ht : ¬ (strip txt = ""))
    (hst : s.agent_statuses (arAgent r) = Status.completed)
    (hne : some txt ≠ s.current_reports (arField r)) :
    (5 * txt.length < 6 * ((s.current_reports (arField r)).getD "").length →
      (process_chunk_updates seq now c s).current_reports (arField r) =
        s.current_reports (arField r)) ∧
    (6 * ((s.current_reports (arField r)).getD "").length ≤ 5 * txt.length →
      s.update_counts r ≤ 15 →
      (process_chunk_updates seq now c s).current_reports (arField r) =
        some txt) := by
  obtain ⟨hrej, hacc⟩ := analystLoop_guard seq now c s r txt hc ht hst hne
  unfold process_chunk_updates
  constructor
  · intro h
    rw [latePhases_reports_ar]
    exact hrej h
  · intro h1 h2
    rw [latePhases_reports_ar]
    exact hacc h1 h2

/-- Witness for `claim3_length_guard`: a twelve-character update to a
completed ten-character report (update count 0) is accepted. -/
theorem claim3_witness :
    (6 * ((stateMarketDone.current_reports
          (arField AR.marketReport)).getD "").length ≤
        5 * ("012345678901".length) ∧
      stateMarketDone.update_counts AR.marketReport ≤ 15) ∧
      (process_chunk_updates defaultSeq 99 chunkMarketLong
          stateMarketDone).current_reports (arField AR.marketReport) =
        some "012345678901" :=
  ⟨⟨by decide, by decide⟩,
   (claim3_length_guard defaultSeq 99 chunkMarketLong stateMarketDone
      AR.marketReport "012345678901" rfl (by decide) (by decide)
      (by decide)).2 (by decide) (by decide)⟩

/-!
## Claim 5: tool-call timeout containment
-/

theorem timedOutSplit (X : String) :
    "' timed out after " ++ X = "' " ++ ("timed out" ++ (" after " ++ X)) := by
  rw [← String.append_assoc, ← String.append_assoc]
  rw [show ("' " ++ "timed out") ++ " after " = "' timed out after " from by decide]

/-- **C5.**  Whenever the wrapped callable runs longer than the
effective timeout budget (120 seconds by default, 300 when
`uses_web_search` is set), `timing_wrapper` returns normally instead of
raising: the result is the synthesized message (which contains the text
`"timed out"`), and exactly one record with status `"timeout"` is
appended to the shared tool-call log. -/
theorem claim5_timeout_behavior (analyst tool : String) (ws : Bool)
    (b : CallBehavior) (log : List ToolCallRecord)
    (h : effectiveTimeout 120 ws < b.duration) :
    (timing_wrapper analyst tool 120 ws b log).2 =
        Except.ok (timeoutReturnMsg tool (effectiveTimeout 120 ws)) ∧
      (timing_wrapper analyst tool 120 ws b log).1 =
        log ++ [⟨tool,
          "TIMEOUT ERROR: TIMEOUT: Tool '" ++ tool ++ "' exceeded " ++
            toString (effectiveTimeout 120 ws) ++ "s limit", "timeout",
          analyst⟩] ∧
      ((timing_wrapper analyst tool 120 ws b log).1.filter
          (fun tc => decide (tc.status = "timeout"))).length =
        (log.filter (fun tc => decide (tc.status = "timeout"))).length + 1 ∧
      (∃ pre post, timeoutReturnMsg tool (effectiveTimeout 120 ws) =
        pre ++ ("timed out" ++ post)) ∧
      effectiveTimeout 120 true = 300 ∧ effectiveTimeout 120 false = 120 := by
  unfold timing_wrapper
  dsimp only
  rw [if_pos h]
  refine ⟨rfl, rfl, ?_, ?_, rfl, rfl⟩
  · rw [List.filter_append]
    simp
  · refine ⟨"Error: Tool '" ++ tool ++ "' ",
      " after " ++ toString (effectiveTimeout 120 ws) ++
        "s. This may indicate network issues, API problems, or insufficient data.",
      ?_⟩
    unfold timeoutReturnMsg
    simp only [String.append_assoc]
    rw [timedOutSplit]

/-- Witness for `claim5_timeout_behavior`: a web-search tool that would
run 301 seconds against the 300-second budget. -/
theorem claim5_witness :
    effectiveTimeout 120 true < 301 ∧
      (timing_wrapper "MARKET" "get_web_news" 120 true
          ⟨301, Except.ok "late result"⟩ []).2 =
        Except.ok (timeoutReturnMsg "get_web_news" (effectiveTimeout 120 true)) :=
  ⟨by decide,
   (claim5_timeout_behavior "MARKET" "get_web_news" true
      ⟨301, Except.ok "late result"⟩ [] (by decide)).1⟩

/-!
## Claims 4 and 8: the parallel coordinator's merge
-/

theorem lookupF_insertF_eq (l : List (String × String)) (k v : String) :
    lookupF (insertF l k v) k = some v := by
  induction l with
  | nil => simp [insertF, lookupF]
  | cons kv rest ih =>
    obtain ⟨k0, v0⟩ := kv
    unfold insertF
    by_cases h : k0 = k
    · rw [if_pos h]
      unfold lookupF
      rw [if_pos h]
    · rw [if_neg h]
      unfold lookupF
      rw [if_neg h]
      exact ih

theorem lookupF_insertF_ne (l : List (String × String)) (k v k' : String)
    (h : k' ≠ k) : lookupF (insertF l k v) k' = lookupF l k' := by
  induction l with
  | nil =>
    unfold insertF lookupF
    rw [if_neg (fun hh : k = k' => h hh.symm)]
    rfl
  | cons kv rest ih =>
    obtain ⟨k0, v0⟩ := kv
    unfold insertF
    by_cases h0 : k0 = k
    · rw [if_pos h0]
      unfold lookupF
      by_cases h1 : k0 = k'
      · exact absurd (h1.symm.trans h0) h
      · rw [if_neg h1, if_neg h1]
    · rw [if_neg h0]
      unfold lookupF
      by_cases h1 : k0 = k'
      · rw [if_pos h1, if_pos h1]
      · rw [if_neg h1, if_neg h1]
        exact ih

theorem reportField_inj (t u : AnalystType) (h : reportField t = reportField u) :
    t = u := by
  cases t <;> cases u <;> first | rfl | exact absurd h (by decide)

theorem reportField_ne_social_report (t : AnalystType) :
    reportField t ≠ "social_report" := by
  cases t <;> decide

theorem mergeStep_frame (acc : GState) (entry : AnalystType × GState)
    (k : String) (h : k ≠ reportField entry.1) :
    lookupF (mergeStep acc entry).fields k = lookupF acc.fields k := by
  unfold mergeStep
  dsimp only
  cases extractContent entry.2 (reportField entry.1) with
  | some v => exact lookupF_insertF_ne _ _ _ _ h
  | none =>
    dsimp only
    split
    · rfl
    · exact lookupF_insertF_ne _ _ _ _ h

theorem mergeStep_extract (acc : GState) (t : AnalystType) (st : GState)
    (v : String) (h : extractContent st (reportField t) = some v) :
    lookupF (mergeStep acc (t, st)).fields (reportField t) = some v := by
  unfold mergeStep
  dsimp only
  rw [h]
  exact lookupF_insertF_eq _ _ _

theorem mergeStep_noextract (acc : GState) (t : AnalystType) (st : GState)
    (h : extractContent st (reportField t) = none) :
    lookupF (mergeStep acc (t, st)).fields (reportField t) =
      some ((lookupF acc.fields (reportField t)).getD "") := by
  unfold mergeStep
  dsimp only
  rw [h]
  dsimp only
  split
  · rename_i hs
    obtain ⟨v, hv⟩ := Option.isSome_iff_exists.mp hs
    rw [hv]
    rfl
  · rename_i hs
    have hn : lookupF acc.fields (reportField t) = none :=
      Option.not_isSome_iff_eq_none.mp hs
    rw [hn, lookupF_insertF_eq]
    rfl

theorem mergeFold_frame (rs : List (AnalystType × GState)) (k : String) :
    ∀ acc : GState, (∀ e ∈ rs, reportField e.1 ≠ k) →
      lookupF (rs.foldl mergeStep acc).fields k = lookupF acc.fields k := by
  induction rs with
  | nil => intro acc _; rfl
  | cons e rest ih =>
    intro acc h
    rw [List.foldl_cons]
    rw [ih _ (fun e' he' => h e' (List.mem_cons_of_mem _ he'))]
    exact mergeStep_frame acc e k (fun hk => h e (List.mem_cons_self _ _) hk.symm)

theorem merge_mem (t : AnalystType) (st : GState) (v : String)
    (rs : List (AnalystType × GState)) :
    ∀ acc : GState, (rs.map Prod.fst).Nodup → (t, st) ∈ rs →
      extractContent st (reportField t) = some v →
      lookupF (rs.foldl mergeStep acc).fields (reportField t) = some v := by
  induction rs with
  | nil => intro acc _ hmem _; exact absurd hmem (List.not_mem_nil _)
  | cons e rest ih =>
    intro acc hN hmem hx
    rw [List.map_cons, List.nodup_cons] at hN
    rw [List.foldl_cons]
    rcases List.mem_cons.mp hmem with he | hmem'
    · have hfr : ∀ e' ∈ rest, reportField e'.1 ≠ reportField t := by
        intro e' he' hfld
        have h1 : e'.1 = t := reportField_inj e'.1 t hfld
        rw [← he] at hN
        have h2 : e'.1 ∈ rest.map Prod.fst := List.mem_map_of_mem Prod.fst he'
        rw [h1] at h2
        exact hN.1 h2
      rw [mergeFold_frame rest (reportField t) _ hfr, ← he]
      exact mergeStep_extract acc t st v hx
    · exact ih _ hN.2 hmem' hx

theorem merge_mem_none (t : AnalystType) (st : GState)
    (rs : List (AnalystType × GState)) :
    ∀ acc : GState, (rs.map Prod.fst).Nodup → (t, st) ∈ rs →
      extractContent st (reportField t) = none →
      lookupF (rs.foldl mergeStep acc).fields (reportField t) =
        some ((lookupF acc.fields (reportField t)).getD "") := by
  induction rs with
  | nil => intro acc _ hmem _; exact absurd hmem (List.not_mem_nil _)
  | cons e rest ih =>
    intro acc hN hmem hx
    rw [List.map_cons, List.nodup_cons] at hN
    rw [List.foldl_cons]
    rcases List.mem_cons.mp hmem with he | hmem'
    · have hfr : ∀ e' ∈ rest, reportField e'.1 ≠ reportField t := by
        intro e' he' hfld
        have h1 : e'.1 = t := reportField_inj e'.1 t hfld
        rw [← he] at hN
        have h2 : e'.1 ∈ rest.map Prod.fst := List.mem_map_of_mem Prod.fst he'
        rw [h1] at h2
        exact hN.1 h2
      rw [mergeFold_frame rest (reportField t) _ hfr, ← he]
      exact mergeStep_noextract acc t st hx
    · have hne : reportField t ≠ reportField e.1 := by
        intro hk
        have ht : t = e.1 := reportField_inj t e.1 hk
        have h2 : t ∈ rest.map Prod.fst :=
          List.mem_map_of_mem Prod.fst hmem'
        rw [ht] at h2
        exact hN.1 h2
      rw [ih _ hN.2 hmem' hx]
      rw [mergeStep_frame acc e (reportField t) hne]

theorem extract_none_field (st : GState) (f : String)
    (h : extractContent st f = none) :
    (lookupF st.fields f).getD "" = "" := by
  cases hf : lookupF st.fields f with
  | none => rfl
  | some v =>
    show v = ""
    by_cases hv : v = ""
    · exact hv
    · exfalso
      unfold extractContent at h
      rw [hf] at h
      dsimp only at h
      revert h
      split
      · intro h; exact absurd h (by simp)
      · rw [if_neg hv]; intro h; exact absurd h (by simp)

theorem coordinator_fst_map (base : GState)
    (runs : List (AnalystType × Except String GState)) :
    ((runs.map fun p => (p.1, execute_single_analyst base p.2)).map
      Prod.fst) = runs.map Prod.fst := by
  rw [List.map_map]
  rfl

/-- **C8.**  The merge writes each selected analyst's extracted report
into the field named `{t}_report`, except the `social` analyst, whose
report goes to `sentiment_report`; no analyst ever writes
`social_report`, and the merged state's `social_report` entry is
whatever the base state had. -/
theorem claim8_report_field_mapping :
    (reportField AnalystType.social = "sentiment_report" ∧
      ∀ t : AnalystType, reportField t ≠ "social_report") ∧
    ∀ (base : GState) (rs : List (AnalystType × GState)),
      (rs.map Prod.fst).Nodup →
      (∀ (t : AnalystType) (st : GState) (v : String), (t, st) ∈ rs →
        extractContent st (reportField t) = some v →
        lookupF (parallel_analysts_execution base rs).fields (reportField t) =
          some v) ∧
      lookupF (parallel_analysts_execution base rs).fields "social_report" =
        lookupF base.fields "social_report" := by
  refine ⟨⟨rfl, reportField_ne_social_report⟩, fun base rs hN => ⟨?_, ?_⟩⟩
  · intro t st v hmem hx
    exact merge_mem t st v rs base hN hmem hx
  · exact mergeFold_frame rs "social_report" base
      (fun e _ => reportField_ne_social_report e.1)

/-- Witness for `claim8_report_field_mapping`: a social-analyst result
whose last message carries content lands in `sentiment_report`. -/
theorem claim8_witness :
    ([(AnalystType.social, newsResult)].map
        (Prod.fst (α := AnalystType) (β := GState))).Nodup ∧
      extractContent newsResult (reportField AnalystType.social) =
        some "news says up" ∧
      lookupF (parallel_analysts_execution baseWithTupMsg
          [(AnalystType.social, newsResult)]).fields "sentiment_report" =
        some "news says up" :=
  ⟨by decide, rfl,
   ((claim8_report_field_mapping).2 baseWithTupMsg
      [(AnalystType.social, newsResult)] (by decide)).1 AnalystType.social
      newsResult "news says up" (List.mem_cons_self _ _) rfl⟩

/-- **C4, counterexample.**  When the base state's last message is a
coerced message object whose `content` is the initial human text
(`"AAPL"`), a failed analyst's report field in the merged output is that
text, not the empty string: the failure fallback merges the base state,
and the extraction happily reads the human message's content. -/
theorem claim4_counterexample :
    lookupF (coordinatorRun baseWithObjMsg
        [(AnalystType.market, Except.error "boom")]).fields "market_report" =
      some "AAPL" ∧ some "AAPL" ≠ some "" := by
  constructor
  · rfl
  · decide

/-- **C4, amended.**  A raising analyst never aborts the coordinator
(the embedding is total: both the in-worker `except` and the
`future.result()` fallback substitute the base state).  The failed
analyst's report field is always present in the merged output; it is
the empty string exactly when the base state offers no truthy content
for it (no truthy last-message `content` and no truthy stored field
value) — otherwise it carries the content extracted from the base
state.  Every other analyst's successfully produced report is still
merged in. -/
theorem claim4_failed_analyst_merge (base : GState)
    (runs : List (AnalystType × Except String GState))
    (hN : (runs.map Prod.fst).Nodup) (t : AnalystType) (e : String)
    (hmem : (t, Except.error e) ∈ runs) :
    (lookupF (coordinatorRun base runs).fields (reportField t)).isSome =
        true ∧
      (extractContent base (reportField t) = none →
        lookupF (coordinatorRun base runs).fields (reportField t) =
          some "") ∧
      (∀ v, extractContent base (reportField t) = some v →
        lookupF (coordinatorRun base runs).fields (reportField t) = some v) ∧
      ∀ (u : AnalystType) (st : GState) (v : String),
        (u, Except.ok st) ∈ runs →
        extractContent st (reportField u) = some v →
        lookupF (coordinatorRun base runs).fields (reportField u) = some v := by
  have hN2 : ((runs.map fun p =>
      (p.1, execute_single_analyst base p.2)).map Prod.fst).Nodup := by
    rw [coordinator_fst_map]
    exact hN
  have hmem2 : (t, base) ∈
      runs.map fun p => (p.1, execute_single_analyst base p.2) :=
    List.mem_map_of_mem _ hmem
  refine ⟨?_, ?_, ?_, ?_⟩
  · cases hx : extractContent base (reportField t) with
    | none =>
      rw [show coordinatorRun base runs = (runs.map fun p =>
          (p.1, execute_single_analyst base p.2)).foldl mergeStep base from rfl]
      rw [merge_mem_none t base _ base hN2 hmem2 hx]
      rfl
    | some v =>
      rw [show coordinatorRun base runs = (runs.map fun p =>
          (p.1, execute_single_analyst base p.2)).foldl mergeStep base from rfl]
      rw [merge_mem t base v _ base hN2 hmem2 hx]
      rfl
  · intro hx
    rw [show coordinatorRun base runs = (runs.map fun p =>
        (p.1, execute_single_analyst base p.2)).foldl mergeStep base from rfl]
    rw [merge_mem_none t base _ base hN2 hmem2 hx, extract_none_field base _ hx]
  · intro v hx
    rw [show coordinatorRun base runs = (runs.map fun p =>
        (p.1, execute_single_analyst base p.2)).foldl mergeStep base from rfl]
    exact merge_mem t base v _ base hN2 hmem2 hx
  · intro u st v hu hx
    have hu2 : (u, st) ∈
        runs.map fun p => (p.1, execute_single_analyst base p.2) :=
      List.mem_map_of_mem _ hu
    exact merge_mem u st v _ base hN2 hu2 hx

/-- Witness for `claim4_failed_analyst_merge`: with the tuple-message
base state of `create_initial_state`, a failed market analyst yields an
empty `market_report` while the news analyst's report is merged. -/
theorem claim4_witness :
    (([(AnalystType.market, Except.error "boom"),
        (AnalystType.news, Except.ok newsResult)].map
          (Prod.fst (α := AnalystType) (β := Except String GState))).Nodup ∧
      extractContent baseWithTupMsg (reportField AnalystType.market) = none ∧
      extractContent newsResult (reportField AnalystType.news) =
        some "news says up") ∧
      lookupF (coordinatorRun baseWithTupMsg
          [(AnalystType.market, Except.error "boom"),
            (AnalystType.news, Except.ok newsResult)]).fields
        "market_report" = some "" ∧
      lookupF (coordinatorRun baseWithTupMsg
          [(AnalystType.market, Except.error "boom"),
            (AnalystType.news, Except.ok newsResult)]).fields
        "news_report" = some "news says up" :=
  ⟨⟨by decide, rfl, rfl⟩,
   (claim4_failed_analyst_merge baseWithTupMsg
      [(AnalystType.market, Except.error "boom"),
        (AnalystType.news, Except.ok newsResult)] (by decide)
      AnalystType.market "boom" (List.mem_cons_self _ _)).2.1 rfl,
   (claim4_failed_analyst_merge baseWithTupMsg
      [(AnalystType.market, Except.error "boom"),
        (AnalystType.news, Except.ok newsResult)] (by decide)
      AnalystType.market "boom" (List.mem_cons_self _ _)).2.2.2
     AnalystType.news newsResult "news says up"
     (List.mem_cons_of_mem _ (List.mem_cons_self _ _)) rfl⟩

/-!
## Pointwise status lemmas for the debate phases
-/

theorem stageBull_statuses_ne (d : InvDebate) (s : SymbolState) (a : Agent)
    (ha : a ≠ Agent.bullResearcher) :
    (stageBull d s).agent_statuses a = s.agent_statuses a := by
  unfold stageBull
  cases otruthy d.bull_history with
  | none => rfl
  | some h =>
    dsimp only
    split <;> simp only [setRep_statuses, uas_statuses, updS_ne _ _ _ _ ha]

theorem stageBear_statuses_ne (d : InvDebate) (s : SymbolState) (a : Agent)
    (ha : a ≠ Agent.bearResearcher) :
    (stageBear d s).agent_statuses a = s.agent_statuses a := by
  unfold stageBear
  cases otruthy d.bear_history with
  | none => rfl
  | some h =>
    dsimp only
    split <;> simp only [setRep_statuses, uas_statuses, updS_ne _ _ _ _ ha]

theorem stageRisky_statuses_ne (rd : RiskDebate) (s : SymbolState) (a : Agent)
    (ha : a ≠ Agent.riskyAnalyst) :
    (stageRisky rd s).agent_statuses a = s.agent_statuses a := by
  unfold stageRisky
  cases otruthy rd.current_risky_response with
  | none => rfl
  | some t =>
    dsimp only
    split <;> simp only [setRep_statuses, uas_statuses, updS_ne _ _ _ _ ha]

theorem stageSafe_statuses_ne (rd : RiskDebate) (s : SymbolState) (a : Agent)
    (ha : a ≠ Agent.safeAnalyst) :
    (stageSafe rd s).agent_statuses a = s.agent_statuses a := by
  unfold stageSafe
  cases otruthy rd.current_safe_response with
  | none => rfl
  | some t =>
    dsimp only
    split <;> simp only [setRep_statuses, uas_statuses, updS_ne _ _ _ _ ha]

theorem stageNeutral_statuses_ne (rd : RiskDebate) (s : SymbolState)
    (a : Agent) (ha : a ≠ Agent.neutralAnalyst) :
    (stageNeutral rd s).agent_statuses a = s.agent_statuses a := by
  unfold stageNeutral
  cases otruthy rd.current_neutral_response with
  | none => rfl
  | some t =>
    dsimp only
    split <;> simp only [setRep_statuses, uas_statuses, updS_ne _ _ _ _ ha]

theorem invPhase_judge_statuses (c : Chunk) (d : InvDebate) (s : SymbolState)
    (j : String) (hc : c.investment_debate_state = some d)
    (hj : otruthy d.judge_decision = some j) :
    (invPhase c s).agent_statuses Agent.bullResearcher = Status.completed ∧
      (invPhase c s).agent_statuses Agent.bearResearcher = Status.completed ∧
      (invPhase c s).agent_statuses Agent.researchManager = Status.completed ∧
      (invPhase c s).agent_statuses Agent.trader = Status.in_progress := by
  unfold invPhase
  rw [hc]
  dsimp only
  rw [hj]
  dsimp only
  refine ⟨?_, ?_, ?_, ?_⟩ <;>
    simp [updS, parseStatus]

theorem invPhase_judge_rm_report (c : Chunk) (d : InvDebate) (s : SymbolState)
    (j : String) (hc : c.investment_debate_state = some d)
    (hj : otruthy d.judge_decision = some j) :
    (invPhase c s).current_reports RField.researchManagerReport = some j ∧
      (invPhase c s).current_reports RField.investmentPlan = some j := by
  unfold invPhase
  rw [hc]
  dsimp only
  rw [hj]
  dsimp only
  constructor <;> simp [updR]

theorem traderPhase_none (c : Chunk) (s : SymbolState)
    (h : truthy2 c.trader_investment_plan = none) : traderPhase c s = s := by
  unfold traderPhase
  rw [h]

theorem traderPhase_some_statuses (c : Chunk) (s : SymbolState) (p : String)
    (h : truthy2 c.trader_investment_plan = some p) :
    (traderPhase c s).agent_statuses Agent.trader = Status.completed ∧
      (traderPhase c s).agent_statuses Agent.riskyAnalyst =
        Status.in_progress := by
  unfold traderPhase
  rw [h]
  dsimp only
  constructor <;> simp [updS, parseStatus]

theorem traderPhase_statuses_ne (c : Chunk) (s : SymbolState) (a : Agent)
    (h1 : a ≠ Agent.trader) (h2 : a ≠ Agent.riskyAnalyst) :
    (traderPhase c s).agent_statuses a = s.agent_statuses a := by
  unfold traderPhase
  cases truthy2 c.trader_investment_plan with
  | none => rfl
  | some p =>
    dsimp only
    simp only [uas_statuses, setRep_statuses, updS_ne _ _ _ _ h2,
      updS_ne _ _ _ _ h1]

theorem riskJudge_statuses_ne (rd : RiskDebate) (c : Chunk) (s : SymbolState)
    (a : Agent) (h1 : a ≠ Agent.riskyAnalyst) (h2 : a ≠ Agent.safeAnalyst)
    (h3 : a ≠ Agent.neutralAnalyst) (h4 : a ≠ Agent.portfolioManager) :
    (riskJudge rd c s).agent_statuses a = s.agent_statuses a := by
  unfold riskJudge
  cases otruthy rd.judge_decision with
  | none => rfl
  | some j =>
    dsimp only
    cases c.recommended_action <;>
      simp only [uas_statuses, setRep_statuses, backfill_statuses,
        updS_ne _ _ _ _ h4, updS_ne _ _ _ _ h3, updS_ne _ _ _ _ h2,
        updS_ne _ _ _ _ h1]

theorem riskPhase_statuses_ne (c : Chunk) (s : SymbolState) (a : Agent)
    (h1 : a ≠ Agent.riskyAnalyst) (h2 : a ≠ Agent.safeAnalyst)
    (h3 : a ≠ Agent.neutralAnalyst) (h4 : a ≠ Agent.portfolioManager) :
    (riskPhase c s).agent_statuses a = s.agent_statuses a := by
  unfold riskPhase
  cases c.risk_debate_state with
  | none => rfl
  | some rd =>
    dsimp only
    rw [riskJudge_statuses_ne _ _ _ _ h1 h2 h3 h4,
      stageNeutral_statuses_ne _ _ _ h3, stageSafe_statuses_ne _ _ _ h2,
      stageRisky_statuses_ne _ _ _ h1]

theorem humanPhase_statuses_nonpending (seq : List Agent) (c : Chunk)
    (s : SymbolState) (a : Agent) (h : s.agent_statuses a ≠ Status.pending) :
    (humanPhase seq c s).agent_statuses a = s.agent_statuses a := by
  unfold humanPhase
  split
  · split
    · rfl
    · cases hf : seq.find? (fun b => decide (s.agent_statuses b = Status.pending)) with
      | none => rfl
      | some b =>
        have hb0 := List.find?_some hf
        have hb := of_decide_eq_true hb0
        have hab : a ≠ b := fun he => h (he ▸ hb)
        simp only [uas_statuses, updS_ne _ _ _ _ hab]
  · rfl

/-!
## Claim 7: investment-debate judge transitions
-/

/-- **C7, counterexample.**  A chunk carrying both the investment
judge's decision and a truthy trader plan leaves the Trader `completed`,
not `in_progress`: the trader-plan section runs after the
investment-debate section in the same `process_chunk_updates` call. -/
theorem claim7_counterexample :
    (process_chunk_updates defaultSeq 0 chunkInvJudgeAndPlan
        init_symbol_state).agent_statuses Agent.trader = Status.completed ∧
      Status.completed ≠ Status.in_progress := by
  constructor
  · rfl
  · decide

/-- **C7, amended.**  A chunk whose `investment_debate_state` carries a
truthy `judge_decision` marks the Bull Researcher, Bear Researcher and
Research Manager `completed` and stores the decision as the
research-manager report; the Trader ends the call `in_progress` —
unless the same chunk also carries a truthy `trader_investment_plan`,
in which case the later trader-plan section leaves it `completed`. -/
theorem claim7_invest_judge_transitions (seq : List Agent) (now : Nat)
    (c : Chunk) (s : SymbolState) (d : InvDebate) (j : String)
    (hc : c.investment_debate_state = some d)
    (hj : otruthy d.judge_decision = some j) :
    (process_chunk_updates seq now c s).agent_statuses Agent.bullResearcher =
        Status.completed ∧
      (process_chunk_updates seq now c s).agent_statuses
          Agent.bearResearcher = Status.completed ∧
      (process_chunk_updates seq now c s).agent_statuses
          Agent.researchManager = Status.completed ∧
      (process_chunk_updates seq now c s).current_reports
          RField.researchManagerReport = some j ∧
      (process_chunk_updates seq now c s).agent_statuses Agent.trader =
        (match truthy2 c.trader_investment_plan with
          | some _ => Status.completed
          | none => Status.in_progress) := by
  obtain ⟨hb, he, hr, htd⟩ :=
    invPhase_judge_statuses c d (analystLoop seq now c s) j hc hj
  obtain ⟨hrm, hip⟩ :=
    invPhase_judge_rm_report c d (analystLoop seq now c s) j hc hj
  unfold process_chunk_updates
  have hb4 : (riskPhase c (traderPhase c (invPhase c
      (analystLoop seq now c s)))).agent_statuses Agent.bullResearcher =
      Status.completed := by
    rw [riskPhase_statuses_ne _ _ _ (by decide) (by decide) (by decide)
        (by decide),
      traderPhase_statuses_ne _ _ _ (by decide) (by decide)]
    exact hb
  have he4 : (riskPhase c (traderPhase c (invPhase c
      (analystLoop seq now c s)))).agent_statuses Agent.bearResearcher =
      Status.completed := by
    rw [riskPhase_statuses_ne _ _ _ (by decide) (by decide) (by decide)
        (by decide),
      traderPhase_statuses_ne _ _ _ (by decide) (by decide)]
    exact he
  have hr4 : (riskPhase c (traderPhase c (invPhase c
      (analystLoop seq now c s)))).agent_statuses Agent.researchManager =
      Status.completed := by
    rw [riskPhase_statuses_ne _ _ _ (by decide) (by decide) (by decide)
        (by decide),
      traderPhase_statuses_ne _ _ _ (by decide) (by decide)]
    exact hr
  have ht4 : (riskPhase c (traderPhase c (invPhase c
      (analystLoop seq now c s)))).agent_statuses Agent.trader =
      (match truthy2 c.trader_investment_plan with
        | some _ => Status.completed
        | none => Status.in_progress) := by
    cases htp : truthy2 c.trader_investment_plan with
    | none =>
      rw [riskPhase_statuses_ne _ _ _ (by decide) (by decide) (by decide)
          (by decide),
        traderPhase_none c _ htp]
      exact htd
    | some p =>
      rw [riskPhase_statuses_ne _ _ _ (by decide) (by decide) (by decide)
          (by decide)]
      exact (traderPhase_some_statuses c _ p htp).1
  refine ⟨?_, ?_, ?_, ?_, ?_⟩
  · rw [humanPhase_statuses_nonpending _ _ _ _ (by rw [hb4]; decide)]
    exact hb4
  · rw [humanPhase_statuses_nonpending _ _ _ _ (by rw [he4]; decide)]
    exact he4
  · rw [humanPhase_statuses_nonpending _ _ _ _ (by rw [hr4]; decide)]
    exact hr4
  · rw [humanPhase_reports,
      riskPhase_reports_ne _ _ _ (by decide) (by decide) (by decide)
        (by decide) (by decide),
      traderPhase_reports_ne _ _ _ (by decide)]
    exact hrm
  · rw [humanPhase_statuses_nonpending _ _ _ _ (by
      rw [ht4]
      cases truthy2 c.trader_investment_plan <;> simp)]
    exact ht4

/-- Witness for `claim7_invest_judge_transitions` on a pure judge
chunk. -/
theorem claim7_witness :
    (chunkInvJudge.investment_debate_state = some invJudgeOnly ∧
        otruthy invJudgeOnly.judge_decision = some "BUY") ∧
      (process_chunk_updates defaultSeq 0 chunkInvJudge
          init_symbol_state).agent_statuses Agent.researchManager =
        Status.completed :=
  ⟨⟨rfl, rfl⟩,
   (claim7_invest_judge_transitions defaultSeq 0 chunkInvJudge
      init_symbol_state invJudgeOnly "BUY" rfl rfl).2.2.1⟩

/-!
## Claim 6: the risk-debate judge's terminal transition
-/

theorem backfill_report_val (field : RField) (hist : Option String)
    (sp : String) (w : SymbolState) :
    (backfill field hist sp w).current_reports field =
      backfillVal hist sp (w.current_reports field) := by
  unfold backfill backfillVal
  by_cases h0 : (w.current_reports field).getD "" = ""
  · rw [if_pos h0, if_pos h0]
    cases hist with
    | none => rfl
    | some h =>
      dsimp only
      by_cases h1 : h = ""
      · rw [if_pos h1, if_pos h1]
      · rw [if_neg h1, if_neg h1]
        simp [setRep, updR]
  · rw [if_neg h0, if_neg h0]

theorem stageRisky_report (rd : RiskDebate) (w : SymbolState) :
    (stageRisky rd w).current_reports RField.riskyReport =
      match riskyStageVal rd with
      | some v => some v
      | none => w.current_reports RField.riskyReport := by
  unfold stageRisky riskyStageVal
  cases otruthy rd.current_risky_response with
  | none => rfl
  | some t =>
    dsimp only
    split <;> simp [setRep, updR, Option.map]

theorem stageSafe_report (rd : RiskDebate) (w : SymbolState) :
    (stageSafe rd w).current_reports RField.safeReport =
      match safeStageVal rd with
      | some v => some v
      | none => w.current_reports RField.safeReport := by
  unfold stageSafe safeStageVal
  cases otruthy rd.current_safe_response with
  | none => rfl
  | some t =>
    dsimp only
    split <;> simp [setRep, updR, Option.map]

theorem stageNeutral_report (rd : RiskDebate) (w : SymbolState) :
    (stageNeutral rd w).current_reports RField.neutralReport =
      match neutralStageVal rd with
      | some v => some v
      | none => w.current_reports RField.neutralReport := by
  unfold stageNeutral neutralStageVal
  cases otruthy rd.current_neutral_response with
  | none => rfl
  | some t =>
    dsimp only
    split <;> simp [setRep, updR, Option.map]

theorem riskJudge_risky_report (rd : RiskDebate) (c : Chunk)
    (w : SymbolState) :
    (riskJudge rd c w).current_reports RField.riskyReport =
      match otruthy rd.judge_decision with
      | none => w.current_reports RField.riskyReport
      | some _ =>
        backfillVal rd.risky_history "Risky Analyst: "
          (w.current_reports RField.riskyReport) := by
  unfold riskJudge
  cases otruthy rd.judge_decision with
  | none => rfl
  | some j =>
    dsimp only
    cases c.recommended_action <;>
      · simp only [uas_reports, setRep_reports,
          updR_ne _ _ _ _ (by decide :
            RField.riskyReport ≠ RField.finalTradeDecision),
          updR_ne _ _ _ _ (by decide :
            RField.riskyReport ≠ RField.portfolioDecision)]
        rw [backfill_reports_ne _ _ _ _ _ (by decide),
          backfill_reports_ne _ _ _ _ _ (by decide), backfill_report_val]

theorem riskJudge_safe_report (rd : RiskDebate) (c : Chunk)
    (w : SymbolState) :
    (riskJudge rd c w).current_reports RField.safeReport =
      match otruthy rd.judge_decision with
      | none => w.current_reports RField.safeReport
      | some _ =>
        backfillVal rd.safe_history "Safe Analyst: "
          (w.current_reports RField.safeReport) := by
  unfold riskJudge
  cases otruthy rd.judge_decision with
  | none => rfl
  | some j =>
    dsimp only
    cases c.recommended_action <;>
      · simp only [uas_reports, setRep_reports,
          updR_ne _ _ _ _ (by decide :
            RField.safeReport ≠ RField.finalTradeDecision),
          updR_ne _ _ _ _ (by decide :
            RField.safeReport ≠ RField.portfolioDecision)]
        rw [backfill_reports_ne _ _ _ _ _ (by decide), backfill_report_val,
          backfill_reports_ne _ _ _ _ _ (by decide)]

theorem riskJudge_neutral_report (rd : RiskDebate) (c : Chunk)
    (w : SymbolState) :
    (riskJudge rd c w).current_reports RField.neutralReport =
      match otruthy rd.judge_decision with
      | none => w.current_reports RField.neutralReport
      | some _ =>
        backfillVal rd.neutral_history "Neutral Analyst: "
          (w.current_reports RField.neutralReport) := by
  unfold riskJudge
  cases otruthy rd.judge_decision with
  | none => rfl
  | some j =>
    dsimp only
    cases c.recommended_action <;>
      · simp only [uas_reports, setRep_reports,
          updR_ne _ _ _ _ (by decide :
            RField.neutralReport ≠ RField.finalTradeDecision),
          updR_ne _ _ _ _ (by decide :
            RField.neutralReport ≠ RField.portfolioDecision)]
        rw [backfill_report_val, backfill_reports_ne _ _ _ _ _ (by decide),
          backfill_reports_ne _ _ _ _ _ (by decide)]

theorem riskJudge_decisions (rd : RiskDebate) (c : Chunk) (w : SymbolState)
    (j : String) (hj : otruthy rd.judge_decision = some j) :
    (riskJudge rd c w).current_reports RField.portfolioDecision = some j ∧
      (riskJudge rd c w).current_reports RField.finalTradeDecision = some j := by
  unfold riskJudge
  rw [hj]
  dsimp only
  constructor <;> cases c.recommended_action <;> simp [updR]

theorem riskJudge_statuses4 (rd : RiskDebate) (c : Chunk) (w : SymbolState)
    (j : String) (hj : otruthy rd.judge_decision = some j) :
    (riskJudge rd c w).agent_statuses Agent.riskyAnalyst = Status.completed ∧
      (riskJudge rd c w).agent_statuses Agent.safeAnalyst =
        Status.completed ∧
      (riskJudge rd c w).agent_statuses Agent.neutralAnalyst =
        Status.completed ∧
      (riskJudge rd c w).agent_statuses Agent.portfolioManager =
        Status.completed := by
  unfold riskJudge
  rw [hj]
  dsimp only
  refine ⟨?_, ?_, ?_, ?_⟩ <;> cases c.recommended_action <;>
    simp [updS, parseStatus, backfill_statuses]

theorem riskPhase_risky_report (c : Chunk) (rd : RiskDebate)
    (u : SymbolState) (hc : c.risk_debate_state = some rd) :
    (riskPhase c u).current_reports RField.riskyReport =
      riskyRepF rd (u.current_reports RField.riskyReport) := by
  unfold riskPhase riskyRepF
  rw [hc]
  dsimp only
  rw [riskJudge_risky_report,
    stageNeutral_reports_ne _ _ _ (by decide),
    stageSafe_reports_ne _ _ _ (by decide), stageRisky_report]

theorem riskPhase_safe_report (c : Chunk) (rd : RiskDebate)
    (u : SymbolState) (hc : c.risk_debate_state = some rd) :
    (riskPhase c u).current_reports RField.safeReport =
      safeRepF rd (u.current_reports RField.safeReport) := by
  unfold riskPhase safeRepF
  rw [hc]
  dsimp only
  rw [riskJudge_safe_report, stageNeutral_reports_ne _ _ _ (by decide),
    stageSafe_report, stageRisky_reports_ne _ _ _ (by decide)]

theorem riskPhase_neutral_report (c : Chunk) (rd : RiskDebate)
    (u : SymbolState) (hc : c.risk_debate_state = some rd) :
    (riskPhase c u).current_reports RField.neutralReport =
      neutralRepF rd (u.current_reports RField.neutralReport) := by
  unfold riskPhase neutralRepF
  rw [hc]
  dsimp only
  rw [riskJudge_neutral_report, stageNeutral_report,
    stageSafe_reports_ne _ _ _ (by decide),
    stageRisky_reports_ne _ _ _ (by decide)]

theorem riskPhase_decisions (c : Chunk) (rd : RiskDebate) (u : SymbolState)
    (j : String) (hc : c.risk_debate_state = some rd)
    (hj : otruthy rd.judge_decision = some j) :
    (riskPhase c u).current_reports RField.portfolioDecision = some j ∧
      (riskPhase c u).current_reports RField.finalTradeDecision = some j := by
  unfold riskPhase
  rw [hc]
  dsimp only
  exact riskJudge_decisions rd c _ j hj

theorem riskPhase_statuses4 (c : Chunk) (rd : RiskDebate) (u : SymbolState)
    (j : String) (hc : c.risk_debate_state = some rd)
    (hj : otruthy rd.judge_decision = some j) :
    (riskPhase c u).agent_statuses Agent.riskyAnalyst = Status.completed ∧
      (riskPhase c u).agent_statuses Agent.safeAnalyst = Status.completed ∧
      (riskPhase c u).agent_statuses Agent.neutralAnalyst =
        Status.completed ∧
      (riskPhase c u).agent_statuses Agent.portfolioManager =
        Status.completed := by
  unfold riskPhase
  rw [hc]
  dsimp only
  exact riskJudge_statuses4 rd c _ j hj

theorem isRiskJudgeChunk_of (c : Chunk) (rd : RiskDebate) (j : String)
    (hc : c.risk_debate_state = some rd)
    (hj : otruthy rd.judge_decision = some j) : isRiskJudgeChunk c = true := by
  unfold isRiskJudgeChunk
  rw [hc]
  dsimp only
  rw [hj]
  rfl

theorem flag_mono (seq : List Agent) (now : Nat) (c : Chunk)
    (s : SymbolState) (h : s.analysis_complete = true) :
    (process_chunk_updates seq now c s).analysis_complete = true := by
  unfold process_chunk_updates
  rw [humanPhase_flag]
  cases hj : isRiskJudgeChunk c with
  | true => exact riskPhase_flag_some _ _ hj
  | false =>
    rw [riskPhase_flag_none _ _ hj, traderPhase_flag, invPhase_flag,
      analystLoop_flag]
    exact h

theorem flagFlips_zero_of_true (seq : List Agent) (cs : List (Nat × Chunk)) :
    ∀ s : SymbolState, s.analysis_complete = true → flagFlips seq cs s = 0 := by
  induction cs with
  | nil => intro s _; rfl
  | cons p rest ih =>
    intro s h
    obtain ⟨n, c⟩ := p
    unfold flagFlips
    dsimp only
    rw [if_neg (fun hh => by rw [h] at hh; exact absurd hh.1 (by decide))]
    rw [ih _ (flag_mono seq n c s h)]

theorem process_flag_judge (seq : List Agent) (now : Nat) (c : Chunk)
    (s : SymbolState) (h : isRiskJudgeChunk c = true) :
    (process_chunk_updates seq now c s).analysis_complete = true := by
  unfold process_chunk_updates
  rw [humanPhase_flag]
  exact riskPhase_flag_some _ _ h

/-- **C6.**  Part one: a chunk whose `risk_debate_state` carries a
truthy `judge_decision` marks the three risk debaters and the portfolio
manager `completed`, stores the decision in both terminal fields, sets
`analysis_complete`, and leaves each debater report equal to the
response-overwrite-then-back-fill of its previous value (`riskyRepF`
and friends: an empty slot is reconstructed from the debater's truthy
history with the display name stripped).  Part two: `analysis_complete`
transitions `false → true` exactly once per session no matter how many
risk-judge chunks are replayed. -/
theorem claim6_risk_judge_terminal :
    (∀ (seq : List Agent) (now : Nat) (c : Chunk) (s : SymbolState)
        (rd : RiskDebate) (j : String), c.risk_debate_state = some rd →
        otruthy rd.judge_decision = some j →
        ((process_chunk_updates seq now c s).agent_statuses
              Agent.riskyAnalyst = Status.completed ∧
          (process_chunk_updates seq now c s).agent_statuses
              Agent.safeAnalyst = Status.completed ∧
          (process_chunk_updates seq now c s).agent_statuses
              Agent.neutralAnalyst = Status.completed ∧
          (process_chunk_updates seq now c s).agent_statuses
              Agent.portfolioManager = Status.completed) ∧
        (process_chunk_updates seq now c s).current_reports
            RField.portfolioDecision = some j ∧
        (process_chunk_updates seq now c s).current_reports
            RField.finalTradeDecision = some j ∧
        (process_chunk_updates seq now c s).analysis_complete = true ∧
        (process_chunk_updates seq now c s).current_reports
            RField.riskyReport =
          riskyRepF rd (s.current_reports RField.riskyReport) ∧
        (process_chunk_updates seq now c s).current_reports
            RField.safeReport =
          safeRepF rd (s.current_reports RField.safeReport) ∧
        (process_chunk_updates seq now c s).current_reports
            RField.neutralReport =
          neutralRepF rd (s.current_reports RField.neutralReport)) ∧
    ∀ (seq : List Agent) (cs : List (Nat × Chunk)) (s : SymbolState),
      (∀ p ∈ cs, isRiskJudgeChunk p.2 = true) → cs ≠ [] →
      s.analysis_complete = false → flagFlips seq cs s = 1 := by
  constructor
  · intro seq now c s rd j hc hj
    obtain ⟨h1, h2, h3, h4⟩ := riskPhase_statuses4 c rd
      (traderPhase c (invPhase c (analystLoop seq now c s))) j hc hj
    obtain ⟨hd1, hd2⟩ := riskPhase_decisions c rd
      (traderPhase c (invPhase c (analystLoop seq now c s))) j hc hj
    refine ⟨⟨?_, ?_, ?_, ?_⟩, ?_, ?_, ?_, ?_, ?_, ?_⟩
    · unfold process_chunk_updates
      rw [humanPhase_statuses_nonpending _ _ _ _ (by rw [h1]; decide)]
      exact h1
    · unfold process_chunk_updates
      rw [humanPhase_statuses_nonpending _ _ _ _ (by rw [h2]; decide)]
      exact h2
    · unfold process_chunk_updates
      rw [humanPhase_statuses_nonpending _ _ _ _ (by rw [h3]; decide)]
      exact h3
    · unfold process_chunk_updates
      rw [humanPhase_statuses_nonpending _ _ _ _ (by rw [h4]; decide)]
      exact h4
    · unfold process_chunk_updates
      rw [humanPhase_reports]
      exact hd1
    · unfold process_chunk_updates
      rw [humanPhase_reports]
      exact hd2
    · exact process_flag_judge seq now c s (isRiskJudgeChunk_of c rd j hc hj)
    · unfold process_chunk_updates
      rw [humanPhase_reports, riskPhase_risky_report c rd _ hc,
        traderPhase_reports_ne _ _ _ (by decide),
        invPhase_reports_ne _ _ _ (by decide) (by decide) (by decide)
          (by decide),
        analystLoop_reports_ne _ _ _ _ _ (by intro q; cases q <;> decide)]
    · unfold process_chunk_updates
      rw [humanPhase_reports, riskPhase_safe_report c rd _ hc,
        traderPhase_reports_ne _ _ _ (by decide),
        invPhase_reports_ne _ _ _ (by decide) (by decide) (by decide)
          (by decide),
        analystLoop_reports_ne _ _ _ _ _ (by intro q; cases q <;> decide)]
    · unfold process_chunk_updates
      rw [humanPhase_reports, riskPhase_neutral_report c rd _ hc,
        traderPhase_reports_ne _ _ _ (by decide),
        invPhase_reports_ne _ _ _ (by decide) (by decide) (by decide)
          (by decide),
        analystLoop_reports_ne _ _ _ _ _ (by intro q; cases q <;> decide)]
  · intro seq cs s hall hne hs
    cases cs with
    | nil => exact absurd rfl hne
    | cons p rest =>
      obtain ⟨n, c⟩ := p
      unfold flagFlips
      dsimp only
      have hflag : (process_chunk_updates seq n c s).analysis_complete =
          true :=
        process_flag_judge seq n c s (hall (n, c) (List.mem_cons_self _ _))
      rw [if_pos ⟨hs, hflag⟩, flagFlips_zero_of_true seq rest _ hflag]

/-- Witness for `claim6_risk_judge_terminal` on a concrete risk-judge
chunk replayed twice: the empty risky report is back-filled from the
history with the display name stripped, and the completion flag flips
exactly once. -/
theorem claim6_witness :
    (chunkRiskJudge.risk_debate_state = some riskJudgeFrag ∧
        otruthy riskJudgeFrag.judge_decision = some "SELL" ∧
        init_symbol_state.analysis_complete = false) ∧
      (process_chunk_updates defaultSeq 0 chunkRiskJudge
          init_symbol_state).current_reports RField.riskyReport =
        riskyRepF riskJudgeFrag
          (init_symbol_state.current_reports RField.riskyReport) ∧
      flagFlips defaultSeq [(0, chunkRiskJudge), (1, chunkRiskJudge)]
        init_symbol_state = 1 :=
  ⟨⟨rfl, rfl, rfl⟩,
   ((claim6_risk_judge_terminal.1 defaultSeq 0 chunkRiskJudge
      init_symbol_state riskJudgeFrag "SELL" rfl rfl).2.2.2.2.1),
   claim6_risk_judge_terminal.2 defaultSeq
     [(0, chunkRiskJudge), (1, chunkRiskJudge)] init_symbol_state
     (by
       intro p hp
       rw [List.mem_cons, List.mem_cons] at hp
       rcases hp with h | h | h
       · rw [h]; rfl
       · rw [h]; rfl
       · exact absurd h (List.not_mem_nil p))

     (List.cons_ne_nil _ _) rfl⟩

/-!
## Claim 2: idempotence of chunk processing
-/

theorem symbolState_ext {x y : SymbolState}
    (h1 : x.agent_statuses = y.agent_statuses)
    (h2 : x.current_reports = y.current_reports)
    (h3 : x.report_timestamps = y.report_timestamps)
    (h4 : x.update_counts = y.update_counts)
    (h5 : x.investment_debate_state = y.investment_debate_state)
    (h6 : x.risk_debate_state = y.risk_debate_state)
    (h7 : x.analysis_complete = y.analysis_complete)
    (h8 : x.recommended_action = y.recommended_action) : x = y := by
  cases x
  cases y
  congr 1

theorem humanPhase_idem (seq : List Agent) (c : Chunk) (u : SymbolState) :
    humanPhase seq c (humanPhase seq c u) = humanPhase seq c u := by
  by_cases hm : (c.messages.any fun m => decide (m.mtype = some "human")) = true
  · by_cases hip : (agentList.any fun a =>
        decide (u.agent_statuses a = Status.in_progress)) = true
    · have h1 : humanPhase seq c u = u := by
        unfold humanPhase
        rw [if_pos hm, if_pos hip]
      rw [h1]
      exact h1
    · cases hf : seq.find? (fun a =>
          decide (u.agent_statuses a = Status.pending)) with
      | none =>
        have h1 : humanPhase seq c u = u := by
          unfold humanPhase
          rw [if_pos hm, if_neg hip, hf]
        rw [h1]
        exact h1
      | some b =>
        have h1 : humanPhase seq c u = update_agent_status u b "in_progress" := by
          unfold humanPhase
          rw [if_pos hm, if_neg hip, hf]
        rw [h1]
        unfold humanPhase
        rw [if_pos hm]
        rw [if_pos (List.any_eq_true.mpr ⟨b, mem_agentList b, by simp [updS]⟩)]
  · have h1 : humanPhase seq c u = u := by
      unfold humanPhase
      rw [if_neg hm]
    rw [h1]
    exact h1

theorem advance_notip (seq : List Agent) (agent : Agent) (st : Status)
    (s : SymbolState) (h : st ≠ Status.in_progress) :
    advanceAfterReport seq agent st s = s := by
  unfold advanceAfterReport
  rw [if_neg h]

theorem activeTxt_some (c : Chunk) (r : AR) (txt : String)
    (h : activeTxt c r = some txt) :
    chunkAR c r = some (some txt) ∧ ¬ (strip txt = "") := by
  unfold activeTxt at h
  revert h
  cases chunkAR c r with
  | none => intro h; exact absurd h (by simp)
  | some v =>
    cases v with
    | none => intro h; exact absurd h (by simp)
    | some t =>
      dsimp only
      split
      · intro h; exact absurd h (by simp)
      · rename_i hts
        intro h
        rw [Option.some_inj] at h
        subst h
        exact ⟨rfl, hts⟩

theorem analystStep_inactive (seq : List Agent) (now : Nat) (c : Chunk)
    (r : AR) (v : SymbolState) (h : activeTxt c r = none) :
    analystStep seq now c r v = v := by
  unfold activeTxt at h
  unfold analystStep
  revert h
  cases chunkAR c r with
  | none => intro _; rfl
  | some w =>
    cases w with
    | none => intro _; rfl
    | some t =>
      dsimp only
      split
      · intro _; rfl
      · intro h; exact absurd h (by simp)

theorem mem_arList (r : AR) : r ∈ arList := by
  cases r <;> simp [arList]

theorem analystStep_noop (seq : List Agent) (now : Nat) (c : Chunk) (r : AR)
    (v : SymbolState) (txt : String) (hx : activeTxt c r = some txt)
    (hst : v.agent_statuses (arAgent r) = Status.completed)
    (hcfg : v.current_reports (arField r) = some txt ∨ rejectCfg v r txt) :
    analystStep seq now c r v = v := by
  obtain ⟨hc, hts⟩ := activeTxt_some c r txt hx
  unfold analystStep
  rw [hc]
  dsimp only
  rw [if_neg hts]
  split
  · rfl
  · rename_i h1
    split
    · rfl
    · rename_i h2
      split
      · rfl
      · rename_i h3
        split
        · rename_i h4
          exfalso
          rcases hcfg with heq | ⟨hne, hrej⟩
          · rcases h4 with h | h
            · exact h heq.symm
            · exact h hst
          · rcases hrej with hshort | hcount
            · exact h2 ⟨Or.inl hne, hst, hshort⟩
            · exact h3 ⟨Or.inl hne, hcount⟩
        · exact advance_notip seq (arAgent r) _ v (by rw [hst]; decide)

theorem analystStep_cfg (seq : List Agent) (now : Nat) (c : Chunk) (r : AR)
    (u : SymbolState) (txt : String) (hx : activeTxt c r = some txt) :
    (analystStep seq now c r u).current_reports (arField r) = some txt ∨
      rejectCfg (analystStep seq now c r u) r txt := by
  obtain ⟨hc, hts⟩ := activeTxt_some c r txt hx
  unfold analystStep
  rw [hc]
  dsimp only
  rw [if_neg hts]
  split
  · rename_i h1
    exact Or.inl h1.1.symm
  · rename_i h1
    split
    · rename_i h2
      by_cases hne : some txt = u.current_reports (arField r)
      · exact Or.inl hne.symm
      · exact Or.inr ⟨hne, Or.inl h2.2.2⟩
    · rename_i h2
      split
      · rename_i h3
        by_cases hne : some txt = u.current_reports (arField r)
        · exact Or.inl hne.symm
        · exact Or.inr ⟨hne, Or.inr h3.2⟩
      · rename_i h3
        by_cases h4 : some txt ≠ u.current_reports (arField r) ∨
            u.agent_statuses (arAgent r) ≠ Status.completed
        · rw [if_pos h4]
          refine Or.inl ?_
          simp only [advance_reports, storeReport_reports, updR_eq]
        · rw [if_neg h4]
          push_neg at h4
          refine Or.inl ?_
          simp only [advance_reports]
          exact h4.1.symm

theorem cfg_pres {w w' : SymbolState} (r : AR) (txt : String)
    (hR : w'.current_reports (arField r) = w.current_reports (arField r))
    (hC : w'.update_counts r = w.update_counts r)
    (h : w.current_reports (arField r) = some txt ∨ rejectCfg w r txt) :
    w'.current_reports (arField r) = some txt ∨ rejectCfg w' r txt := by
  unfold rejectCfg at h ⊢
  rw [hR, hC]
  exact h

theorem cfg_pres_step (seq : List Agent) (now : Nat) (c : Chunk)
    {w : SymbolState} (r r' : AR) (txt : String) (hrr : r ≠ r')
    (h : w.current_reports (arField r) = some txt ∨ rejectCfg w r txt) :
    (analystStep seq now c r' w).current_reports (arField r) = some txt ∨
      rejectCfg (analystStep seq now c r' w) r txt :=
  cfg_pres r txt
    (analystStep_reports_ne _ _ _ _ _ _
      (fun he => hrr (arField_inj _ _ he)))
    (analystStep_counts_ne _ _ _ _ _ _ hrr) h

theorem analystLoop_cfg (seq : List Agent) (now : Nat) (c : Chunk)
    (s : SymbolState) (r : AR) (txt : String)
    (hx : activeTxt c r = some txt) :
    (analystLoop seq now c s).current_reports (arField r) = some txt ∨
      rejectCfg (analystLoop seq now c s) r txt := by
  unfold analystLoop
  cases r with
  | marketReport =>
    exact cfg_pres_step seq now c _ AR.macroReport txt (by decide)
      (cfg_pres_step seq now c _ AR.fundamentalsReport txt (by decide)
        (cfg_pres_step seq now c _ AR.newsReport txt (by decide)
          (cfg_pres_step seq now c _ AR.sentimentReport txt (by decide)
            (analystStep_cfg seq now c _ _ txt hx))))
  | sentimentReport =>
    exact cfg_pres_step seq now c _ AR.macroReport txt (by decide)
      (cfg_pres_step seq now c _ AR.fundamentalsReport txt (by decide)
        (cfg_pres_step seq now c _ AR.newsReport txt (by decide)
          (analystStep_cfg seq now c _ _ txt hx)))
  | newsReport =>
    exact cfg_pres_step seq now c _ AR.macroReport txt (by decide)
      (cfg_pres_step seq now c _ AR.fundamentalsReport txt (by decide)
        (analystStep_cfg seq now c _ _ txt hx))
  | fundamentalsReport =>
    exact cfg_pres_step seq now c _ AR.macroReport txt (by decide)
      (analystStep_cfg seq now c _ _ txt hx)
  | macroReport =>
    exact analystStep_cfg seq now c _ _ txt hx

theorem process_pass1_cfg (seq : List Agent) (now : Nat) (c : Chunk)
    (s : SymbolState) (r : AR) (txt : String)
    (hx : activeTxt c r = some txt) :
    (process_chunk_updates seq now c s).current_reports (arField r) =
        some txt ∨
      rejectCfg (process_chunk_updates seq now c s) r txt := by
  unfold process_chunk_updates
  refine cfg_pres r txt ?_ ?_ (analystLoop_cfg seq now c s r txt hx)
  · exact latePhases_reports_ar seq c r _
  · rw [humanPhase_counts, riskPhase_counts, traderPhase_counts,
      invPhase_counts]

theorem analystLoop_id (seq : List Agent) (now : Nat) (c : Chunk)
    (v : SymbolState)
    (h : ∀ r : AR, ∀ txt : String, activeTxt c r = some txt →
      v.agent_statuses (arAgent r) = Status.completed ∧
        (v.current_reports (arField r) = some txt ∨ rejectCfg v r txt)) :
    analystLoop seq now c v = v := by
  have hstep : ∀ r : AR, analystStep seq now c r v = v := by
    intro r
    cases hx : activeTxt c r with
    | none => exact analystStep_inactive seq now c r v hx
    | some txt =>
      obtain ⟨h1, h2⟩ := h r txt hx
      exact analystStep_noop seq now c r v txt hx h1 h2
  unfold analystLoop
  rw [hstep AR.marketReport, hstep AR.sentimentReport, hstep AR.newsReport,
    hstep AR.fundamentalsReport, hstep AR.macroReport]

theorem backfillVal_idem (hist : Option String) (sp : String)
    (x : Option String) :
    backfillVal hist sp (backfillVal hist sp x) = backfillVal hist sp x := by
  by_cases h0 : x.getD "" = ""
  · cases hist with
    | none =>
      have hx : backfillVal none sp x = x := by
        unfold backfillVal
        rw [if_pos h0]
      rw [hx, hx]
    | some h =>
      by_cases h1 : h = ""
      · have hx : backfillVal (some h) sp x = x := by
          unfold backfillVal
          rw [if_pos h0]
          dsimp only
          rw [if_pos h1]
        rw [hx, hx]
      · have hx : backfillVal (some h) sp x = some (strip (removeAll h sp)) := by
          unfold backfillVal
          rw [if_pos h0]
          dsimp only
          rw [if_neg h1]
        rw [hx]
        by_cases h2 : strip (removeAll h sp) = ""
        · unfold backfillVal
          rw [if_pos (by simpa using h2)]
          dsimp only
          rw [if_neg h1]
        · unfold backfillVal
          rw [if_neg (by simpa using h2)]
  · have hx : backfillVal hist sp x = x := by
      unfold backfillVal
      rw [if_neg h0]
    rw [hx, hx]

theorem riskyRepF_idem (rd : RiskDebate) (x : Option String) :
    riskyRepF rd (riskyRepF rd x) = riskyRepF rd x := by
  unfold riskyRepF
  cases hsv : riskyStageVal rd with
  | some v => dsimp only
  | none =>
    dsimp only
    cases hj : otruthy rd.judge_decision with
    | none => rfl
    | some j =>
      dsimp only
      rw [backfillVal_idem]

theorem safeRepF_idem (rd : RiskDebate) (x : Option String) :
    safeRepF rd (safeRepF rd x) = safeRepF rd x := by
  unfold safeRepF
  cases hsv : safeStageVal rd with
  | some v => dsimp only
  | none =>
    dsimp only
    cases hj : otruthy rd.judge_decision with
    | none => rfl
    | some j =>
      dsimp only
      rw [backfillVal_idem]

theorem neutralRepF_idem (rd : RiskDebate) (x : Option String) :
    neutralRepF rd (neutralRepF rd x) = neutralRepF rd x := by
  unfold neutralRepF
  cases hsv : neutralStageVal rd with
  | some v => dsimp only
  | none =>
    dsimp only
    cases hj : otruthy rd.judge_decision with
    | none => rfl
    | some j =>
      dsimp only
      rw [backfillVal_idem]

theorem invPhase_none (c : Chunk) (u : SymbolState)
    (hc : c.investment_debate_state = none) : invPhase c u = u := by
  unfold invPhase
  rw [hc]

theorem riskPhase_none (c : Chunk) (u : SymbolState)
    (hc : c.risk_debate_state = none) : riskPhase c u = u := by
  unfold riskPhase
  rw [hc]

theorem riskJudge_none (rd : RiskDebate) (c : Chunk) (w : SymbolState)
    (hj : otruthy rd.judge_decision = none) : riskJudge rd c w = w := by
  unfold riskJudge
  rw [hj]

theorem stageBull_report (d : InvDebate) (w : SymbolState) :
    (stageBull d w).current_reports RField.bullReport =
      match bullVal d with
      | some v => some v
      | none => w.current_reports RField.bullReport := by
  unfold stageBull bullVal
  cases otruthy d.bull_history with
  | none => rfl
  | some h =>
    dsimp only
    split <;> simp [setRep, updR]

theorem stageBear_report (d : InvDebate) (w : SymbolState) :
    (stageBear d w).current_reports RField.bearReport =
      match bearVal d with
      | some v => some v
      | none => w.current_reports RField.bearReport := by
  unfold stageBear bearVal
  cases otruthy d.bear_history with
  | none => rfl
  | some h =>
    dsimp only
    split <;> simp [setRep, updR]

theorem invPhase_bull_report (c : Chunk) (d : InvDebate) (u : SymbolState)
    (hc : c.investment_debate_state = some d) :
    (invPhase c u).current_reports RField.bullReport =
      match bullVal d with
      | some v => some v
      | none => u.current_reports RField.bullReport := by
  unfold invPhase
  rw [hc]
  dsimp only
  cases hj : otruthy d.judge_decision with
  | none =>
    rw [stageBear_reports_ne _ _ _ (by decide), stageBull_report]
  | some j =>
    dsimp only
    simp only [uas_reports, setRep_reports,
      updR_ne _ _ _ _ (by decide :
        RField.bullReport ≠ RField.investmentPlan),
      updR_ne _ _ _ _ (by decide :
        RField.bullReport ≠ RField.researchManagerReport)]
    rw [stageBear_reports_ne _ _ _ (by decide), stageBull_report]

theorem invPhase_bear_report (c : Chunk) (d : InvDebate) (u : SymbolState)
    (hc : c.investment_debate_state = some d) :
    (invPhase c u).current_reports RField.bearReport =
      match bearVal d with
      | some v => some v
      | none => u.current_reports RField.bearReport := by
  unfold invPhase
  rw [hc]
  dsimp only
  cases hj : otruthy d.judge_decision with
  | none =>
    rw [stageBear_report, stageBull_reports_ne _ _ _ (by decide)]
  | some j =>
    dsimp only
    simp only [uas_reports, setRep_reports,
      updR_ne _ _ _ _ (by decide :
        RField.bearReport ≠ RField.investmentPlan),
      updR_ne _ _ _ _ (by decide :
        RField.bearReport ≠ RField.researchManagerReport)]
    rw [stageBear_report, stageBull_reports_ne _ _ _ (by decide)]

theorem invPhase_rm_report_nojudge (c : Chunk) (d : InvDebate)
    (u : SymbolState) (hc : c.investment_debate_state = some d)
    (hj : otruthy d.judge_decision = none) :
    (invPhase c u).current_reports RField.researchManagerReport =
        u.current_reports RField.researchManagerReport ∧
      (invPhase c u).current_reports RField.investmentPlan =
        u.current_reports RField.investmentPlan := by
  unfold invPhase
  rw [hc]
  dsimp only
  rw [hj]
  constructor <;>
    rw [stageBear_reports_ne _ _ _ (by decide),
      stageBull_reports_ne _ _ _ (by decide)]

theorem traderPhase_plan_report (c : Chunk) (u : SymbolState) (p : String)
    (ht : truthy2 c.trader_investment_plan = some p) :
    (traderPhase c u).current_reports RField.traderInvestmentPlan =
      some p := by
  unfold traderPhase
  rw [ht]
  dsimp only
  simp [setRep, updR]

theorem riskPhase_decisions_nojudge (c : Chunk) (rd : RiskDebate)
    (u : SymbolState) (hc : c.risk_debate_state = some rd)
    (hj : otruthy rd.judge_decision = none) :
    (riskPhase c u).current_reports RField.portfolioDecision =
        u.current_reports RField.portfolioDecision ∧
      (riskPhase c u).current_reports RField.finalTradeDecision =
        u.current_reports RField.finalTradeDecision := by
  unfold riskPhase
  rw [hc]
  dsimp only
  rw [riskJudge_none _ _ _ hj]
  constructor <;>
    rw [stageNeutral_reports_ne _ _ _ (by decide),
      stageSafe_reports_ne _ _ _ (by decide),
      stageRisky_reports_ne _ _ _ (by decide)]

theorem riskJudge_rec (rd : RiskDebate) (c : Chunk) (w : SymbolState) :
    (riskJudge rd c w).recommended_action =
      match otruthy rd.judge_decision, c.recommended_action with
      | some _, some v => some v
      | some _, none => w.recommended_action
      | none, _ => w.recommended_action := by
  unfold riskJudge
  cases otruthy rd.judge_decision with
  | none => rfl
  | some j =>
    dsimp only
    cases c.recommended_action <;> simp [backfill_rec]

theorem riskPhase_rec_char (c : Chunk) (rd : RiskDebate) (u : SymbolState)
    (hc : c.risk_debate_state = some rd) :
    (riskPhase c u).recommended_action =
      match otruthy rd.judge_decision, c.recommended_action with
      | some _, some v => some v
      | some _, none => u.recommended_action
      | none, _ => u.recommended_action := by
  unfold riskPhase
  rw [hc]
  dsimp only
  rw [riskJudge_rec, stageNeutral_rec, stageSafe_rec, stageRisky_rec]

theorem stageBull_status_self (d : InvDebate) (w : SymbolState)
    (h : otruthy d.bull_history = none ∨
      w.agent_statuses Agent.bullResearcher ≠ Status.pending) :
    (stageBull d w).agent_statuses Agent.bullResearcher =
      w.agent_statuses Agent.bullResearcher := by
  rcases h with h | h
  · unfold stageBull
    rw [h]
  · unfold stageBull
    cases hb : otruthy d.bull_history with
    | none => rfl
    | some h0 =>
      dsimp only
      rw [if_neg h]
      simp only [setRep_statuses]

theorem stageBear_status_self (d : InvDebate) (w : SymbolState)
    (h : otruthy d.bear_history = none ∨
      w.agent_statuses Agent.bearResearcher ≠ Status.pending) :
    (stageBear d w).agent_statuses Agent.bearResearcher =
      w.agent_statuses Agent.bearResearcher := by
  rcases h with h | h
  · unfold stageBear
    rw [h]
  · unfold stageBear
    cases hb : otruthy d.bear_history with
    | none => rfl
    | some h0 =>
      dsimp only
      rw [if_neg h]
      simp only [setRep_statuses]

theorem stageRisky_status_self (rd : RiskDebate) (w : SymbolState)
    (h : otruthy rd.current_risky_response = none ∨
      w.agent_statuses Agent.riskyAnalyst ≠ Status.pending) :
    (stageRisky rd w).agent_statuses Agent.riskyAnalyst =
      w.agent_statuses Agent.riskyAnalyst := by
  rcases h with h | h
  · unfold stageRisky
    rw [h]
  · unfold stageRisky
    cases hb : otruthy rd.current_risky_response with
    | none => rfl
    | some t =>
      dsimp only
      rw [if_neg h]
      simp only [setRep_statuses]

theorem stageSafe_status_self (rd : RiskDebate) (w : SymbolState)
    (h : otruthy rd.current_safe_response = none ∨
      w.agent_statuses Agent.safeAnalyst ≠ Status.pending) :
    (stageSafe rd w).agent_statuses Agent.safeAnalyst =
      w.agent_statuses Agent.safeAnalyst := by
  rcases h with h | h
  · unfold stageSafe
    rw [h]
  · unfold stageSafe
    cases hb : otruthy rd.current_safe_response with
    | none => rfl
    | some t =>
      dsimp only
      rw [if_neg h]
      simp only [setRep_statuses]

theorem stageNeutral_status_self (rd : RiskDebate) (w : SymbolState)
    (h : otruthy rd.current_neutral_response = none ∨
      w.agent_statuses Agent.neutralAnalyst ≠ Status.pending) :
    (stageNeutral rd w).agent_statuses Agent.neutralAnalyst =
      w.agent_statuses Agent.neutralAnalyst := by
  rcases h with h | h
  · unfold stageNeutral
    rw [h]
  · unfold stageNeutral
    cases hb : otruthy rd.current_neutral_response with
    | none => rfl
    | some t =>
      dsimp only
      rw [if_neg h]
      simp only [setRep_statuses]

theorem stageBull_result_nonpending (d : InvDebate) (w : SymbolState)
    (h0 : String) (hb : otruthy d.bull_history = some h0) :
    (stageBull d w).agent_statuses Agent.bullResearcher ≠ Status.pending := by
  unfold stageBull
  rw [hb]
  dsimp only
  by_cases hp : w.agent_statuses Agent.bullResearcher = Status.pending
  · rw [if_pos hp]
    simp only [setRep_statuses, uas_statuses, updS_eq]
    decide
  · rw [if_neg hp]
    simp only [setRep_statuses]
    exact hp

theorem stageBear_result_nonpending (d : InvDebate) (w : SymbolState)
    (h0 : String) (hb : otruthy d.bear_history = some h0) :
    (stageBear d w).agent_statuses Agent.bearResearcher ≠ Status.pending := by
  unfold stageBear
  rw [hb]
  dsimp only
  by_cases hp : w.agent_statuses Agent.bearResearcher = Status.pending
  · rw [if_pos hp]
    simp only [setRep_statuses, uas_statuses, updS_eq]
    decide
  · rw [if_neg hp]
    simp only [setRep_statuses]
    exact hp

theorem stageRisky_result_nonpending (rd : RiskDebate) (w : SymbolState)
    (t : String) (hb : otruthy rd.current_risky_response = some t) :
    (stageRisky rd w).agent_statuses Agent.riskyAnalyst ≠ Status.pending := by
  unfold stageRisky
  rw [hb]
  dsimp only
  by_cases hp : w.agent_statuses Agent.riskyAnalyst = Status.pending
  · rw [if_pos hp]
    simp only [setRep_statuses, uas_statuses, updS_eq]
    decide
  · rw [if_neg hp]
    simp only [setRep_statuses]
    exact hp

theorem stageSafe_result_nonpending (rd : RiskDebate) (w : SymbolState)
    (t : String) (hb : otruthy rd.current_safe_response = some t) :
    (stageSafe rd w).agent_statuses Agent.safeAnalyst ≠ Status.pending := by
  unfold stageSafe
  rw [hb]
  dsimp only
  by_cases hp : w.agent_statuses Agent.safeAnalyst = Status.pending
  · rw [if_pos hp]
    simp only [setRep_statuses, uas_statuses, updS_eq]
    decide
  · rw [if_neg hp]
    simp only [setRep_statuses]
    exact hp

theorem stageNeutral_result_nonpending (rd : RiskDebate) (w : SymbolState)
    (t : String) (hb : otruthy rd.current_neutral_response = some t) :
    (stageNeutral rd w).agent_statuses Agent.neutralAnalyst ≠
      Status.pending := by
  unfold stageNeutral
  rw [hb]
  dsimp only
  by_cases hp : w.agent_statuses Agent.neutralAnalyst = Status.pending
  · rw [if_pos hp]
    simp only [setRep_statuses, uas_statuses, updS_eq]
    decide
  · rw [if_neg hp]
    simp only [setRep_statuses]
    exact hp

theorem invPhase_statuses_ne (c : Chunk) (u : SymbolState) (a : Agent)
    (h1 : a ≠ Agent.bullResearcher) (h2 : a ≠ Agent.bearResearcher)
    (h3 : a ≠ Agent.researchManager) (h4 : a ≠ Agent.trader) :
    (invPhase c u).agent_statuses a = u.agent_statuses a := by
  unfold invPhase
  cases c.investment_debate_state with
  | none => rfl
  | some d =>
    dsimp only
    cases otruthy d.judge_decision with
    | none =>
      rw [stageBear_statuses_ne _ _ _ h2, stageBull_statuses_ne _ _ _ h1]
    | some j =>
      dsimp only
      simp only [uas_statuses, setRep_statuses, updS_ne _ _ _ _ h4,
        updS_ne _ _ _ _ h3, updS_ne _ _ _ _ h2, updS_ne _ _ _ _ h1]
      rw [stageBear_statuses_ne _ _ _ h2, stageBull_statuses_ne _ _ _ h1]

theorem invPhase_statuses_nojudge (c : Chunk) (d : InvDebate)
    (u : SymbolState) (a : Agent) (hc : c.investment_debate_state = some d)
    (hj : otruthy d.judge_decision = none) (h1 : a ≠ Agent.bullResearcher)
    (h2 : a ≠ Agent.bearResearcher) :
    (invPhase c u).agent_statuses a = u.agent_statuses a := by
  unfold invPhase
  rw [hc]
  dsimp only
  rw [hj]
  dsimp only
  rw [stageBear_statuses_ne _ _ _ h2, stageBull_statuses_ne _ _ _ h1]

theorem invPhase_bull_status_nojudge (c : Chunk) (d : InvDebate)
    (u : SymbolState) (hc : c.investment_debate_state = some d)
    (hj : otruthy d.judge_decision = none)
    (h : otruthy d.bull_history = none ∨
      u.agent_statuses Agent.bullResearcher ≠ Status.pending) :
    (invPhase c u).agent_statuses Agent.bullResearcher =
      u.agent_statuses Agent.bullResearcher := by
  unfold invPhase
  rw [hc]
  dsimp only
  rw [hj]
  dsimp only
  rw [stageBear_statuses_ne _ _ _ (by decide)]
  exact stageBull_status_self d _ h

theorem invPhase_bear_status_nojudge (c : Chunk) (d : InvDebate)
    (u : SymbolState) (hc : c.investment_debate_state = some d)
    (hj : otruthy d.judge_decision = none)
    (h : otruthy d.bear_history = none ∨
      u.agent_statuses Agent.bearResearcher ≠ Status.pending) :
    (invPhase c u).agent_statuses Agent.bearResearcher =
      u.agent_statuses Agent.bearResearcher := by
  unfold invPhase
  rw [hc]
  dsimp only
  rw [hj]
  dsimp only
  have h1 : (stageBull d { u with investment_debate_state := some d
      }).agent_statuses Agent.bearResearcher =
      u.agent_statuses Agent.bearResearcher :=
    stageBull_statuses_ne _ _ _ (by decide)
  rcases h with h | h
  · rw [stageBear_status_self _ _ (Or.inl h), h1]
  · rw [stageBear_status_self _ _ (Or.inr (by rw [h1]; exact h)), h1]

theorem invPhase_bull_nonpending (c : Chunk) (d : InvDebate)
    (u : SymbolState) (h0 : String) (hc : c.investment_debate_state = some d)
    (hb : otruthy d.bull_history = some h0) :
    (invPhase c u).agent_statuses Agent.bullResearcher ≠ Status.pending := by
  cases hj : otruthy d.judge_decision with
  | some j =>
    rw [(invPhase_judge_statuses c d u j hc hj).1]
    decide
  | none =>
    unfold invPhase
    rw [hc]
    dsimp only
    rw [hj]
    dsimp only
    rw [stageBear_statuses_ne _ _ _ (by decide)]
    exact stageBull_result_nonpending d _ h0 hb

theorem invPhase_bear_nonpending (c : Chunk) (d : InvDebate)
    (u : SymbolState) (h0 : String) (hc : c.investment_debate_state = some d)
    (hb : otruthy d.bear_history = some h0) :
    (invPhase c u).agent_statuses Agent.bearResearcher ≠ Status.pending := by
  cases hj : otruthy d.judge_decision with
  | some j =>
    rw [(invPhase_judge_statuses c d u j hc hj).2.1]
    decide
  | none =>
    unfold invPhase
    rw [hc]
    dsimp only
    rw [hj]
    dsimp only
    exact stageBear_result_nonpending d _ h0 hb

theorem riskPhase_statuses_nojudge (c : Chunk) (rd : RiskDebate)
    (u : SymbolState) (a : Agent) (hc : c.risk_debate_state = some rd)
    (hj : otruthy rd.judge_decision = none) (h1 : a ≠ Agent.riskyAnalyst)
    (h2 : a ≠ Agent.safeAnalyst) (h3 : a ≠ Agent.neutralAnalyst) :
    (riskPhase c u).agent_statuses a = u.agent_statuses a := by
  unfold riskPhase
  rw [hc]
  dsimp only
  rw [riskJudge_none _ _ _ hj, stageNeutral_statuses_ne _ _ _ h3,
    stageSafe_statuses_ne _ _ _ h2, stageRisky_statuses_ne _ _ _ h1]

theorem riskPhase_risky_status_nojudge (c : Chunk) (rd : RiskDebate)
    (u : SymbolState) (hc : c.risk_debate_state = some rd)
    (hj : otruthy rd.judge_decision = none)
    (h : otruthy rd.current_risky_response = none ∨
      u.agent_statuses Agent.riskyAnalyst ≠ Status.pending) :
    (riskPhase c u).agent_statuses Agent.riskyAnalyst =
      u.agent_statuses Agent.riskyAnalyst := by
  unfold riskPhase
  rw [hc]
  dsimp only
  rw [riskJudge_none _ _ _ hj, stageNeutral_statuses_ne _ _ _ (by decide),
    stageSafe_statuses_ne _ _ _ (by decide)]
  exact stageRisky_status_self rd _ h

theorem riskPhase_safe_status_nojudge (c : Chunk) (rd : RiskDebate)
    (u : SymbolState) (hc : c.risk_debate_state = some rd)
    (hj : otruthy rd.judge_decision = none)
    (h : otruthy rd.current_safe_response = none ∨
      u.agent_statuses Agent.safeAnalyst ≠ Status.pending) :
    (riskPhase c u).agent_statuses Agent.safeAnalyst =
      u.agent_statuses Agent.safeAnalyst := by
  unfold riskPhase
  rw [hc]
  dsimp only
  rw [riskJudge_none _ _ _ hj, stageNeutral_statuses_ne _ _ _ (by decide)]
  have h1 : (stageRisky rd { u with risk_debate_state := some rd
      }).agent_statuses Agent.safeAnalyst =
      u.agent_statuses Agent.safeAnalyst :=
    stageRisky_statuses_ne _ _ _ (by decide)
  rcases h with h | h
  · rw [stageSafe_status_self _ _ (Or.inl h), h1]
  · rw [stageSafe_status_self _ _ (Or.inr (by rw [h1]; exact h)), h1]

theorem riskPhase_neutral_status_nojudge (c : Chunk) (rd : RiskDebate)
    (u : SymbolState) (hc : c.risk_debate_state = some rd)
    (hj : otruthy rd.judge_decision = none)
    (h : otruthy rd.current_neutral_response = none ∨
      u.agent_statuses Agent.neutralAnalyst ≠ Status.pending) :
    (riskPhase c u).agent_statuses Agent.neutralAnalyst =
      u.agent_statuses Agent.neutralAnalyst := by
  unfold riskPhase
  rw [hc]
  dsimp only
  rw [riskJudge_none _ _ _ hj]
  have h1 : (stageSafe rd (stageRisky rd { u with
      risk_debate_state := some rd })).agent_statuses Agent.neutralAnalyst =
      u.agent_statuses Agent.neutralAnalyst := by
    rw [stageSafe_statuses_ne _ _ _ (by decide),
      stageRisky_statuses_ne _ _ _ (by decide)]
  rcases h with h | h
  · rw [stageNeutral_status_self _ _ (Or.inl h), h1]
  · rw [stageNeutral_status_self _ _ (Or.inr (by rw [h1]; exact h)), h1]

theorem riskPhase_risky_nonpending (c : Chunk) (rd : RiskDebate)
    (u : SymbolState) (t : String) (hc : c.risk_debate_state = some rd)
    (hresp : otruthy rd.current_risky_response = some t) :
    (riskPhase c u).agent_statuses Agent.riskyAnalyst ≠ Status.pending := by
  cases hj : otruthy rd.judge_decision with
  | some j =>
    rw [(riskPhase_statuses4 c rd u j hc hj).1]
    decide
  | none =>
    unfold riskPhase
    rw [hc]
    dsimp only
    rw [riskJudge_none _ _ _ hj, stageNeutral_statuses_ne _ _ _ (by decide),
      stageSafe_statuses_ne _ _ _ (by decide)]
    exact stageRisky_result_nonpending rd _ t hresp

theorem riskPhase_safe_nonpending (c : Chunk) (rd : RiskDebate)
    (u : SymbolState) (t : String) (hc : c.risk_debate_state = some rd)
    (hresp : otruthy rd.current_safe_response = some t) :
    (riskPhase c u).agent_statuses Agent.safeAnalyst ≠ Status.pending := by
  cases hj : otruthy rd.judge_decision with
  | some j =>
    rw [(riskPhase_statuses4 c rd u j hc hj).2.1]
    decide
  | none =>
    unfold riskPhase
    rw [hc]
    dsimp only
    rw [riskJudge_none _ _ _ hj, stageNeutral_statuses_ne _ _ _ (by decide)]
    exact stageSafe_result_nonpending rd _ t hresp

theorem riskPhase_neutral_nonpending (c : Chunk) (rd : RiskDebate)
    (u : SymbolState) (t : String) (hc : c.risk_debate_state = some rd)
    (hresp : otruthy rd.current_neutral_response = some t) :
    (riskPhase c u).agent_statuses Agent.neutralAnalyst ≠ Status.pending := by
  cases hj : otruthy rd.judge_decision with
  | some j =>
    rw [(riskPhase_statuses4 c rd u j hc hj).2.2.1]
    decide
  | none =>
    unfold riskPhase
    rw [hc]
    dsimp only
    rw [riskJudge_none _ _ _ hj]
    exact stageNeutral_result_nonpending rd _ t hresp

theorem process_inv_stored (seq : List Agent) (now : Nat) (c : Chunk)
    (s : SymbolState) (d : InvDebate)
    (hc : c.investment_debate_state = some d) :
    (process_chunk_updates seq now c s).investment_debate_state = some d := by
  unfold process_chunk_updates
  rw [humanPhase_inv, riskPhase_inv, traderPhase_inv]
  exact invPhase_inv_some c d _ hc

theorem process_risk_stored (seq : List Agent) (now : Nat) (c : Chunk)
    (s : SymbolState) (rd : RiskDebate)
    (hc : c.risk_debate_state = some rd) :
    (process_chunk_updates seq now c s).risk_debate_state = some rd := by
  unfold process_chunk_updates
  rw [humanPhase_risk]
  exact riskPhase_risk_some c rd _ hc

theorem process_rec_judge (seq : List Agent) (now : Nat) (c : Chunk)
    (s : SymbolState) (rd : RiskDebate) (j : String) (v : Option String)
    (hc : c.risk_debate_state = some rd)
    (hj : otruthy rd.judge_decision = some j)
    (hrec : c.recommended_action = some v) :
    (process_chunk_updates seq now c s).recommended_action = some v := by
  unfold process_chunk_updates
  rw [humanPhase_rec, riskPhase_rec_char c rd _ hc, hj, hrec]

theorem process_inv_judge_statuses (seq : List Agent) (now : Nat) (c : Chunk)
    (s : SymbolState) (d : InvDebate) (j : String)
    (hc : c.investment_debate_state = some d)
    (hj : otruthy d.judge_decision = some j) :
    (process_chunk_updates seq now c s).agent_statuses Agent.bullResearcher =
        Status.completed ∧
      (process_chunk_updates seq now c s).agent_statuses
        Agent.bearResearcher = Status.completed ∧
      (process_chunk_updates seq now c s).agent_statuses
        Agent.researchManager = Status.completed := by
  have hI := invPhase_judge_statuses c d (analystLoop seq now c s) j hc hj
  unfold process_chunk_updates
  refine ⟨?_, ?_, ?_⟩
  · have hR : (riskPhase c (traderPhase c (invPhase c (analystLoop seq now c
        s)))).agent_statuses Agent.bullResearcher = Status.completed := by
      rw [riskPhase_statuses_ne _ _ _ (by decide) (by decide) (by decide)
        (by decide), traderPhase_statuses_ne _ _ _ (by decide) (by decide)]
      exact hI.1
    rw [humanPhase_statuses_nonpending _ _ _ _ (by rw [hR]; decide), hR]
  · have hR : (riskPhase c (traderPhase c (invPhase c (analystLoop seq now c
        s)))).agent_statuses Agent.bearResearcher = Status.completed := by
      rw [riskPhase_statuses_ne _ _ _ (by decide) (by decide) (by decide)
        (by decide), traderPhase_statuses_ne _ _ _ (by decide) (by decide)]
      exact hI.2.1
    rw [humanPhase_statuses_nonpending _ _ _ _ (by rw [hR]; decide), hR]
  · have hR : (riskPhase c (traderPhase c (invPhase c (analystLoop seq now c
        s)))).agent_statuses Agent.researchManager = Status.completed := by
      rw [riskPhase_statuses_ne _ _ _ (by decide) (by decide) (by decide)
        (by decide), traderPhase_statuses_ne _ _ _ (by decide) (by decide)]
      exact hI.2.2.1
    rw [humanPhase_statuses_nonpending _ _ _ _ (by rw [hR]; decide), hR]

theorem process_trader_ip (seq : List Agent) (now : Nat) (c : Chunk)
    (s : SymbolState) (d : InvDebate) (j : String)
    (hc : c.investment_debate_state = some d)
    (hj : otruthy d.judge_decision = some j)
    (ht : truthy2 c.trader_investment_plan = none) :
    (process_chunk_updates seq now c s).agent_statuses Agent.trader =
      Status.in_progress := by
  have hI := (invPhase_judge_statuses c d (analystLoop seq now c s) j hc
    hj).2.2.2
  unfold process_chunk_updates
  rw [traderPhase_none c _ ht]
  have hR : (riskPhase c (invPhase c (analystLoop seq now c
      s))).agent_statuses Agent.trader = Status.in_progress := by
    rw [riskPhase_statuses_ne _ _ _ (by decide) (by decide) (by decide)
      (by decide)]
    exact hI
  rw [humanPhase_statuses_nonpending _ _ _ _ (by rw [hR]; decide), hR]

theorem process_trader_completed (seq : List Agent) (now : Nat) (c : Chunk)
    (s : SymbolState) (p : String)
    (ht : truthy2 c.trader_investment_plan = some p) :
    (process_chunk_updates seq now c s).agent_statuses Agent.trader =
      Status.completed := by
  have hT := (traderPhase_some_statuses c (invPhase c (analystLoop seq now c
    s)) p ht).1
  unfold process_chunk_updates
  have hR : (riskPhase c (traderPhase c (invPhase c (analystLoop seq now c
      s)))).agent_statuses Agent.trader = Status.completed := by
    rw [riskPhase_statuses_ne _ _ _ (by decide) (by decide) (by decide)
      (by decide)]
    exact hT
  rw [humanPhase_statuses_nonpending _ _ _ _ (by rw [hR]; decide), hR]

theorem process_risk_statuses4 (seq : List Agent) (now : Nat) (c : Chunk)
    (s : SymbolState) (rd : RiskDebate) (j : String)
    (hc : c.risk_debate_state = some rd)
    (hj : otruthy rd.judge_decision = some j) :
    (process_chunk_updates seq now c s).agent_statuses Agent.riskyAnalyst =
        Status.completed ∧
      (process_chunk_updates seq now c s).agent_statuses Agent.safeAnalyst =
        Status.completed ∧
      (process_chunk_updates seq now c s).agent_statuses
        Agent.neutralAnalyst = Status.completed ∧
      (process_chunk_updates seq now c s).agent_statuses
        Agent.portfolioManager = Status.completed := by
  have h4 := riskPhase_statuses4 c rd (traderPhase c (invPhase c
    (analystLoop seq now c s))) j hc hj
  unfold process_chunk_updates
  refine ⟨?_, ?_, ?_, ?_⟩
  · rw [humanPhase_statuses_nonpending _ _ _ _ (by rw [h4.1]; decide), h4.1]
  · rw [humanPhase_statuses_nonpending _ _ _ _ (by rw [h4.2.1]; decide),
      h4.2.1]
  · rw [humanPhase_statuses_nonpending _ _ _ _ (by rw [h4.2.2.1]; decide),
      h4.2.2.1]
  · rw [humanPhase_statuses_nonpending _ _ _ _ (by rw [h4.2.2.2]; decide),
      h4.2.2.2]

theorem process_risky_ip (seq : List Agent) (now : Nat) (c : Chunk)
    (s : SymbolState) (p : String)
    (ht : truthy2 c.trader_investment_plan = some p)
    (hnj : isRiskJudgeChunk c = false) :
    (process_chunk_updates seq now c s).agent_statuses Agent.riskyAnalyst =
      Status.in_progress := by
  have hT := (traderPhase_some_statuses c (invPhase c (analystLoop seq now c
    s)) p ht).2
  unfold process_chunk_updates
  have hR : (riskPhase c (traderPhase c (invPhase c (analystLoop seq now c
      s)))).agent_statuses Agent.riskyAnalyst = Status.in_progress := by
    cases hcr : c.risk_debate_state with
    | none =>
      rw [riskPhase_none _ _ hcr]
      exact hT
    | some rd =>
      have hjn : otruthy rd.judge_decision = none := by
        unfold isRiskJudgeChunk at hnj
        rw [hcr] at hnj
        dsimp only at hnj
        cases ho : otruthy rd.judge_decision with
        | none => rfl
        | some j => rw [ho] at hnj; simp at hnj
      rw [riskPhase_risky_status_nojudge c rd _ hcr hjn
        (Or.inr (by rw [hT]; decide))]
      exact hT
  rw [humanPhase_statuses_nonpending _ _ _ _ (by rw [hR]; decide), hR]

theorem process_bull_nonpending (seq : List Agent) (now : Nat) (c : Chunk)
    (s : SymbolState) (d : InvDebate) (h0 : String)
    (hc : c.investment_debate_state = some d)
    (hb : otruthy d.bull_history = some h0) :
    (process_chunk_updates seq now c s).agent_statuses Agent.bullResearcher
      ≠ Status.pending := by
  have hI := invPhase_bull_nonpending c d (analystLoop seq now c s) h0 hc hb
  unfold process_chunk_updates
  have hR : (riskPhase c (traderPhase c (invPhase c (analystLoop seq now c
      s)))).agent_statuses Agent.bullResearcher =
      (invPhase c (analystLoop seq now c s)).agent_statuses
        Agent.bullResearcher := by
    rw [riskPhase_statuses_ne _ _ _ (by decide) (by decide) (by decide)
      (by decide), traderPhase_statuses_ne _ _ _ (by decide) (by decide)]
  rw [humanPhase_statuses_nonpending _ _ _ _ (by rw [hR]; exact hI), hR]
  exact hI

theorem process_bear_nonpending (seq : List Agent) (now : Nat) (c : Chunk)
    (s : SymbolState) (d : InvDebate) (h0 : String)
    (hc : c.investment_debate_state = some d)
    (hb : otruthy d.bear_history = some h0) :
    (process_chunk_updates seq now c s).agent_statuses Agent.bearResearcher
      ≠ Status.pending := by
  have hI := invPhase_bear_nonpending c d (analystLoop seq now c s) h0 hc hb
  unfold process_chunk_updates
  have hR : (riskPhase c (traderPhase c (invPhase c (analystLoop seq now c
      s)))).agent_statuses Agent.bearResearcher =
      (invPhase c (analystLoop seq now c s)).agent_statuses
        Agent.bearResearcher := by
    rw [riskPhase_statuses_ne _ _ _ (by decide) (by decide) (by decide)
      (by decide), traderPhase_statuses_ne _ _ _ (by decide) (by decide)]
  rw [humanPhase_statuses_nonpending _ _ _ _ (by rw [hR]; exact hI), hR]
  exact hI

theorem process_risky_nonpending (seq : List Agent) (now : Nat) (c : Chunk)
    (s : SymbolState) (rd : RiskDebate) (t : String)
    (hc : c.risk_debate_state = some rd)
    (hresp : otruthy rd.current_risky_response = some t) :
    (process_chunk_updates seq now c s).agent_statuses Agent.riskyAnalyst ≠
      Status.pending := by
  have hR := riskPhase_risky_nonpending c rd (traderPhase c (invPhase c
    (analystLoop seq now c s))) t hc hresp
  unfold process_chunk_updates
  rw [humanPhase_statuses_nonpending _ _ _ _ hR]
  exact hR

theorem process_safe_nonpending (seq : List Agent) (now : Nat) (c : Chunk)
    (s : SymbolState) (rd : RiskDebate) (t : String)
    (hc : c.risk_debate_state = some rd)
    (hresp : otruthy rd.current_safe_response = some t) :
    (process_chunk_updates seq now c s).agent_statuses Agent.safeAnalyst ≠
      Status.pending := by
  have hR := riskPhase_safe_nonpending c rd (traderPhase c (invPhase c
    (analystLoop seq now c s))) t hc hresp
  unfold process_chunk_updates
  rw [humanPhase_statuses_nonpending _ _ _ _ hR]
  exact hR

theorem process_neutral_nonpending (seq : List Agent) (now : Nat)
    (c : Chunk) (s : SymbolState) (rd : RiskDebate) (t : String)
    (hc : c.risk_debate_state = some rd)
    (hresp : otruthy rd.current_neutral_response = some t) :
    (process_chunk_updates seq now c s).agent_statuses Agent.neutralAnalyst
      ≠ Status.pending := by
  have hR := riskPhase_neutral_nonpending c rd (traderPhase c (invPhase c
    (analystLoop seq now c s))) t hc hresp
  unfold process_chunk_updates
  rw [humanPhase_statuses_nonpending _ _ _ _ hR]
  exact hR

theorem process_rm_invplan (seq : List Agent) (now : Nat) (c : Chunk)
    (s : SymbolState) (d : InvDebate) (j : String)
    (hc : c.investment_debate_state = some d)
    (hj : otruthy d.judge_decision = some j) :
    (process_chunk_updates seq now c s).current_reports
        RField.researchManagerReport = some j ∧
      (process_chunk_updates seq now c s).current_reports
        RField.investmentPlan = some j := by
  have h := invPhase_judge_rm_report c d (analystLoop seq now c s) j hc hj
  unfold process_chunk_updates
  constructor
  · rw [humanPhase_reports, riskPhase_reports_ne _ _ _ (by decide)
      (by decide) (by decide) (by decide) (by decide),
      traderPhase_reports_ne _ _ _ (by decide)]
    exact h.1
  · rw [humanPhase_reports, riskPhase_reports_ne _ _ _ (by decide)
      (by decide) (by decide) (by decide) (by decide),
      traderPhase_reports_ne _ _ _ (by decide)]
    exact h.2

theorem process_tp_report (seq : List Agent) (now : Nat) (c : Chunk)
    (s : SymbolState) (p : String)
    (ht : truthy2 c.trader_investment_plan = some p) :
    (process_chunk_updates seq now c s).current_reports
      RField.traderInvestmentPlan = some p := by
  unfold process_chunk_updates
  rw [humanPhase_reports, riskPhase_reports_ne _ _ _ (by decide) (by decide)
    (by decide) (by decide) (by decide)]
  exact traderPhase_plan_report c _ p ht

theorem process_decisions (seq : List Agent) (now : Nat) (c : Chunk)
    (s : SymbolState) (rd : RiskDebate) (j : String)
    (hc : c.risk_debate_state = some rd)
    (hj : otruthy rd.judge_decision = some j) :
    (process_chunk_updates seq now c s).current_reports
        RField.portfolioDecision = some j ∧
      (process_chunk_updates seq now c s).current_reports
        RField.finalTradeDecision = some j := by
  have h := riskPhase_decisions c rd (traderPhase c (invPhase c
    (analystLoop seq now c s))) j hc hj
  unfold process_chunk_updates
  constructor
  · rw [humanPhase_reports]
    exact h.1
  · rw [humanPhase_reports]
    exact h.2

theorem process_risky_repF (seq : List Agent) (now : Nat) (c : Chunk)
    (s : SymbolState) (rd : RiskDebate)
    (hc : c.risk_debate_state = some rd) :
    ∃ x, (process_chunk_updates seq now c s).current_reports
      RField.riskyReport = riskyRepF rd x := by
  refine ⟨(traderPhase c (invPhase c (analystLoop seq now c
    s))).current_reports RField.riskyReport, ?_⟩
  unfold process_chunk_updates
  rw [humanPhase_reports]
  exact riskPhase_risky_report c rd _ hc

theorem process_safe_repF (seq : List Agent) (now : Nat) (c : Chunk)
    (s : SymbolState) (rd : RiskDebate)
    (hc : c.risk_debate_state = some rd) :
    ∃ x, (process_chunk_updates seq now c s).current_reports
      RField.safeReport = safeRepF rd x := by
  refine ⟨(traderPhase c (invPhase c (analystLoop seq now c
    s))).current_reports RField.safeReport, ?_⟩
  unfold process_chunk_updates
  rw [humanPhase_reports]
  exact riskPhase_safe_report c rd _ hc

theorem process_neutral_repF (seq : List Agent) (now : Nat) (c : Chunk)
    (s : SymbolState) (rd : RiskDebate)
    (hc : c.risk_debate_state = some rd) :
    ∃ x, (process_chunk_updates seq now c s).current_reports
      RField.neutralReport = neutralRepF rd x := by
  refine ⟨(traderPhase c (invPhase c (analystLoop seq now c
    s))).current_reports RField.neutralReport, ?_⟩
  unfold process_chunk_updates
  rw [humanPhase_reports]
  exact riskPhase_neutral_report c rd _ hc

theorem process_bull_report_val (seq : List Agent) (now : Nat) (c : Chunk)
    (s : SymbolState) (d : InvDebate) (v : String)
    (hc : c.investment_debate_state = some d) (hbv : bullVal d = some v) :
    (process_chunk_updates seq now c s).current_reports RField.bullReport =
      some v := by
  unfold process_chunk_updates
  rw [humanPhase_reports, riskPhase_reports_ne _ _ _ (by decide) (by decide)
    (by decide) (by decide) (by decide),
    traderPhase_reports_ne _ _ _ (by decide),
    invPhase_bull_report c d _ hc, hbv]

theorem process_bear_report_val (seq : List Agent) (now : Nat) (c : Chunk)
    (s : SymbolState) (d : InvDebate) (v : String)
    (hc : c.investment_debate_state = some d) (hbv : bearVal d = some v) :
    (process_chunk_updates seq now c s).current_reports RField.bearReport =
      some v := by
  unfold process_chunk_updates
  rw [humanPhase_reports, riskPhase_reports_ne _ _ _ (by decide) (by decide)
    (by decide) (by decide) (by decide),
    traderPhase_reports_ne _ _ _ (by decide),
    invPhase_bear_report c d _ hc, hbv]

theorem isRiskJudgeChunk_false (c : Chunk) (rd : RiskDebate)
    (hcr : c.risk_debate_state = some rd) (hf : isRiskJudgeChunk c = false) :
    otruthy rd.judge_decision = none := by
  unfold isRiskJudgeChunk at hf
  rw [hcr] at hf
  dsimp only at hf
  cases ho : otruthy rd.judge_decision with
  | none => rfl
  | some j => rw [ho] at hf; simp at hf

theorem isRiskJudgeChunk_true (c : Chunk) (hf : isRiskJudgeChunk c = true) :
    ∃ rd j, c.risk_debate_state = some rd ∧
      otruthy rd.judge_decision = some j := by
  unfold isRiskJudgeChunk at hf
  cases hcr : c.risk_debate_state with
  | none => rw [hcr] at hf; exact absurd hf (by decide)
  | some rd =>
    rw [hcr] at hf
    dsimp only at hf
    cases ho : otruthy rd.judge_decision with
    | none => rw [ho] at hf; exact absurd hf (by decide)
    | some j => exact ⟨rd, j, rfl, ho⟩

theorem phases_restore (c : Chunk) (X : SymbolState)
    (hinv : ∀ d, c.investment_debate_state = some d →
      X.investment_debate_state = some d)
    (hrisk : ∀ rd, c.risk_debate_state = some rd →
      X.risk_debate_state = some rd)
    (hflag : isRiskJudgeChunk c = true → X.analysis_complete = true)
    (hrec : ∀ rd j v, c.risk_debate_state = some rd →
      otruthy rd.judge_decision = some j → c.recommended_action = some v →
      X.recommended_action = some v)
    (hIJ : ∀ d j, c.investment_debate_state = some d →
      otruthy d.judge_decision = some j →
      X.agent_statuses Agent.bullResearcher = Status.completed ∧
        X.agent_statuses Agent.bearResearcher = Status.completed ∧
        X.agent_statuses Agent.researchManager = Status.completed)
    (htip : ∀ d j, c.investment_debate_state = some d →
      otruthy d.judge_decision = some j →
      truthy2 c.trader_investment_plan = none →
      X.agent_statuses Agent.trader = Status.in_progress)
    (htcomp : ∀ p, truthy2 c.trader_investment_plan = some p →
      X.agent_statuses Agent.trader = Status.completed)
    (hRJ4 : ∀ rd j, c.risk_debate_state = some rd →
      otruthy rd.judge_decision = some j →
      X.agent_statuses Agent.riskyAnalyst = Status.completed ∧
        X.agent_statuses Agent.safeAnalyst = Status.completed ∧
        X.agent_statuses Agent.neutralAnalyst = Status.completed ∧
        X.agent_statuses Agent.portfolioManager = Status.completed)
    (hriskyip : ∀ p, truthy2 c.trader_investment_plan = some p →
      isRiskJudgeChunk c = false →
      X.agent_statuses Agent.riskyAnalyst = Status.in_progress)
    (hbullnp : ∀ d h0, c.investment_debate_state = some d →
      otruthy d.bull_history = some h0 →
      X.agent_statuses Agent.bullResearcher ≠ Status.pending)
    (hbearnp : ∀ d h0, c.investment_debate_state = some d →
      otruthy d.bear_history = some h0 →
      X.agent_statuses Agent.bearResearcher ≠ Status.pending)
    (hriskynp : ∀ rd t, c.risk_debate_state = some rd →
      otruthy rd.current_risky_response = some t →
      X.agent_statuses Agent.riskyAnalyst ≠ Status.pending)
    (hsafenp : ∀ rd t, c.risk_debate_state = some rd →
      otruthy rd.current_safe_response = some t →
      X.agent_statuses Agent.safeAnalyst ≠ Status.pending)
    (hneutralnp : ∀ rd t, c.risk_debate_state = some rd →
      otruthy rd.current_neutral_response = some t →
      X.agent_statuses Agent.neutralAnalyst ≠ Status.pending)
    (hrm : ∀ d j, c.investment_debate_state = some d →
      otruthy d.judge_decision = some j →
      X.current_reports RField.researchManagerReport = some j ∧
        X.current_reports RField.investmentPlan = some j)
    (htp : ∀ p, truthy2 c.trader_investment_plan = some p →
      X.current_reports RField.traderInvestmentPlan = some p)
    (hdec : ∀ rd j, c.risk_debate_state = some rd →
      otruthy rd.judge_decision = some j →
      X.current_reports RField.portfolioDecision = some j ∧
        X.current_reports RField.finalTradeDecision = some j)
    (hriskyrep : ∀ rd, c.risk_debate_state = some rd →
      ∃ x, X.current_reports RField.riskyReport = riskyRepF rd x)
    (hsaferep : ∀ rd, c.risk_debate_state = some rd →
      ∃ x, X.current_reports RField.safeReport = safeRepF rd x)
    (hneutralrep : ∀ rd, c.risk_debate_state = some rd →
      ∃ x, X.current_reports RField.neutralReport = neutralRepF rd x)
    (hbullrep : ∀ d v, c.investment_debate_state = some d →
      bullVal d = some v → X.current_reports RField.bullReport = some v)
    (hbearrep : ∀ d v, c.investment_debate_state = some d →
      bearVal d = some v → X.current_reports RField.bearReport = some v) :
    riskPhase c (traderPhase c (invPhase c X)) = X := by
  have hst : (riskPhase c (traderPhase c (invPhase c X))).agent_statuses =
      X.agent_statuses := by
    funext a
    cases a with
    | marketAnalyst =>
      rw [riskPhase_statuses_ne _ _ _ (by decide) (by decide) (by decide)
        (by decide), traderPhase_statuses_ne _ _ _ (by decide) (by decide),
        invPhase_statuses_ne _ _ _ (by decide) (by decide) (by decide)
        (by decide)]
    | socialAnalyst =>
      rw [riskPhase_statuses_ne _ _ _ (by decide) (by decide) (by decide)
        (by decide), traderPhase_statuses_ne _ _ _ (by decide) (by decide),
        invPhase_statuses_ne _ _ _ (by decide) (by decide) (by decide)
        (by decide)]
    | newsAnalyst =>
      rw [riskPhase_statuses_ne _ _ _ (by decide) (by decide) (by decide)
        (by decide), traderPhase_statuses_ne _ _ _ (by decide) (by decide),
        invPhase_statuses_ne _ _ _ (by decide) (by decide) (by decide)
        (by decide)]
    | fundamentalsAnalyst =>
      rw [riskPhase_statuses_ne _ _ _ (by decide) (by decide) (by decide)
        (by decide), traderPhase_statuses_ne _ _ _ (by decide) (by decide),
        invPhase_statuses_ne _ _ _ (by decide) (by decide) (by decide)
        (by decide)]
    | macroAnalyst =>
      rw [riskPhase_statuses_ne _ _ _ (by decide) (by decide) (by decide)
        (by decide), traderPhase_statuses_ne _ _ _ (by decide) (by decide),
        invPhase_statuses_ne _ _ _ (by decide) (by decide) (by decide)
        (by decide)]
    | bullResearcher =>
      cases hc : c.investment_debate_state with
      | none =>
        rw [riskPhase_statuses_ne _ _ _ (by decide) (by decide) (by decide)
          (by decide), traderPhase_statuses_ne _ _ _ (by decide)
          (by decide), invPhase_none _ _ hc]
      | some d =>
        cases hj : otruthy d.judge_decision with
        | some j =>
          rw [riskPhase_statuses_ne _ _ _ (by decide) (by decide)
            (by decide) (by decide), traderPhase_statuses_ne _ _ _
            (by decide) (by decide),
            (invPhase_judge_statuses c d _ j hc hj).1, (hIJ d j hc hj).1]
        | none =>
          rw [riskPhase_statuses_ne _ _ _ (by decide) (by decide)
            (by decide) (by decide), traderPhase_statuses_ne _ _ _
            (by decide) (by decide)]
          apply invPhase_bull_status_nojudge c d _ hc hj
          cases hbh : otruthy d.bull_history with
          | none => exact Or.inl rfl
          | some h0 => exact Or.inr (hbullnp d h0 hc hbh)
    | bearResearcher =>
      cases hc : c.investment_debate_state with
      | none =>
        rw [riskPhase_statuses_ne _ _ _ (by decide) (by decide) (by decide)
          (by decide), traderPhase_statuses_ne _ _ _ (by decide)
          (by decide), invPhase_none _ _ hc]
      | some d =>
        cases hj : otruthy d.judge_decision with
        | some j =>
          rw [riskPhase_statuses_ne _ _ _ (by decide) (by decide)
            (by decide) (by decide), traderPhase_statuses_ne _ _ _
            (by decide) (by decide),
            (invPhase_judge_statuses c d _ j hc hj).2.1,
            (hIJ d j hc hj).2.1]
        | none =>
          rw [riskPhase_statuses_ne _ _ _ (by decide) (by decide)
            (by decide) (by decide), traderPhase_statuses_ne _ _ _
            (by decide) (by decide)]
          apply invPhase_bear_status_nojudge c d _ hc hj
          cases hbh : otruthy d.bear_history with
          | none => exact Or.inl rfl
          | some h0 => exact Or.inr (hbearnp d h0 hc hbh)
    | researchManager =>
      cases hc : c.investment_debate_state with
      | none =>
        rw [riskPhase_statuses_ne _ _ _ (by decide) (by decide) (by decide)
          (by decide), traderPhase_statuses_ne _ _ _ (by decide)
          (by decide), invPhase_none _ _ hc]
      | some d =>
        cases hj : otruthy d.judge_decision with
        | some j =>
          rw [riskPhase_statuses_ne _ _ _ (by decide) (by decide)
            (by decide) (by decide), traderPhase_statuses_ne _ _ _
            (by decide) (by decide),
            (invPhase_judge_statuses c d _ j hc hj).2.2.1,
            (hIJ d j hc hj).2.2]
        | none =>
          rw [riskPhase_statuses_ne _ _ _ (by decide) (by decide)
            (by decide) (by decide), traderPhase_statuses_ne _ _ _
            (by decide) (by decide),
            invPhase_statuses_nojudge c d _ _ hc hj (by decide) (by decide)]
    | trader =>
      cases ht : truthy2 c.trader_investment_plan with
      | some p =>
        rw [riskPhase_statuses_ne _ _ _ (by decide) (by decide) (by decide)
          (by decide), (traderPhase_some_statuses c _ p ht).1, htcomp p ht]
      | none =>
        rw [riskPhase_statuses_ne _ _ _ (by decide) (by decide) (by decide)
          (by decide), traderPhase_none _ _ ht]
        cases hc : c.investment_debate_state with
        | none => rw [invPhase_none _ _ hc]
        | some d =>
          cases hj : otruthy d.judge_decision with
          | none =>
            rw [invPhase_statuses_nojudge c d _ _ hc hj (by decide)
              (by decide)]
          | some j =>
            rw [(invPhase_judge_statuses c d _ j hc hj).2.2.2,
              htip d j hc hj ht]
    | riskyAnalyst =>
      cases hfr : isRiskJudgeChunk c with
      | true =>
        obtain ⟨rd, j, hcr, hjj⟩ := isRiskJudgeChunk_true c hfr
        rw [(riskPhase_statuses4 c rd _ j hcr hjj).1,
          (hRJ4 rd j hcr hjj).1]
      | false =>
        cases ht : truthy2 c.trader_investment_plan with
        | some p =>
          have hTip : (traderPhase c (invPhase c X)).agent_statuses
              Agent.riskyAnalyst = Status.in_progress :=
            (traderPhase_some_statuses c _ p ht).2
          have hRip : (riskPhase c (traderPhase c (invPhase c
              X))).agent_statuses Agent.riskyAnalyst =
              Status.in_progress := by
            cases hcr : c.risk_debate_state with
            | none =>
              rw [riskPhase_none _ _ hcr]
              exact hTip
            | some rd =>
              have hjn := isRiskJudgeChunk_false c rd hcr hfr
              rw [riskPhase_risky_status_nojudge c rd _ hcr hjn
                (Or.inr (by rw [hTip]; decide))]
              exact hTip
          rw [hRip, hriskyip p ht hfr]
        | none =>
          have hTI : (traderPhase c (invPhase c X)).agent_statuses
              Agent.riskyAnalyst = X.agent_statuses Agent.riskyAnalyst := by
            rw [traderPhase_none _ _ ht, invPhase_statuses_ne _ _ _
              (by decide) (by decide) (by decide) (by decide)]
          cases hcr : c.risk_debate_state with
          | none => rw [riskPhase_none _ _ hcr, hTI]
          | some rd =>
            have hjn := isRiskJudgeChunk_false c rd hcr hfr
            cases hrsp : otruthy rd.current_risky_response with
            | none =>
              rw [riskPhase_risky_status_nojudge c rd _ hcr hjn
                (Or.inl hrsp), hTI]
            | some t =>
              rw [riskPhase_risky_status_nojudge c rd _ hcr hjn
                (Or.inr (by rw [hTI]; exact hriskynp rd t hcr hrsp)), hTI]
    | safeAnalyst =>
      cases hfr : isRiskJudgeChunk c with
      | true =>
        obtain ⟨rd, j, hcr, hjj⟩ := isRiskJudgeChunk_true c hfr
        rw [(riskPhase_statuses4 c rd _ j hcr hjj).2.1,
          (hRJ4 rd j hcr hjj).2.1]
      | false =>
        have hTI : (traderPhase c (invPhase c X)).agent_statuses
            Agent.safeAnalyst = X.agent_statuses Agent.safeAnalyst := by
          rw [traderPhase_statuses_ne _ _ _ (by decide) (by decide),
            invPhase_statuses_ne _ _ _ (by decide) (by decide) (by decide)
            (by decide)]
        cases hcr : c.risk_debate_state with
        | none => rw [riskPhase_none _ _ hcr, hTI]
        | some rd =>
          have hjn := isRiskJudgeChunk_false c rd hcr hfr
          cases hrsp : otruthy rd.current_safe_response with
          | none =>
            rw [riskPhase_safe_status_nojudge c rd _ hcr hjn
              (Or.inl hrsp), hTI]
          | some t =>
            rw [riskPhase_safe_status_nojudge c rd _ hcr hjn
              (Or.inr (by rw [hTI]; exact hsafenp rd t hcr hrsp)), hTI]
    | neutralAnalyst =>
      cases hfr : isRiskJudgeChunk c with
      | true =>
        obtain ⟨rd, j, hcr, hjj⟩ := isRiskJudgeChunk_true c hfr
        rw [(riskPhase_statuses4 c rd _ j hcr hjj).2.2.1,
          (hRJ4 rd j hcr hjj).2.2.1]
      | false =>
        have hTI : (traderPhase c (invPhase c X)).agent_statuses
            Agent.neutralAnalyst = X.agent_statuses Agent.neutralAnalyst := by
          rw [traderPhase_statuses_ne _ _ _ (by decide) (by decide),
            invPhase_statuses_ne _ _ _ (by decide) (by decide) (by decide)
            (by decide)]
        cases hcr : c.risk_debate_state with
        | none => rw [riskPhase_none _ _ hcr, hTI]
        | some rd =>
          have hjn := isRiskJudgeChunk_false c rd hcr hfr
          cases hrsp : otruthy rd.current_neutral_response with
          | none =>
            rw [riskPhase_neutral_status_nojudge c rd _ hcr hjn
              (Or.inl hrsp), hTI]
          | some t =>
            rw [riskPhase_neutral_status_nojudge c rd _ hcr hjn
              (Or.inr (by rw [hTI]; exact hneutralnp rd t hcr hrsp)), hTI]
    | portfolioManager =>
      cases hfr : isRiskJudgeChunk c with
      | true =>
        obtain ⟨rd, j, hcr, hjj⟩ := isRiskJudgeChunk_true c hfr
        rw [(riskPhase_statuses4 c rd _ j hcr hjj).2.2.2,
          (hRJ4 rd j hcr hjj).2.2.2]
      | false =>
        have hTI : (traderPhase c (invPhase c X)).agent_statuses
            Agent.portfolioManager =
            X.agent_statuses Agent.portfolioManager := by
          rw [traderPhase_statuses_ne _ _ _ (by decide) (by decide),
            invPhase_statuses_ne _ _ _ (by decide) (by decide) (by decide)
            (by decide)]
        cases hcr : c.risk_debate_state with
        | none => rw [riskPhase_none _ _ hcr, hTI]
        | some rd =>
          have hjn := isRiskJudgeChunk_false c rd hcr hfr
          rw [riskPhase_statuses_nojudge c rd _ _ hcr hjn (by decide)
            (by decide) (by decide), hTI]
  have hrep : (riskPhase c (traderPhase c (invPhase c X))).current_reports =
      X.current_reports := by
    funext b
    cases b with
    | marketReport =>
      rw [riskPhase_reports_ne _ _ _ (by decide) (by decide) (by decide)
        (by decide) (by decide), traderPhase_reports_ne _ _ _ (by decide),
        invPhase_reports_ne _ _ _ (by decide) (by decide) (by decide)
        (by decide)]
    | sentimentReport =>
      rw [riskPhase_reports_ne _ _ _ (by decide) (by decide) (by decide)
        (by decide) (by decide), traderPhase_reports_ne _ _ _ (by decide),
        invPhase_reports_ne _ _ _ (by decide) (by decide) (by decide)
        (by decide)]
    | newsReport =>
      rw [riskPhase_reports_ne _ _ _ (by decide) (by decide) (by decide)
        (by decide) (by decide), traderPhase_reports_ne _ _ _ (by decide),
        invPhase_reports_ne _ _ _ (by decide) (by decide) (by decide)
        (by decide)]
    | fundamentalsReport =>
      rw [riskPhase_reports_ne _ _ _ (by decide) (by decide) (by decide)
        (by decide) (by decide), traderPhase_reports_ne _ _ _ (by decide),
        invPhase_reports_ne _ _ _ (by decide) (by decide) (by decide)
        (by decide)]
    | macroReport =>
      rw [riskPhase_reports_ne _ _ _ (by decide) (by decide) (by decide)
        (by decide) (by decide), traderPhase_reports_ne _ _ _ (by decide),
        invPhase_reports_ne _ _ _ (by decide) (by decide) (by decide)
        (by decide)]
    | bullReport =>
      cases hc : c.investment_debate_state with
      | none =>
        rw [riskPhase_reports_ne _ _ _ (by decide) (by decide) (by decide)
          (by decide) (by decide), traderPhase_reports_ne _ _ _ (by decide),
          invPhase_none _ _ hc]
      | some d =>
        rw [riskPhase_reports_ne _ _ _ (by decide) (by decide) (by decide)
          (by decide) (by decide), traderPhase_reports_ne _ _ _ (by decide),
          invPhase_bull_report c d _ hc]
        cases hbv : bullVal d with
        | some v =>
          dsimp only
          rw [hbullrep d v hc hbv]
        | none => dsimp only
    | bearReport =>
      cases hc : c.investment_debate_state with
      | none =>
        rw [riskPhase_reports_ne _ _ _ (by decide) (by decide) (by decide)
          (by decide) (by decide), traderPhase_reports_ne _ _ _ (by decide),
          invPhase_none _ _ hc]
      | some d =>
        rw [riskPhase_reports_ne _ _ _ (by decide) (by decide) (by decide)
          (by decide) (by decide), traderPhase_reports_ne _ _ _ (by decide),
          invPhase_bear_report c d _ hc]
        cases hbv : bearVal d with
        | some v =>
          dsimp only
          rw [hbearrep d v hc hbv]
        | none => dsimp only
    | researchManagerReport =>
      cases hc : c.investment_debate_state with
      | none =>
        rw [riskPhase_reports_ne _ _ _ (by decide) (by decide) (by decide)
          (by decide) (by decide), traderPhase_reports_ne _ _ _ (by decide),
          invPhase_none _ _ hc]
      | some d =>
        cases hj : otruthy d.judge_decision with
        | none =>
          rw [riskPhase_reports_ne _ _ _ (by decide) (by decide) (by decide)
            (by decide) (by decide), traderPhase_reports_ne _ _ _
            (by decide), (invPhase_rm_report_nojudge c d _ hc hj).1]
        | some j =>
          rw [riskPhase_reports_ne _ _ _ (by decide) (by decide) (by decide)
            (by decide) (by decide), traderPhase_reports_ne _ _ _
            (by decide), (invPhase_judge_rm_report c d _ j hc hj).1,
            (hrm d j hc hj).1]
    | investmentPlan =>
      cases hc : c.investment_debate_state with
      | none =>
        rw [riskPhase_reports_ne _ _ _ (by decide) (by decide) (by decide)
          (by decide) (by decide), traderPhase_reports_ne _ _ _ (by decide),
          invPhase_none _ _ hc]
      | some d =>
        cases hj : otruthy d.judge_decision with
        | none =>
          rw [riskPhase_reports_ne _ _ _ (by decide) (by decide) (by decide)
            (by decide) (by decide), traderPhase_reports_ne _ _ _
            (by decide), (invPhase_rm_report_nojudge c d _ hc hj).2]
        | some j =>
          rw [riskPhase_reports_ne _ _ _ (by decide) (by decide) (by decide)
            (by decide) (by decide), traderPhase_reports_ne _ _ _
            (by decide), (invPhase_judge_rm_report c d _ j hc hj).2,
            (hrm d j hc hj).2]
    | traderInvestmentPlan =>
      cases ht : truthy2 c.trader_investment_plan with
      | none =>
        rw [riskPhase_reports_ne _ _ _ (by decide) (by decide) (by decide)
          (by decide) (by decide), traderPhase_none _ _ ht,
          invPhase_reports_ne _ _ _ (by decide) (by decide) (by decide)
          (by decide)]
      | some p =>
        rw [riskPhase_reports_ne _ _ _ (by decide) (by decide) (by decide)
          (by decide) (by decide), traderPhase_plan_report c _ p ht,
          htp p ht]
    | riskyReport =>
      cases hcr : c.risk_debate_state with
      | none =>
        rw [riskPhase_none _ _ hcr, traderPhase_reports_ne _ _ _
          (by decide), invPhase_reports_ne _ _ _ (by decide) (by decide)
          (by decide) (by decide)]
      | some rd =>
        obtain ⟨x, hx⟩ := hriskyrep rd hcr
        rw [riskPhase_risky_report c rd _ hcr,
          traderPhase_reports_ne _ _ _ (by decide),
          invPhase_reports_ne _ _ _ (by decide) (by decide) (by decide)
          (by decide), hx]
        exact riskyRepF_idem rd x
    | safeReport =>
      cases hcr : c.risk_debate_state with
      | none =>
        rw [riskPhase_none _ _ hcr, traderPhase_reports_ne _ _ _
          (by decide), invPhase_reports_ne _ _ _ (by decide) (by decide)
          (by decide) (by decide)]
      | some rd =>
        obtain ⟨x, hx⟩ := hsaferep rd hcr
        rw [riskPhase_safe_report c rd _ hcr,
          traderPhase_reports_ne _ _ _ (by decide),
          invPhase_reports_ne _ _ _ (by decide) (by decide) (by decide)
          (by decide), hx]
        exact safeRepF_idem rd x
    | neutralReport =>
      cases hcr : c.risk_debate_state with
      | none =>
        rw [riskPhase_none _ _ hcr, traderPhase_reports_ne _ _ _
          (by decide), invPhase_reports_ne _ _ _ (by decide) (by decide)
          (by decide) (by decide)]
      | some rd =>
        obtain ⟨x, hx⟩ := hneutralrep rd hcr
        rw [riskPhase_neutral_report c rd _ hcr,
          traderPhase_reports_ne _ _ _ (by decide),
          invPhase_reports_ne _ _ _ (by decide) (by decide) (by decide)
          (by decide), hx]
        exact neutralRepF_idem rd x
    | portfolioDecision =>
      cases hcr : c.risk_debate_state with
      | none =>
        rw [riskPhase_none _ _ hcr, traderPhase_reports_ne _ _ _
          (by decide), invPhase_reports_ne _ _ _ (by decide) (by decide)
          (by decide) (by decide)]
      | some rd =>
        cases hj : otruthy rd.judge_decision with
        | none =>
          rw [(riskPhase_decisions_nojudge c rd _ hcr hj).1,
            traderPhase_reports_ne _ _ _ (by decide),
            invPhase_reports_ne _ _ _ (by decide) (by decide) (by decide)
            (by decide)]
        | some j =>
          rw [(riskPhase_decisions c rd _ j hcr hj).1,
            (hdec rd j hcr hj).1]
    | finalTradeDecision =>
      cases hcr : c.risk_debate_state with
      | none =>
        rw [riskPhase_none _ _ hcr, traderPhase_reports_ne _ _ _
          (by decide), invPhase_reports_ne _ _ _ (by decide) (by decide)
          (by decide) (by decide)]
      | some rd =>
        cases hj : otruthy rd.judge_decision with
        | none =>
          rw [(riskPhase_decisions_nojudge c rd _ hcr hj).2,
            traderPhase_reports_ne _ _ _ (by decide),
            invPhase_reports_ne _ _ _ (by decide) (by decide) (by decide)
            (by decide)]
        | some j =>
          rw [(riskPhase_decisions c rd _ j hcr hj).2,
            (hdec rd j hcr hj).2]
  refine symbolState_ext hst hrep ?_ ?_ ?_ ?_ ?_ ?_
  · rw [riskPhase_timestamps, traderPhase_timestamps, invPhase_timestamps]
  · rw [riskPhase_counts, traderPhase_counts, invPhase_counts]
  · cases hc : c.investment_debate_state with
    | none => rw [riskPhase_inv, traderPhase_inv, invPhase_none _ _ hc]
    | some d =>
      rw [riskPhase_inv, traderPhase_inv, invPhase_inv_some c d _ hc,
        hinv d hc]
  · cases hcr : c.risk_debate_state with
    | none => rw [riskPhase_none _ _ hcr, traderPhase_risk, invPhase_risk]
    | some rd => rw [riskPhase_risk_some c rd _ hcr, hrisk rd hcr]
  · cases hf : isRiskJudgeChunk c with
    | true => rw [riskPhase_flag_some _ _ hf, hflag hf]
    | false =>
      rw [riskPhase_flag_none _ _ hf, traderPhase_flag, invPhase_flag]
  · cases hcr : c.risk_debate_state with
    | none => rw [riskPhase_none _ _ hcr, traderPhase_rec, invPhase_rec]
    | some rd =>
      rw [riskPhase_rec_char c rd _ hcr]
      cases hj : otruthy rd.judge_decision with
      | none =>
        dsimp only
        rw [traderPhase_rec, invPhase_rec]
      | some j =>
        cases hrc : c.recommended_action with
        | none =>
          dsimp only
          rw [traderPhase_rec, invPhase_rec]
        | some v =>
          dsimp only
          rw [hrec rd j v hcr hj hrc]

/-- **C2, counterexample.**  Replaying a market-report chunk on a fresh
symbol state is *not* a no-op: the market analyst is still `pending`
(never `completed`), so the duplicate filter cannot fire and the second
application stores the identical report again, bumping
`update_counts["market_report"]` from 1 to 2. -/
theorem claim2_counterexample :
    (process_chunk_updates defaultSeq 0 chunkMarketA
        init_symbol_state).update_counts AR.marketReport = 1 ∧
      (process_chunk_updates defaultSeq 7 chunkMarketA
        (process_chunk_updates defaultSeq 0 chunkMarketA
          init_symbol_state)).update_counts AR.marketReport = 2 := by
  constructor
  · decide
  · decide

/-- **C2.**  Amended idempotence: if after the first application every
analyst report field carried by the chunk has its owning agent
`completed` (`ownersDone`), then feeding the same chunk to
`process_chunk_updates` a second time — at any later clock reading —
changes nothing: every component of the symbol state (statuses, reports,
timestamps, update counts, debate fragments, completion flag and
recommended action) is left identical to its value after the first
application. -/
theorem claim2_idempotent_when_owners_completed (seq : List Agent)
    (now1 now2 : Nat) (c : Chunk) (s : SymbolState)
    (hdone : ownersDone c (process_chunk_updates seq now1 c s) = true) :
    process_chunk_updates seq now2 c (process_chunk_updates seq now1 c s) =
      process_chunk_updates seq now1 c s := by
  have hown : ∀ r : AR, ∀ txt : String, activeTxt c r = some txt →
      (process_chunk_updates seq now1 c s).agent_statuses (arAgent r) =
        Status.completed := by
    intro r txt hx
    have h1 := List.all_eq_true.mp hdone r (mem_arList r)
    have h2 : reportActive c r = true := by
      unfold reportActive
      rw [hx]
      rfl
    rw [h2] at h1
    simpa using h1
  have hA : analystLoop seq now2 c (process_chunk_updates seq now1 c s) =
      process_chunk_updates seq now1 c s := by
    apply analystLoop_id
    intro r txt hx
    exact ⟨hown r txt hx, process_pass1_cfg seq now1 c s r txt hx⟩
  have hP : riskPhase c (traderPhase c (invPhase c
      (process_chunk_updates seq now1 c s))) =
      process_chunk_updates seq now1 c s := by
    apply phases_restore
    · intro d hc
      exact process_inv_stored seq now1 c s d hc
    · intro rd hc
      exact process_risk_stored seq now1 c s rd hc
    · intro hf
      exact process_flag_judge seq now1 c s hf
    · intro rd j v hc hj hrc
      exact process_rec_judge seq now1 c s rd j v hc hj hrc
    · intro d j hc hj
      exact process_inv_judge_statuses seq now1 c s d j hc hj
    · intro d j hc hj ht
      exact process_trader_ip seq now1 c s d j hc hj ht
    · intro p ht
      exact process_trader_completed seq now1 c s p ht
    · intro rd j hc hj
      exact process_risk_statuses4 seq now1 c s rd j hc hj
    · intro p ht hf
      exact process_risky_ip seq now1 c s p ht hf
    · intro d h0 hc hb
      exact process_bull_nonpending seq now1 c s d h0 hc hb
    · intro d h0 hc hb
      exact process_bear_nonpending seq now1 c s d h0 hc hb
    · intro rd t hc hr
      exact process_risky_nonpending seq now1 c s rd t hc hr
    · intro rd t hc hr
      exact process_safe_nonpending seq now1 c s rd t hc hr
    · intro rd t hc hr
      exact process_neutral_nonpending seq now1 c s rd t hc hr
    · intro d j hc hj
      exact process_rm_invplan seq now1 c s d j hc hj
    · intro p ht
      exact process_tp_report seq now1 c s p ht
    · intro rd j hc hj
      exact process_decisions seq now1 c s rd j hc hj
    · intro rd hc
      exact process_risky_repF seq now1 c s rd hc
    · intro rd hc
      exact process_safe_repF seq now1 c s rd hc
    · intro rd hc
      exact process_neutral_repF seq now1 c s rd hc
    · intro d v hc hbv
      exact process_bull_report_val seq now1 c s d v hc hbv
    · intro d v hc hbv
      exact process_bear_report_val seq now1 c s d v hc hbv
  have hHm : humanPhase seq c (process_chunk_updates seq now1 c s) =
      process_chunk_updates seq now1 c s :=
    humanPhase_idem seq c (riskPhase c (traderPhase c (invPhase c
      (analystLoop seq now1 c s))))
  calc process_chunk_updates seq now2 c (process_chunk_updates seq now1 c s)
      = humanPhase seq c (riskPhase c (traderPhase c (invPhase c
          (process_chunk_updates seq now1 c s)))) := by
        show humanPhase seq c (riskPhase c (traderPhase c (invPhase c
          (analystLoop seq now2 c (process_chunk_updates seq now1 c s))))) =
          humanPhase seq c (riskPhase c (traderPhase c (invPhase c
            (process_chunk_updates seq now1 c s))))
        rw [hA]
    _ = humanPhase seq c (process_chunk_updates seq now1 c s) := by rw [hP]
    _ = process_chunk_updates seq now1 c s := hHm

/-- **C2, witness.**  A market chunk hitting an `in_progress` market
analyst completes it on the first pass, so the owners-completed guard
holds and a replay seven seconds later restores the state exactly. -/
theorem claim2_witness :
    ownersDone chunkMarketA (process_chunk_updates defaultSeq 0 chunkMarketA
        stateMarketInProgress) = true ∧
      process_chunk_updates defaultSeq 7 chunkMarketA
        (process_chunk_updates defaultSeq 0 chunkMarketA
          stateMarketInProgress) =
        process_chunk_updates defaultSeq 0 chunkMarketA
          stateMarketInProgress :=
  ⟨by decide, claim2_idempotent_when_owners_completed defaultSeq 0 7
    chunkMarketA stateMarketInProgress (by decide)⟩
